import Mathlib

/-!
# ALSA output plugin: format negotiation, setup, recovery and playback

A shallow embedding of `src/output/AlsaOutputPlugin.cxx`.  Calls into
libasound are answered by an explicit description of the hardware; every
call the plugin makes is recorded in a log, so that statements about the
order and the number of hardware calls can be made.

Machine integers: `int` and `snd_pcm_sframes_t` values are `Int`;
`unsigned`, `size_t` and `snd_pcm_uframes_t` values are `Nat`, reduced
modulo `2^32` respectively `2^64` where the C arithmetic can wrap.
-/

namespace Alsa

/-! ## Error numbers (Linux `errno.h`) -/

def EINTR : Int := 4
def EAGAIN : Int := 11
def EINVAL : Int := 22
def EPIPE : Int := 32
def ESTRPIPE : Int := 86

/-- Value of an `unsigned int`. -/
def u32 (n : Nat) : Nat := n % 2 ^ 32

/-- Value of a `size_t` / `snd_pcm_uframes_t` (LP64). -/
def u64 (n : Nat) : Nat := n % 2 ^ 64

/-- Conversion of a `long` to `int` (keeps the low 32 bits, two's complement). -/
def to_int (x : Int) : Int := (x + 2 ^ 31) % 2 ^ 32 - 2 ^ 31

/-! ## Sample formats -/

/-- The enumeration `SampleFormat`, with the cases of the switch in `get_bitformat`. -/
inductive SampleFormat where
  | UNDEFINED
  | S8
  | S16
  | S24_P32
  | S32
  | FLOAT
  | DSD
  | DSD_U8
  deriving DecidableEq, Repr

/-- The libasound formats the plugin names (`snd_pcm_format_t`), each with
an explicit byte order where libasound has one. -/
inductive snd_pcm_format_t where
  | UNKNOWN
  | S8
  | S16_LE
  | S16_BE
  | S24_LE
  | S24_BE
  | S32_LE
  | S32_BE
  | FLOAT_LE
  | FLOAT_BE
  | S24_3LE
  | S24_3BE
  | DSD_U8
  deriving DecidableEq, Repr

/-- The struct `AudioFormat`: sample rate (`uint32_t`), sample format, channel count (`uint8_t`). -/
structure AudioFormat where
  sample_rate : Nat
  format : SampleFormat
  channels : Nat
  deriving DecidableEq, Repr

/-- Function `get_bitformat`.  The libasound names without a byte order
(`SND_PCM_FORMAT_S16`, ...) stand for the byte order of the host, given by
`big_endian`. -/
def get_bitformat (big_endian : Bool) : SampleFormat → snd_pcm_format_t
  | .UNDEFINED => .UNKNOWN
  | .DSD => .UNKNOWN
  | .S8 => .S8
  | .S16 => if big_endian then .S16_BE else .S16_LE
  | .S24_P32 => if big_endian then .S24_BE else .S24_LE
  | .S32 => if big_endian then .S32_BE else .S32_LE
  | .FLOAT => if big_endian then .FLOAT_BE else .FLOAT_LE
  | .DSD_U8 => .DSD_U8

/-- Function `byteswap_bitformat`. -/
def byteswap_bitformat : snd_pcm_format_t → snd_pcm_format_t
  | .S16_LE => .S16_BE
  | .S24_LE => .S24_BE
  | .S32_LE => .S32_BE
  | .S16_BE => .S16_LE
  | .S24_BE => .S24_LE
  | .S24_3BE => .S24_3LE
  | .S24_3LE => .S24_3BE
  | .S32_BE => .S32_LE
  | _ => .UNKNOWN

/-- Function `alsa_to_packed_format`. -/
def alsa_to_packed_format : snd_pcm_format_t → snd_pcm_format_t
  | .S24_LE => .S24_3LE
  | .S24_BE => .S24_3BE
  | _ => .UNKNOWN

/-- What the format negotiation writes: the format stored in `hwparams` by a
successful `snd_pcm_hw_params_set_format`, the two output flags (`none`
while never assigned), and the formats offered to the hardware, in order. -/
structure Negotiation where
  hw_format : Option snd_pcm_format_t
  packed : Option Bool
  reverse_endian : Option Bool
  offered : List snd_pcm_format_t
  deriving DecidableEq, Repr

/-- The call `snd_pcm_hw_params_set_format(pcm, hwparams, fmt)`: the hardware
answers `set_format fmt`; on `0` the format is stored in `hwparams`. -/
def snd_pcm_hw_params_set_format (set_format : snd_pcm_format_t → Int)
    (fmt : snd_pcm_format_t) (n : Negotiation) : Int × Negotiation :=
  let err := set_format fmt
  (err, { n with hw_format := if err = 0 then some fmt else n.hw_format,
                 offered := n.offered ++ [fmt] })

/-- Function `alsa_try_format_or_packed`. -/
def alsa_try_format_or_packed (set_format : snd_pcm_format_t → Int)
    (fmt : snd_pcm_format_t) (n : Negotiation) : Int × Negotiation :=
  let (err, n) := snd_pcm_hw_params_set_format set_format fmt n
  let n := if err = 0 then { n with packed := some false } else n
  if err ≠ -EINVAL then (err, n)
  else
    let fmt := alsa_to_packed_format fmt
    if fmt = .UNKNOWN then (-EINVAL, n)
    else
      let (err, n) := snd_pcm_hw_params_set_format set_format fmt n
      let n := if err = 0 then { n with packed := some true } else n
      (err, n)

/-- Function `alsa_output_try_format`. -/
def alsa_output_try_format (big_endian : Bool) (set_format : snd_pcm_format_t → Int)
    (sample_format : SampleFormat) (n : Negotiation) : Int × Negotiation :=
  let alsa_format := get_bitformat big_endian sample_format
  if alsa_format = .UNKNOWN then (-EINVAL, n)
  else
    let (err, n) := alsa_try_format_or_packed set_format alsa_format n
    let n := if err = 0 then { n with reverse_endian := some false } else n
    if err ≠ -EINVAL then (err, n)
    else
      let alsa_format := byteswap_bitformat alsa_format
      if alsa_format = .UNKNOWN then (-EINVAL, n)
      else
        let (err, n) := alsa_try_format_or_packed set_format alsa_format n
        let n := if err = 0 then { n with reverse_endian := some true } else n
        (err, n)

/-- The array `probe_formats` of `alsa_output_setup_format`, with its
`UNDEFINED` terminator. -/
def probe_formats : List SampleFormat :=
  [.S24_P32, .S32, .S16, .S8, .UNDEFINED]

/-- The `for` loop of `alsa_output_setup_format` over the remaining entries
of `probe_formats`: it runs while `err == -EINVAL` and the entry is not the
`UNDEFINED` terminator. -/
def probe_loop (big_endian : Bool) (set_format : snd_pcm_format_t → Int) :
    List SampleFormat → Int → AudioFormat → Negotiation → Int × AudioFormat × Negotiation
  | [], err, audio_format, n => (err, audio_format, n)
  | mpd_format :: rest, err, audio_format, n =>
    if err = -EINVAL ∧ mpd_format ≠ .UNDEFINED then
      if mpd_format = audio_format.format then
        probe_loop big_endian set_format rest err audio_format n
      else
        let (err, n) := alsa_output_try_format big_endian set_format mpd_format n
        let audio_format :=
          if err = 0 then { audio_format with format := mpd_format } else audio_format
        probe_loop big_endian set_format rest err audio_format n
    else (err, audio_format, n)

/-- Function `alsa_output_setup_format`. -/
def alsa_output_setup_format (big_endian : Bool) (set_format : snd_pcm_format_t → Int)
    (audio_format : AudioFormat) (n : Negotiation) : Int × AudioFormat × Negotiation :=
  let (err, n) := alsa_output_try_format big_endian set_format audio_format.format n
  probe_loop big_endian set_format probe_formats err audio_format n

/-- The answer of one format probe: the return value of
`alsa_output_try_format` for a sample format. -/
def format_probe (big_endian : Bool) (set_format : snd_pcm_format_t → Int)
    (sample_format : SampleFormat) : Int :=
  (alsa_output_try_format big_endian set_format sample_format ⟨none, none, none, []⟩).1

/-! ## The output object -/

/-- The two libasound write functions `AlsaOutput::writei` can point to. -/
inductive alsa_writei_t where
  | snd_pcm_writei
  | snd_pcm_mmap_writei
  deriving DecidableEq, Repr

/-- The configuration fields of the struct `PcmExport` (`pcm/PcmExport.hxx`). -/
structure PcmExport where
  channels : Nat
  dsd_usb : Bool
  dsd_native : Bool
  dsd_native_type : Nat
  shift8 : Bool
  pack24 : Bool
  reverse_endian : Nat
  deriving DecidableEq, Repr

/-- The struct `AlsaOutput`.  The libasound handle `pcm` is the hardware
description passed to each function; `silence` holds the number of frames
the silence buffer was allocated for (`none` before the allocation). -/
structure AlsaOutput where
  pcm_export : PcmExport
  device : String
  use_mmap : Bool
  dsd_usb : Bool
  dsd_native : Bool
  buffer_time : Nat
  period_time : Nat
  mode : Int
  writei : alsa_writei_t
  in_frame_size : Nat
  out_frame_size : Nat
  period_frames : Nat
  period_position : Nat
  must_prepare : Bool
  silence : Option Nat
  deriving DecidableEq, Repr

/-- The libasound call named by the variable `cmd` of `alsa_setup`. -/
inductive HwCmd where
  | snd_pcm_hw_params_any
  | snd_pcm_hw_params_set_access
  | snd_pcm_hw_params_set_buffer_time_near
  | snd_pcm_hw_params_set_period_time_near
  | snd_pcm_hw_params
  | snd_pcm_hw_params_get_buffer_size
  | snd_pcm_hw_params_get_period_size
  | snd_pcm_sw_params_current
  | snd_pcm_sw_params_set_start_threshold
  | snd_pcm_sw_params_set_avail_min
  | snd_pcm_sw_params
  deriving DecidableEq, Repr

/-- The message of an `Error`, by the place that formats it. -/
inductive ErrorMessage where
  | format_not_supported (format : SampleFormat)
  | channels_not_supported (channels : Nat)
  | rate_not_supported (sample_rate : Nat)
  | error_opening (cmd : HwCmd)
  | native_dsd_failed
  | dsd_over_usb_failed
  | strerror
  deriving DecidableEq, Repr

/-- The class `Error` once set: its code and its message. -/
structure Error where
  code : Int
  message : ErrorMessage
  deriving DecidableEq, Repr

/-! ## Hardware description for `alsa_setup` -/

inductive snd_pcm_access_t where
  | MMAP_INTERLEAVED
  | RW_INTERLEAVED
  deriving DecidableEq, Repr

/-- The answers of the device to the configuration calls of `alsa_setup`.
The first argument of every field is the number of the pass through the
label `configure_hw` (0 for the first); each call is made at most once per
pass with given arguments, so this describes every deterministic device.
The `_near` and `get_` calls answer with the return value and the value
stored through the pointer argument. -/
structure Hw where
  big_endian : Bool
  hw_params_any : Nat → Int
  set_access : Nat → snd_pcm_access_t → Int
  set_format : Nat → snd_pcm_format_t → Int
  set_channels_near : Nat → Nat → Int × Nat
  set_rate_near : Nat → Nat → Int × Nat
  set_buffer_time_near : Nat → Nat → Int × Nat
  get_buffer_time : Nat → Int × Nat
  set_period_time_near : Nat → Nat → Int × Nat
  hw_params : Nat → Int
  get_buffer_size : Nat → Int × Nat
  get_period_size : Nat → Int × Nat
  sw_params_current : Nat → Int
  set_start_threshold : Nat → Nat → Int
  set_avail_min : Nat → Nat → Int
  sw_params : Nat → Int

/-- A configuration call made by `alsa_setup`, with the value passed.  The
getters whose results only feed `FormatDebug` are not recorded. -/
inductive HwCall where
  | hw_params_any
  | set_access (access : snd_pcm_access_t)
  | set_format (format : snd_pcm_format_t)
  | set_channels_near (channels : Nat)
  | set_rate_near (sample_rate : Nat)
  | set_buffer_time_near (buffer_time : Nat)
  | get_buffer_time
  | set_period_time_near (period_time : Nat)
  | hw_params
  | get_buffer_size
  | get_period_size
  | sw_params_current
  | set_start_threshold (frames : Nat)
  | set_avail_min (frames : Nat)
  | sw_params
  deriving DecidableEq, Repr

/-- The variables of `alsa_setup` that live across the passes through
`configure_hw`, and the log of the calls made so far. -/
structure SetupVars where
  ad : AlsaOutput
  audio_format : AudioFormat
  sample_rate : Nat
  channels : Nat
  period_time_ro : Nat
  packed : Option Bool
  reverse_endian : Option Bool
  log : List HwCall
  deriving DecidableEq, Repr

/-- What `alsa_setup` leaves behind: its return value, the `Error`, the
output object, the negotiated format, the two output flags and the log. -/
structure SetupResult where
  success : Bool
  error : Option Error
  ad : AlsaOutput
  audio_format : AudioFormat
  packed : Option Bool
  reverse_endian : Option Bool
  log : List HwCall
  deriving DecidableEq, Repr

/-- The label `error:` of `alsa_setup`. -/
def goto_error (v : SetupVars) (err : Int) (cmd : HwCmd) : SetupResult :=
  { success := false, error := some ⟨err, .error_opening cmd⟩, ad := v.ad,
    audio_format := v.audio_format, packed := v.packed,
    reverse_endian := v.reverse_endian, log := v.log }

/-- A `return false` of `alsa_setup` after `error.Format`. -/
def return_false (v : SetupVars) (err : Int) (message : ErrorMessage) : SetupResult :=
  { success := false, error := some ⟨err, message⟩, ad := v.ad,
    audio_format := v.audio_format, packed := v.packed,
    reverse_endian := v.reverse_endian, log := v.log }

/-- Lines 434-437: `snd_pcm_hw_params_any`. -/
def setup_any (hw : Hw) (pass : Nat) (v : SetupVars) : Except SetupResult SetupVars :=
  let err := hw.hw_params_any pass
  let v := { v with log := v.log ++ [HwCall.hw_params_any] }
  if err < 0 then .error (goto_error v err .snd_pcm_hw_params_any) else .ok v

/-- Lines 439-451: the memory mapped access, with its fallback. -/
def setup_access_mmap (hw : Hw) (pass : Nat) (v : SetupVars) : SetupVars :=
  if v.ad.use_mmap then
    let err := hw.set_access pass .MMAP_INTERLEAVED
    let v := { v with log := v.log ++ [HwCall.set_access .MMAP_INTERLEAVED] }
    if err < 0 then { v with ad := { v.ad with use_mmap := false } }
    else { v with ad := { v.ad with writei := .snd_pcm_mmap_writei } }
  else v

/-- Lines 453-460: the direct write access. -/
def setup_access_rw (hw : Hw) (pass : Nat) (v : SetupVars) : Except SetupResult SetupVars :=
  if ¬ v.ad.use_mmap then
    let err := hw.set_access pass .RW_INTERLEAVED
    let v := { v with log := v.log ++ [HwCall.set_access .RW_INTERLEAVED] }
    if err < 0 then .error (goto_error v err .snd_pcm_hw_params_set_access)
    else .ok { v with ad := { v.ad with writei := .snd_pcm_writei } }
  else .ok v

/-- Lines 462-471: the sample format. -/
def setup_format (hw : Hw) (pass : Nat) (v : SetupVars) : Except SetupResult SetupVars :=
  let r := alsa_output_setup_format hw.big_endian (hw.set_format pass) v.audio_format
    ⟨none, v.packed, v.reverse_endian, []⟩
  let v := { v with audio_format := r.2.1, packed := r.2.2.packed,
                    reverse_endian := r.2.2.reverse_endian,
                    log := v.log ++ r.2.2.offered.map HwCall.set_format }
  if r.1 < 0 then .error (return_false v r.1 (.format_not_supported v.audio_format.format))
  else .ok v

/-- Lines 479-488: the channel count; the value is stored as `(int8_t)channels`
in the `uint8_t` field. -/
def setup_channels (hw : Hw) (pass : Nat) (v : SetupVars) : Except SetupResult SetupVars :=
  let r := hw.set_channels_near pass v.channels
  let v1 := { v with channels := u32 r.2, log := v.log ++ [HwCall.set_channels_near v.channels] }
  if r.1 < 0 then
    .error (return_false v1 r.1 (.channels_not_supported v.audio_format.channels))
  else .ok { v1 with audio_format := { v1.audio_format with channels := v1.channels % 256 } }

/-- Lines 490-498: the sample rate. -/
def setup_rate (hw : Hw) (pass : Nat) (v : SetupVars) : Except SetupResult SetupVars :=
  let r := hw.set_rate_near pass v.sample_rate
  let v1 := { v with sample_rate := u32 r.2, log := v.log ++ [HwCall.set_rate_near v.sample_rate] }
  if r.1 < 0 ∨ v1.sample_rate = 0 then
    .error (return_false v1 r.1 (.rate_not_supported v.audio_format.sample_rate))
  else .ok { v1 with audio_format := { v1.audio_format with sample_rate := v1.sample_rate } }

/-- Lines 520-532: the buffer time; the result carries the local `buffer_time`. -/
def setup_buffer_time (hw : Hw) (pass : Nat) (v : SetupVars) :
    Except SetupResult (SetupVars × Nat) :=
  if 0 < v.ad.buffer_time then
    let r := hw.set_buffer_time_near pass v.ad.buffer_time
    let v := { v with log := v.log ++ [HwCall.set_buffer_time_near v.ad.buffer_time] }
    if r.1 < 0 then .error (goto_error v r.1 .snd_pcm_hw_params_set_buffer_time_near)
    else .ok (v, u32 r.2)
  else
    let r := hw.get_buffer_time pass
    let v := { v with log := v.log ++ [HwCall.get_buffer_time] }
    if r.1 < 0 then .ok (v, 0) else .ok (v, u32 r.2)

/-- Lines 534-549: the default period time and `snd_pcm_hw_params_set_period_time_near`. -/
def setup_period_time (hw : Hw) (pass : Nat) (vb : SetupVars × Nat) :
    Except SetupResult SetupVars :=
  let buffer_time := vb.2
  let v := vb.1
  let v := if v.period_time_ro = 0 ∧ 10000 ≤ buffer_time
    then { v with period_time_ro := buffer_time / 4 } else v
  if 0 < v.period_time_ro then
    let r := hw.set_period_time_near pass v.period_time_ro
    let v := { v with log := v.log ++ [HwCall.set_period_time_near v.period_time_ro] }
    if r.1 < 0 then .error (goto_error v r.1 .snd_pcm_hw_params_set_period_time_near)
    else .ok v
  else .ok v

/-- Lines 551-552: the call `snd_pcm_hw_params`; its return value is kept. -/
def setup_commit (hw : Hw) (pass : Nat) (v : SetupVars) : Int × SetupVars :=
  (hw.hw_params pass, { v with log := v.log ++ [HwCall.hw_params] })

/-- One pass from the label `configure_hw` to the call `snd_pcm_hw_params`. -/
def configure_hw_pass (hw : Hw) (pass : Nat) (v : SetupVars) :
    Except SetupResult (Int × SetupVars) := do
  let v ← setup_any hw pass v
  let v ← setup_access_rw hw pass (setup_access_mmap hw pass v)
  let v ← setup_format hw pass v
  let v ← setup_channels hw pass v
  let v ← setup_rate hw pass v
  let vb ← setup_buffer_time hw pass v
  let v ← setup_period_time hw pass vb
  return setup_commit hw pass v

/-- Lines 562-621: after the hardware parameters are committed. -/
def setup_sw_params (hw : Hw) (pass : Nat) (v : SetupVars) : SetupResult :=
  let rb := hw.get_buffer_size pass
  let v := { v with log := v.log ++ [HwCall.get_buffer_size] }
  if rb.1 < 0 then goto_error v rb.1 .snd_pcm_hw_params_get_buffer_size else
  let alsa_buffer_size := u64 rb.2
  let rp := hw.get_period_size pass
  let v := { v with log := v.log ++ [HwCall.get_period_size] }
  if rp.1 < 0 then goto_error v rp.1 .snd_pcm_hw_params_get_period_size else
  let alsa_period_size := u64 rp.2
  let err := hw.sw_params_current pass
  let v := { v with log := v.log ++ [HwCall.sw_params_current] }
  if err < 0 then goto_error v err .snd_pcm_sw_params_current else
  let threshold := u64 (alsa_buffer_size + 2 ^ 64 - alsa_period_size)
  let err := hw.set_start_threshold pass threshold
  let v := { v with log := v.log ++ [HwCall.set_start_threshold threshold] }
  if err < 0 then goto_error v err .snd_pcm_sw_params_set_start_threshold else
  let err := hw.set_avail_min pass alsa_period_size
  let v := { v with log := v.log ++ [HwCall.set_avail_min alsa_period_size] }
  if err < 0 then goto_error v err .snd_pcm_sw_params_set_avail_min else
  let err := hw.sw_params pass
  let v := { v with log := v.log ++ [HwCall.sw_params] }
  if err < 0 then goto_error v err .snd_pcm_sw_params else
  let alsa_period_size := if alsa_period_size = 0 then 1 else alsa_period_size
  { success := true, error := none,
    ad := { v.ad with period_frames := alsa_period_size, period_position := 0,
                      silence := some alsa_period_size },
    audio_format := v.audio_format, packed := v.packed,
    reverse_endian := v.reverse_endian, log := v.log }

/-- The retry count `MPD_ALSA_RETRY_NR`. -/
def MPD_ALSA_RETRY_NR : Nat := 5

/-- The body of `alsa_setup` from the label `configure_hw`, with the local
`retry` as first argument: after a commit that failed with
`-EPIPE`, `--retry > 0 && period_time_ro > 0` decides on another pass with
`period_time_ro >> 1`. -/
def configure_hw (hw : Hw) : Nat → Nat → SetupVars → SetupResult
  | retry, pass, v =>
    match configure_hw_pass hw pass v with
    | .error r => r
    | .ok (err, v) =>
      if err = -EPIPE then
        match retry with
        | 0 => goto_error v err .snd_pcm_hw_params
        | r + 1 =>
          if 0 < r ∧ 0 < v.period_time_ro then
            configure_hw hw r (pass + 1) { v with period_time_ro := v.period_time_ro >>> 1 }
          else goto_error v err .snd_pcm_hw_params
      else if err < 0 then goto_error v err .snd_pcm_hw_params
      else setup_sw_params hw pass v

/-- Function `alsa_setup`. -/
def alsa_setup (hw : Hw) (ad : AlsaOutput) (audio_format : AudioFormat)
    (packed_r reverse_endian_r : Option Bool) : SetupResult :=
  configure_hw hw MPD_ALSA_RETRY_NR 0
    { ad := ad, audio_format := audio_format,
      sample_rate := audio_format.sample_rate, channels := audio_format.channels,
      period_time_ro := ad.period_time, packed := packed_r,
      reverse_endian := reverse_endian_r, log := [] }

/-! ## DSD setup -/

/-- What `alsa_setup_dsd` leaves behind; `shift8` is the variable behind `shift8_r`. -/
structure DsdResult where
  success : Bool
  error : Option Error
  ad : AlsaOutput
  shift8 : Bool
  packed : Option Bool
  reverse_endian : Option Bool
  log : List HwCall
  deriving DecidableEq, Repr

/-- Function `alsa_setup_dsd` (the two `assert`s at its top are not part of
the control flow).  `g_free(ad->silence)` leaves no silence buffer. -/
def alsa_setup_dsd (hw : Hw) (ad : AlsaOutput) (audio_format : AudioFormat)
    (shift8_r : Bool) (packed_r reverse_endian_r : Option Bool) : DsdResult :=
  let usb_format := audio_format
  if ad.dsd_native then
    let usb_format := { usb_format with format := SampleFormat.DSD_U8 }
    let r := alsa_setup hw ad usb_format packed_r reverse_endian_r
    if ¬ r.success then
      { success := false, error := some ⟨0, .native_dsd_failed⟩,
        ad := { r.ad with silence := none }, shift8 := shift8_r, packed := r.packed,
        reverse_endian := r.reverse_endian, log := r.log }
    else
      { success := true, error := r.error, ad := r.ad, shift8 := shift8_r,
        packed := r.packed, reverse_endian := r.reverse_endian, log := r.log }
  else
    let usb_format := { usb_format with format := SampleFormat.S24_P32,
                                        sample_rate := usb_format.sample_rate / 2 }
    let check := usb_format
    let r := alsa_setup hw ad usb_format packed_r reverse_endian_r
    if ¬ r.success then
      { success := false, error := r.error, ad := r.ad, shift8 := shift8_r,
        packed := r.packed, reverse_endian := r.reverse_endian, log := r.log }
    else
      let usb_format := r.audio_format
      let shift8 : Bool := usb_format.format = SampleFormat.S32
      let usb_format :=
        if usb_format.format = SampleFormat.S32
        then { usb_format with format := SampleFormat.S24_P32 } else usb_format
      if usb_format ≠ check then
        { success := false, error := some ⟨0, .dsd_over_usb_failed⟩,
          ad := { r.ad with silence := none }, shift8 := shift8, packed := r.packed,
          reverse_endian := r.reverse_endian, log := r.log }
      else
        { success := true, error := r.error, ad := r.ad, shift8 := shift8,
          packed := r.packed, reverse_endian := r.reverse_endian, log := r.log }

/-! ## The open device: recovery, drain, cancel, play -/

/-- The states `snd_pcm_state` can report. -/
inductive snd_pcm_state_t where
  | OPEN
  | SETUP
  | PREPARED
  | RUNNING
  | XRUN
  | DRAINING
  | PAUSED
  | SUSPENDED
  | DISCONNECTED
  deriving DecidableEq, Repr

/-- The buffer handed to `writei`: the exported chunk or `ad->silence`. -/
inductive WriteBuffer where
  | chunk
  | silence
  deriving DecidableEq, Repr

/-- A libasound call on the open device. -/
inductive PcmCall where
  | snd_pcm_pause (enable : Int)
  | snd_pcm_resume
  | snd_pcm_prepare
  | snd_pcm_drain
  | snd_pcm_drop
  | writei (fn : alsa_writei_t) (buffer : WriteBuffer) (size : Nat)
  deriving DecidableEq, Repr

/-- One entry of the log of an open device: a libasound call with its return
value, a `snd_pcm_state` query with the state reported, or a call of
`PcmExport::Export` with the source size and the destination size reported. -/
inductive Event where
  | call (c : PcmCall) (ret : Int)
  | state (s : snd_pcm_state_t)
  | Export (src_size dest_size : Nat)
  deriving DecidableEq, Repr

/-- The surroundings of the open device: the answers of the device behind
`ad->pcm` and of the object `ad->pcm_export` (whose source is not part of
the repository sources at hand).  Every answer may depend on all that was
logged before, which covers every deterministic device. -/
structure World where
  answer : List Event → PcmCall → Int
  state : List Event → snd_pcm_state_t
  Export : List Event → Nat → Nat
  CalcSourceSize : Nat → Nat

/-- Function `alsa_write_silence`; the return value of `writei` is dropped. -/
def alsa_write_silence (w : World) (ad : AlsaOutput) (log : List Event) (nframes : Nat) :
    List Event :=
  let c := PcmCall.writei ad.writei .silence nframes
  log ++ [Event.call c (w.answer log c)]

/-- The case `SND_PCM_STATE_SETUP` / `SND_PCM_STATE_XRUN` of `alsa_recover`,
also reached by fall-through from `SND_PCM_STATE_SUSPENDED`. -/
def recover_prepare (w : World) (ad : AlsaOutput) (log : List Event) :
    Int × AlsaOutput × List Event :=
  let ad := { ad with period_position := 0 }
  let err := w.answer log .snd_pcm_prepare
  (err, ad, log ++ [Event.call .snd_pcm_prepare err])

/-- Function `alsa_recover`: return value, output object, log. -/
def alsa_recover (w : World) (ad : AlsaOutput) (log : List Event) (err : Int) :
    Int × AlsaOutput × List Event :=
  let st := w.state log
  let log := log ++ [Event.state st]
  match st with
  | .PAUSED =>
    let err := w.answer log (.snd_pcm_pause 0)
    (err, ad, log ++ [Event.call (.snd_pcm_pause 0) err])
  | .SUSPENDED =>
    let err := w.answer log .snd_pcm_resume
    let log := log ++ [Event.call .snd_pcm_resume err]
    if err = -EAGAIN then (0, ad, log)
    else recover_prepare w ad log
  | .SETUP => recover_prepare w ad log
  | .XRUN => recover_prepare w ad log
  | .DISCONNECTED => (err, ad, log)
  | .RUNNING => (0, ad, log)
  | _ => (err, ad, log)

/-- Function `alsa_drain`. -/
def alsa_drain (w : World) (ad : AlsaOutput) (log : List Event) : AlsaOutput × List Event :=
  let st := w.state log
  let log := log ++ [Event.state st]
  if st ≠ .RUNNING then (ad, log)
  else
    let log :=
      if 0 < ad.period_position then
        let nframes := u64 (ad.period_frames + 2 ^ 64 - ad.period_position)
        alsa_write_silence w ad log nframes
      else log
    let log := log ++ [Event.call .snd_pcm_drain (w.answer log .snd_pcm_drain)]
    ({ ad with period_position := 0 }, log)

/-- Function `alsa_cancel`. -/
def alsa_cancel (w : World) (ad : AlsaOutput) (log : List Event) : AlsaOutput × List Event :=
  let ad := { ad with period_position := 0, must_prepare := true }
  (ad, log ++ [Event.call .snd_pcm_drop (w.answer log .snd_pcm_drop)])

/-- How a call of `alsa_play` ends: it returns a byte count (with the
`Error` it may have set), or the bounded model of `while (true)` has no
iteration left, or an integer division by zero stops the process. -/
inductive Outcome where
  | returned (ret : Nat) (error : Option Error)
  | out_of_fuel
  | divide_by_out_frame_size_zero
  | modulo_by_period_frames_zero
  deriving DecidableEq, Repr

/-- Outcome of `alsa_play`, with the output object and the log at that point. -/
structure PlayResult where
  outcome : Outcome
  ad : AlsaOutput
  log : List Event
  deriving DecidableEq, Repr

/-- The loop `while (true)` of `alsa_play` (lines 871-886), at most `fuel`
iterations; `size` is the number of frames to write. -/
def write_loop (w : World) (size : Nat) : Nat → AlsaOutput → List Event → PlayResult
  | 0, ad, log => ⟨.out_of_fuel, ad, log⟩
  | fuel + 1, ad, log =>
    let c := PcmCall.writei ad.writei .chunk size
    let ret := w.answer log c
    let log := log ++ [Event.call c ret]
    if 0 < ret then
      if ad.period_frames = 0 then ⟨.modulo_by_period_frames_zero, ad, log⟩
      else
        let ad := { ad with
          period_position := u64 (ad.period_position + ret.toNat) % ad.period_frames }
        let bytes_written := u64 (ret.toNat * ad.out_frame_size)
        ⟨.returned (w.CalcSourceSize bytes_written) none, ad, log⟩
    else if ret < 0 ∧ ret ≠ -EAGAIN ∧ ret ≠ -EINTR then
      let r := alsa_recover w ad log (to_int ret)
      if r.1 < 0 then ⟨.returned 0 (some ⟨to_int ret, .strerror⟩), r.2.1, r.2.2⟩
      else write_loop w size fuel r.2.1 r.2.2
    else write_loop w size fuel ad log

/-- Lines 855-887 of `alsa_play`: export, then the write loop. -/
def play_export (w : World) (fuel : Nat) (ad : AlsaOutput) (log : List Event) (size : Nat) :
    PlayResult :=
  let original_size := size
  let size := w.Export log original_size
  let log := log ++ [Event.Export original_size size]
  if size = 0 then ⟨.returned original_size none, ad, log⟩
  else if ad.out_frame_size = 0 then ⟨.divide_by_out_frame_size_zero, ad, log⟩
  else write_loop w (size / ad.out_frame_size) fuel ad log

/-- Function `alsa_play` on a chunk of `size` bytes (the `assert`s are not
part of the control flow). -/
def alsa_play (w : World) (fuel : Nat) (ad : AlsaOutput) (log : List Event) (size : Nat) :
    PlayResult :=
  if ad.must_prepare then
    let ad := { ad with must_prepare := false }
    let err := w.answer log .snd_pcm_prepare
    let log := log ++ [Event.call .snd_pcm_prepare err]
    if err < 0 then ⟨.returned 0 (some ⟨err, .strerror⟩), ad, log⟩
    else play_export w fuel ad log size
  else play_export w fuel ad log size

/-! ## Sequences of operations on an open device -/

/-- An operation of the plugin on an open device: `alsa_play` on a chunk of
`size` bytes (with the bound `fuel` on its write loop), `alsa_drain`,
`alsa_cancel`. -/
inductive Op where
  | play (size fuel : Nat)
  | drain
  | cancel
  deriving DecidableEq, Repr

/-- Runs the operations in order; the run is over at a call of `alsa_play`
that does not return. -/
def run_ops (w : World) : List Op → AlsaOutput → List Event → AlsaOutput × List Event
  | [], ad, log => (ad, log)
  | .play size fuel :: ops, ad, log =>
    let r := alsa_play w fuel ad log size
    match r.outcome with
    | .returned _ _ => run_ops w ops r.ad r.log
    | _ => (r.ad, r.log)
  | .drain :: ops, ad, log =>
    let r := alsa_drain w ad log
    run_ops w ops r.1 r.2
  | .cancel :: ops, ad, log =>
    let r := alsa_cancel w ad log
    run_ops w ops r.1 r.2

/-- Reading a log from its start: `some true` while the last `snd_pcm_drop`
has not been followed by a `snd_pcm_prepare`, `some false` otherwise, and
`none` as soon as a `writei` happened in the state `some true`. -/
def guard_step : Option Bool → Event → Option Bool
  | none, _ => none
  | some _, .call .snd_pcm_drop _ => some true
  | some _, .call .snd_pcm_prepare _ => some false
  | some pending, .call (.writei _ _ _) _ => if pending then none else some false
  | some pending, _ => some pending

/-- In the log, every write that follows a `snd_pcm_drop` has a
`snd_pcm_prepare` between that drop and itself. -/
def write_guarded (log : List Event) : Prop :=
  log.foldl guard_step (some false) ≠ none

/-- The link between a log and the output object that the operations keep:
the log has no unguarded write so far, and while a `snd_pcm_drop` is not yet
followed by a `snd_pcm_prepare`, `must_prepare` is set and
`period_position` is 0. -/
def pending_prepare (ad : AlsaOutput) (log : List Event) : Prop :=
  ∃ p, log.foldl guard_step (some false) = some p ∧
    (p = true → ad.must_prepare = true ∧ ad.period_position = 0)

/-- The calls `alsa_setup` makes before it configures channels, rate,
buffer and period. -/
def before_channels : HwCall → Bool
  | .hw_params_any => true
  | .set_access _ => true
  | .set_format _ => true
  | _ => false

/-- Reference mapping of the recovery routine, written from the words of
the specification: return value and new `period_position` for the device
states it names (`none` for the states it does not name), given the results
of `snd_pcm_resume` and `snd_pcm_prepare`. -/
def recover_reference (st : snd_pcm_state_t) (resume_result prepare_result err : Int)
    (period_position : Nat) : Option (Int × Nat) :=
  match st with
  | .SUSPENDED =>
    if resume_result = -EAGAIN then some (0, period_position) else some (prepare_result, 0)
  | .SETUP => some (prepare_result, 0)
  | .XRUN => some (prepare_result, 0)
  | .RUNNING => some (0, period_position)
  | .DISCONNECTED => some (err, period_position)
  | _ => none

/-! ## Example devices -/

/-- A device that takes every configuration call, echoes the values asked
for, reports a buffer of 4096 and a period of 1024 frames, and answers
`set_format` the sample-format probes. -/
def echo_hw (set_format : snd_pcm_format_t → Int) : Hw :=
  { big_endian := false
    hw_params_any := fun _ => 0
    set_access := fun _ _ => 0
    set_format := fun _ => set_format
    set_channels_near := fun _ n => (0, n)
    set_rate_near := fun _ n => (0, n)
    set_buffer_time_near := fun _ n => (0, n)
    get_buffer_time := fun _ => (0, 500000)
    set_period_time_near := fun _ n => (0, n)
    hw_params := fun _ => 0
    get_buffer_size := fun _ => (0, 4096)
    get_period_size := fun _ => (0, 1024)
    sw_params_current := fun _ => 0
    set_start_threshold := fun _ _ => 0
    set_avail_min := fun _ _ => 0
    sw_params := fun _ => 0 }

/-- A device that accepts `S32_LE` as its only sample format. -/
def only_s32_le : snd_pcm_format_t → Int :=
  fun fmt => if fmt = .S32_LE then 0 else -EINVAL

/-- A device that accepts `S16_LE` as its only sample format. -/
def only_s16_le : snd_pcm_format_t → Int :=
  fun fmt => if fmt = .S16_LE then 0 else -EINVAL

/-- A device that rejects every sample format. -/
def no_format : snd_pcm_format_t → Int :=
  fun _ => -EINVAL

/-- An output configured for DSD over USB, before `alsa_open`. -/
def dsd_usb_output : AlsaOutput :=
  { pcm_export := ⟨0, false, false, 0, false, false, 0⟩
    device := ""
    use_mmap := false
    dsd_usb := true
    dsd_native := false
    buffer_time := 500000
    period_time := 0
    mode := 0
    writei := .snd_pcm_writei
    in_frame_size := 0
    out_frame_size := 0
    period_frames := 0
    period_position := 0
    must_prepare := false
    silence := none }

/-- An open output: 16 bit stereo, a period of 1024 frames of which
`period_position` are written. -/
def open_output (period_position : Nat) (must_prepare : Bool) : AlsaOutput :=
  { pcm_export := ⟨2, false, false, 0, false, false, 0⟩
    device := ""
    use_mmap := false
    dsd_usb := false
    dsd_native := false
    buffer_time := 500000
    period_time := 0
    mode := 0
    writei := .snd_pcm_writei
    in_frame_size := 4
    out_frame_size := 4
    period_frames := 1024
    period_position := period_position
    must_prepare := must_prepare
    silence := some 1024 }

/-- A device in the given state that returns `ret` from every `writei` and
`other` from every other call; `Export` reports `dest_size` bytes and
`CalcSourceSize` is the identity. -/
def steady_world (st : snd_pcm_state_t) (ret other : Int) (dest_size : Nat) : World :=
  { answer := fun _ c =>
      match c with
      | .writei _ _ _ => ret
      | _ => other
    state := fun _ => st
    Export := fun _ _ => dest_size
    CalcSourceSize := fun n => n }

/-- A device that accepts `S24_LE` as its only sample format. -/
def only_s24_le : snd_pcm_format_t → Int :=
  fun fmt => if fmt = .S24_LE then 0 else -EINVAL

/-- An output configured for native DSD (`dsd_native` set, `dsd_usb` clear,
as `alsa_configure` leaves them), before `alsa_open`. -/
def dsd_native_output : AlsaOutput :=
  { dsd_usb_output with dsd_usb := false, dsd_native := true }

/-! ## Setup with or without DSD -/

/-- The arguments of the call `ad->pcm_export->Open(...)` in
`alsa_setup_or_dsd`; the flags `packed` and `reverse_endian` are `none`
while the caller's variables were never assigned. -/
structure ExportOpen where
  sample_format : SampleFormat
  channels : Nat
  dsd_usb : Bool
  shift8 : Bool
  packed : Option Bool
  reverse_endian : Option Bool
  deriving DecidableEq, Repr

/-- What `alsa_setup_or_dsd` leaves behind: its return value, the `Error`,
the output object, the caller's audio format, the call of
`PcmExport::Open` it made (if any) and the log of the configuration calls. -/
structure SetupOrDsdResult where
  success : Bool
  error : Option Error
  ad : AlsaOutput
  audio_format : AudioFormat
  export_open : Option ExportOpen
  log : List HwCall
  deriving DecidableEq, Repr

/-- Function `alsa_setup_or_dsd`.  `alsa_setup_dsd` takes the audio format by
value, `alsa_setup` by reference.  The call of `PcmExport::Open` is recorded
with its arguments (the body of `Open` is not part of the sources at hand). -/
def alsa_setup_or_dsd (hw : Hw) (ad : AlsaOutput) (audio_format : AudioFormat) :
    SetupOrDsdResult :=
  let shift8 := false
  let dsd_usb : Bool := ad.dsd_usb && decide (audio_format.format = SampleFormat.DSD)
  let dsd_native : Bool := ad.dsd_native && decide (audio_format.format = SampleFormat.DSD)
  let dsd_enabled : Bool := dsd_usb || dsd_native
  if dsd_enabled then
    let r := alsa_setup_dsd hw ad audio_format shift8 none none
    if ¬ r.success then
      { success := false, error := r.error, ad := r.ad, audio_format := audio_format,
        export_open := none, log := r.log }
    else
      { success := true, error := r.error, ad := r.ad, audio_format := audio_format,
        export_open := some ⟨audio_format.format, audio_format.channels, dsd_usb, r.shift8,
          r.packed, r.reverse_endian⟩,
        log := r.log }
  else
    let r := alsa_setup hw ad audio_format none none
    if ¬ r.success then
      { success := false, error := r.error, ad := r.ad, audio_format := r.audio_format,
        export_open := none, log := r.log }
    else
      { success := true, error := r.error, ad := r.ad, audio_format := r.audio_format,
        export_open := some ⟨r.audio_format.format, r.audio_format.channels, dsd_usb, shift8,
          r.packed, r.reverse_endian⟩,
        log := r.log }

/-! ## Configuration -/

/-- The block values that `alsa_configure` asks its `config_param` for
(the class is declared outside the sources at hand): `none` where the block
has no such line. -/
structure config_param where
  device : Option String
  use_mmap : Option Bool
  dsd_usb : Option Bool
  dsd_native : Option Bool
  buffer_time : Option Nat
  period_time : Option Nat
  auto_resample : Option Bool
  auto_channels : Option Bool
  auto_format : Option Bool
  deriving DecidableEq, Repr

/-- The method `config_param::GetBlockValue(name, default_value)`: the value
of the line if the block has it, the default otherwise. -/
def GetBlockValue {α : Type} (value : Option α) (default_value : α) : α :=
  value.getD default_value

/-- The default buffer time `MPD_ALSA_BUFFER_TIME_US`. -/
def MPD_ALSA_BUFFER_TIME_US : Nat := 500000

def SND_PCM_NO_AUTO_RESAMPLE : Int := 0x00010000
def SND_PCM_NO_AUTO_CHANNELS : Int := 0x00020000
def SND_PCM_NO_AUTO_FORMAT : Int := 0x00040000

/-- Function `alsa_configure`. -/
def alsa_configure (ad : AlsaOutput) (param : config_param) : AlsaOutput :=
  let ad := { ad with device := GetBlockValue param.device "" }
  let ad := { ad with use_mmap := GetBlockValue param.use_mmap false }
  let ad := { ad with dsd_usb := GetBlockValue param.dsd_usb false }
  let ad := { ad with dsd_native := GetBlockValue param.dsd_native false }
  let ad := if ad.dsd_usb ∧ ad.dsd_native then { ad with dsd_native := false } else ad
  let ad := { ad with buffer_time := GetBlockValue param.buffer_time MPD_ALSA_BUFFER_TIME_US }
  let ad := { ad with period_time := GetBlockValue param.period_time 0 }
  let ad := if ¬ GetBlockValue param.auto_resample true
    then { ad with mode := Int.lor ad.mode SND_PCM_NO_AUTO_RESAMPLE } else ad
  let ad := if ¬ GetBlockValue param.auto_channels true
    then { ad with mode := Int.lor ad.mode SND_PCM_NO_AUTO_CHANNELS } else ad
  let ad := if ¬ GetBlockValue param.auto_format true
    then { ad with mode := Int.lor ad.mode SND_PCM_NO_AUTO_FORMAT } else ad
  ad

/-- The two `assert`s at the top of `alsa_setup_dsd`:
`assert(ad->dsd_usb)` and `assert(audio_format.format == SampleFormat::DSD)`. -/
def alsa_setup_dsd_asserts (ad : AlsaOutput) (audio_format : AudioFormat) : Bool × Bool :=
  (ad.dsd_usb, decide (audio_format.format = SampleFormat.DSD))

/-- The local `dsd_enabled` of `alsa_setup_or_dsd`, which selects the call of
`alsa_setup_dsd`. -/
def dsd_enabled (ad : AlsaOutput) (audio_format : AudioFormat) : Bool :=
  let dsd_usb : Bool := ad.dsd_usb && decide (audio_format.format = SampleFormat.DSD)
  let dsd_native : Bool := ad.dsd_native && decide (audio_format.format = SampleFormat.DSD)
  dsd_usb || dsd_native

/-- A configuration block with the single line `dsd_native "yes"`. -/
def native_block : config_param :=
  { device := none, use_mmap := none, dsd_usb := none, dsd_native := some true,
    buffer_time := none, period_time := none, auto_resample := none,
    auto_channels := none, auto_format := none }

/-- A configuration block with the single line `buffer_time "8000"`. -/
def short_buffer_block : config_param :=
  { device := none, use_mmap := none, dsd_usb := none, dsd_native := none,
    buffer_time := some 8000, period_time := none, auto_resample := none,
    auto_channels := none, auto_format := none }

/-- The output object as `alsa_init` hands it to `alsa_configure`. -/
def fresh_output : AlsaOutput :=
  { dsd_usb_output with dsd_usb := false, buffer_time := 0 }

/-- A device like `echo_hw` whose `snd_pcm_hw_params` fails with `-EPIPE`
in every pass. -/
def epipe_hw : Hw :=
  { echo_hw only_s16_le with hw_params := fun _ => -EPIPE }

/-! ## Reading the log and the flags -/

/-- The number of calls of `snd_pcm_hw_params` in a log. -/
def commits (log : List HwCall) : Nat :=
  log.count HwCall.hw_params

/-- The log a stage of `alsa_setup` leaves behind, whether it jumps to an
error exit or goes on. -/
def log_of (r : Except SetupResult SetupVars) : List HwCall :=
  match r with
  | .error e => e.log
  | .ok v => v.log

/-- The period times asked from the hardware, in order. -/
def period_times : List HwCall → List Nat
  | [] => []
  | HwCall.set_period_time_near t :: rest => t :: period_times rest
  | _ :: rest => period_times rest

/-- The value of the local `buffer_time` of `alsa_setup` after lines 520-532
of a pass that goes on: what `snd_pcm_hw_params_set_buffer_time_near` made of
the configured buffer time, or, with none configured, what
`snd_pcm_hw_params_get_buffer_time` reports (0 if that fails). -/
def granted_buffer_time (hw : Hw) (pass : Nat) (buffer_time : Nat) : Nat :=
  if 0 < buffer_time then u32 (hw.set_buffer_time_near pass buffer_time).2
  else if (hw.get_buffer_time pass).1 < 0 then 0
  else u32 (hw.get_buffer_time pass).2

/-- The value of `period_time_ro` after lines 534-540: the quarter of the
buffer time if none is set and the buffer time is at least 10000. -/
def next_period_time (period_time_ro buffer_time : Nat) : Nat :=
  if period_time_ro = 0 ∧ 10000 ≤ buffer_time then buffer_time / 4 else period_time_ro

/-- What the period stage depends on: `period_time_ro`, the configured buffer
time, and the period times asked so far. -/
def period_view (v : SetupVars) : Nat × Nat × List Nat :=
  (v.period_time_ro, v.ad.buffer_time, period_times v.log)

/-- The libasound format that the negotiated sample format and the two flags
describe, in the words of the interface: the host format of the sample
format, byte-swapped if `reverse_endian`, then packed if `packed`. -/
def described_format (big_endian : Bool) (sample_format : SampleFormat)
    (packed reverse_endian : Bool) : snd_pcm_format_t :=
  let f := get_bitformat big_endian sample_format
  let f := if reverse_endian then byteswap_bitformat f else f
  if packed then alsa_to_packed_format f else f

end Alsa

/-!
# Realtime options

A shallow embedding of `src/rt_opt.cxx`.  C strings are lists of
characters; the calls into the operating system are answered by an explicit
description of the system and recorded in a log.
-/

namespace RtOpt

/-! ## Constants (`sched.h` of Linux, `rt_opt.hxx`) -/

def SCHED_OTHER : Int := 0
def SCHED_FIFO : Int := 1
def SCHED_RR : Int := 2
def SCHED_BATCH : Int := 3
def SCHED_IDLE : Int := 5
def RTOPT_DISABLE : Int := -1
def MIN_PRIORITY : Int := 1
def MAX_PRIORITY : Int := 99
def LONG_MIN : Int := -2 ^ 63
def LONG_MAX : Int := 2 ^ 63 - 1

def RTOPT_SCHED_OTHER : List Char := "OTHER".toList
def RTOPT_SCHED_FIFO : List Char := "FIFO".toList
def RTOPT_SCHED_RR : List Char := "RR".toList
def RTOPT_SCHED_BATCH : List Char := "BATCH".toList
def RTOPT_SCHED_IDLE : List Char := "IDLE".toList

def RTOPT_MAIN_PRIORITY_NAME : List Char := "main_priority".toList
def RTOPT_IO_PRIORITY_NAME : List Char := "io_priority".toList
def RTOPT_DECODER_PRIORITY_NAME : List Char := "decoder_priority".toList
def RTOPT_PLAYER_PRIORITY_NAME : List Char := "player_priority".toList
def RTOPT_UPDATE_PRIORITY_NAME : List Char := "update_priority".toList

/-- The struct `rtopt_priority`. -/
structure rtopt_priority where
  name : List Char
  policy : Int
  priority : Int
  timerslack : Nat
  deriving DecidableEq, Repr

/-- The table `policy_tab` (with `SCHED_IDLE` defined). -/
def policy_tab : List (List Char × Int) :=
  [(RTOPT_SCHED_OTHER, SCHED_OTHER), (RTOPT_SCHED_FIFO, SCHED_FIFO),
   (RTOPT_SCHED_RR, SCHED_RR), (RTOPT_SCHED_BATCH, SCHED_BATCH),
   (RTOPT_SCHED_IDLE, SCHED_IDLE)]

/-- The array `priority_keys`. -/
def priority_keys : List (List Char) :=
  [RTOPT_MAIN_PRIORITY_NAME, RTOPT_IO_PRIORITY_NAME, RTOPT_PLAYER_PRIORITY_NAME,
   RTOPT_DECODER_PRIORITY_NAME, RTOPT_UPDATE_PRIORITY_NAME]

/-- The loop of `get_policy` over the remaining entries of the table. -/
def get_policy_from : List (List Char × Int) → List Char → Int
  | [], _ => RTOPT_DISABLE
  | e :: rest, name => if name = e.1 then e.2 else get_policy_from rest name

/-- Function `get_policy`. -/
def get_policy (name : List Char) : Int :=
  get_policy_from policy_tab name

/-- The test `isspace` of the C locale. -/
def isspace (c : Char) : Bool :=
  c = ' ' || (9 ≤ c.toNat && c.toNat ≤ 13)

/-- The library function `strtol(str, &endptr, 10)` as the C standard
describes it: white space is skipped, a sign is optional, the longest run
of decimal digits is converted and the value clamped to the range of
`long`; without any digit the value is 0 and `endptr` is `str`.  The result
is the value and the rest of the string at `endptr`. -/
def strtol (str : List Char) : Int × List Char :=
  let s := str.dropWhile isspace
  let negative : Bool := s.head? = some '-'
  let s := if s.head? = some '-' ∨ s.head? = some '+' then s.tail else s
  let digits := s.takeWhile Char.isDigit
  if digits = [] then (0, str)
  else
    let n : Nat := digits.foldl (fun acc c => 10 * acc + (c.toNat - 48)) 0
    let v : Int := if negative then -(n : Int) else (n : Int)
    let v := if v < LONG_MIN then LONG_MIN else if LONG_MAX < v then LONG_MAX else v
    (v, s.dropWhile Char.isDigit)

/-- Function `strtointeger`: the return value and the `int` stored in `*ival`
(the `long` result of `strtol` converted to `int`). -/
def strtointeger (str : List Char) : Int × Int :=
  let r := strtol str
  (if r.2 = [] then 0 else -1, Alsa.to_int r.1)

/-- The effect of `pstr = strchr(policyname, ':'); if (pstr != NULL)
*pstr++ = 0;`: the policy name before the first colon, and the string after
it (`none` without a colon). -/
def split_colon : List Char → List Char × Option (List Char)
  | [] => ([], none)
  | c :: cs =>
    if c = ':' then ([], some cs)
    else ((c :: (split_colon cs).1), (split_colon cs).2)

/-- Function `parse_priority`; `paramstr` is `none` for a null pointer.  The
warnings it logs are left out. -/
def parse_priority (paramstr : Option (List Char)) (priority : rtopt_priority) :
    rtopt_priority :=
  let priority := { priority with policy := RTOPT_DISABLE, priority := 0 }
  match paramstr with
  | none => priority
  | some paramstr =>
    let priority := { priority with policy := SCHED_OTHER }
    let policyname := (split_colon paramstr).1
    let pstr := (split_colon paramstr).2
    if policyname = RTOPT_SCHED_OTHER then priority
    else
      let policy_val := get_policy policyname
      if policy_val < 0 then priority
      else
        match pstr with
        | none => priority
        | some pstr =>
          let r := strtointeger pstr
          let priority_val := r.2
          if r.1 ≠ 0 then priority
          else if priority_val < MIN_PRIORITY ∨ priority_val > MAX_PRIORITY then priority
          else { priority with policy := policy_val, priority := priority_val }

/-- The static variables of `rt_opt.cxx` that the priority functions read. -/
structure Globals where
  enable_rtopt : Bool
  enable_memlock : Bool
  priority_tab : List rtopt_priority
  deriving DecidableEq, Repr

/-- Function `init_priority_tab`. -/
def init_priority_tab : List rtopt_priority :=
  priority_keys.map (fun key => ⟨key, RTOPT_DISABLE, 0, 0⟩)

/-- Function `set_parameter`, as far as the priority table goes: `block` is
the `realtime_option` block of the configuration (`none` when there is
none), which maps a key to its value (`GetBlockValue`). -/
def set_parameter (block : Option (List Char → Option (List Char))) (memlock : Bool) :
    Globals :=
  match block with
  | none => { enable_rtopt := false, enable_memlock := false,
              priority_tab := init_priority_tab }
  | some param =>
    { enable_rtopt := true, enable_memlock := memlock,
      priority_tab := init_priority_tab.map (fun pri => parse_priority (param pri.name) pri) }

/-- The loop of `get_priority_param` over the remaining keys and entries. -/
def get_priority_param_from :
    List (List Char) → List rtopt_priority → List Char → Option rtopt_priority
  | k :: keys, e :: tab, key =>
    if key = k then some e else get_priority_param_from keys tab key
  | _, _, _ => none

/-- Function `get_priority_param` (`none` for `NULL`). -/
def get_priority_param (g : Globals) (key : List Char) : Option rtopt_priority :=
  get_priority_param_from priority_keys g.priority_tab key

/-- A system call made by `rt_opt.cxx`, with its arguments. -/
inductive Syscall where
  | sched_getparam (pid : Int)
  | sched_getscheduler (pid : Int)
  | sched_setscheduler (pid policy sched_priority : Int)
  | ioprio_set (which who ioprio : Int)
  deriving DecidableEq, Repr

/-- One entry of the log: a system call and its return value. -/
structure SysEvent where
  call : Syscall
  ret : Int
  deriving DecidableEq, Repr

/-- The operating system: the return value of each call and the
`sched_priority` that `sched_getparam` stores, each depending on all that
was logged before. -/
structure Os where
  answer : List SysEvent → Syscall → Int
  sched_priority : List SysEvent → Int

/-- Function `get_current_priority`: return value, the struct it fills, log. -/
def get_current_priority (os : Os) (log : List SysEvent) (priority : rtopt_priority) :
    Int × rtopt_priority × List SysEvent :=
  let res := os.answer log (.sched_getparam 0)
  let sched_priority := os.sched_priority log
  let log := log ++ [⟨.sched_getparam 0, res⟩]
  if res < 0 then (-1, priority, log)
  else
    let res := os.answer log (.sched_getscheduler 0)
    let log := log ++ [⟨.sched_getscheduler 0, res⟩]
    if res < 0 then (-1, priority, log)
    else (0, { priority with policy := res, priority := sched_priority }, log)

/-- Function `change_priority`. -/
def change_priority (os : Os) (log : List SysEvent) (priority : rtopt_priority) :
    Int × List SysEvent :=
  let c := Syscall.sched_setscheduler 0 priority.policy priority.priority
  let res := os.answer log c
  (res, log ++ [⟨c, res⟩])

/-- Function `ioprio_set_idle`. -/
def ioprio_set_idle (os : Os) (log : List SysEvent) : List SysEvent :=
  let c := Syscall.ioprio_set 1 0 (((3 <<< 13) ||| 7 : Nat) : Int)
  log ++ [⟨c, os.answer log c⟩]

/-- Function `SetThreadIdlePriority` (with `SCHED_IDLE` defined). -/
def SetThreadIdlePriority (os : Os) (log : List SysEvent) (name : List Char) :
    List SysEvent :=
  let log := (change_priority os log ⟨name, SCHED_IDLE, 0, 0⟩).2
  ioprio_set_idle os log

/-- Function `rtopt_change_thread_priority`; the uninitialised local `save`
holds `save` on entry. -/
def rtopt_change_thread_priority (g : Globals) (os : Os) (log : List SysEvent)
    (new_priority save : rtopt_priority) : Int × List SysEvent :=
  if ¬ g.enable_rtopt then (1, log)
  else if ¬ (new_priority.policy ≠ RTOPT_DISABLE) then (1, log)
  else
    let r := get_current_priority os log save
    if r.1 < 0 then (1, r.2.2)
    else if new_priority.policy = r.2.1.policy ∧ new_priority.priority = r.2.1.priority
    then (1, r.2.2)
    else change_priority os r.2.2 new_priority

/-- Function `rtopt_change_priority`. -/
def rtopt_change_priority (g : Globals) (os : Os) (log : List SysEvent) (name : List Char)
    (save : rtopt_priority) : Int × List SysEvent :=
  match get_priority_param g name with
  | none => (-1, log)
  | some param =>
    if ¬ (param.policy ≠ RTOPT_DISABLE) then
      if param.name = RTOPT_UPDATE_PRIORITY_NAME then
        (1, SetThreadIdlePriority os log param.name)
      else (1, log)
    else rtopt_change_thread_priority g os log param save

/-! ## Example systems -/

/-- A system whose calls all succeed, with the calling thread at the given
policy and priority. -/
def steady_os (policy sched_priority : Int) : Os :=
  { answer := fun _ c =>
      match c with
      | .sched_getscheduler _ => policy
      | _ => 0
    sched_priority := fun _ => sched_priority }

/-- A `realtime_option` block that holds the one key `key` with `value`. -/
def block_with (key value : List Char) : List Char → Option (List Char) :=
  fun k => if k = key then some value else none

end RtOpt

/-!
# The chunk of the decoder

A shallow embedding of `decoder_get_chunk` in `src/DecoderInternal.cxx`.
The music buffer and the decoder control, shared with other threads, are
described by their answers, which may depend on all that happened before.
-/

namespace DecoderInternal

/-- The enumeration `DecoderCommand`. -/
inductive DecoderCommand where
  | NONE
  | START
  | STOP
  | SEEK
  deriving DecidableEq, Repr

/-- The struct `ReplayGainInfo`, declared outside the sources at hand: only
equality of its values matters here, a number stands for the content. -/
structure ReplayGainInfo where
  content : Nat
  deriving DecidableEq, Repr

/-- The fields of `struct music_chunk` that `DecoderInternal.cxx` uses. -/
structure music_chunk where
  length : Nat
  replay_gain_serial : Nat
  replay_gain_info : ReplayGainInfo
  deriving DecidableEq, Repr

/-- The fields of `struct Decoder` that `decoder_get_chunk` uses; `chunk` is
`none` for a null pointer. -/
structure Decoder where
  chunk : Option music_chunk
  replay_gain_serial : Nat
  replay_gain_info : ReplayGainInfo
  deriving DecidableEq, Repr

/-- What `decoder_get_chunk` does to its surroundings, in order. -/
inductive Step where
  | Allocate (result : Option music_chunk)
  | Lock
  | read_command (command : DecoderCommand)
  | Wait
  | Unlock
  deriving DecidableEq, Repr

/-- The surroundings of the decoder thread: what `dc.buffer->Allocate()`
returns and what `dc.command` holds when it is read, each depending on all
the steps before. -/
structure Surroundings where
  Allocate : List Step → Option music_chunk
  command : List Step → DecoderCommand

/-- Function `need_chunks`: the command it returns and the log. -/
def need_chunks (w : Surroundings) (log : List Step) : DecoderCommand × List Step :=
  let c := w.command log
  let log := log ++ [Step.read_command c]
  let log := if c = .NONE then log ++ [Step.Wait] else log
  let c := w.command log
  (c, log ++ [Step.read_command c])

/-- How a call of `decoder_get_chunk` ends: it returns a chunk pointer
(`none` for null), or the bounded model of its loop has no iteration left. -/
inductive GetChunkOutcome where
  | returned (chunk : Option music_chunk)
  | out_of_fuel
  deriving DecidableEq, Repr

/-- Outcome of `decoder_get_chunk` with the decoder and the log at that point. -/
structure GetChunkResult where
  outcome : GetChunkOutcome
  decoder : Decoder
  log : List Step
  deriving DecidableEq, Repr

/-- The loop `do ... while (cmd == DecoderCommand::NONE)` of
`decoder_get_chunk`, at most `fuel` iterations. -/
def get_chunk_loop (w : Surroundings) : Nat → Decoder → List Step → GetChunkResult
  | 0, decoder, log => ⟨.out_of_fuel, decoder, log⟩
  | fuel + 1, decoder, log =>
    let allocated := w.Allocate log
    let log := log ++ [Step.Allocate allocated]
    match allocated with
    | some chunk =>
      let chunk := { chunk with replay_gain_serial := decoder.replay_gain_serial }
      let chunk :=
        if decoder.replay_gain_serial ≠ 0
        then { chunk with replay_gain_info := decoder.replay_gain_info } else chunk
      ⟨.returned (some chunk), { decoder with chunk := some chunk }, log⟩
    | none =>
      let decoder := { decoder with chunk := none }
      let r := need_chunks w (log ++ [Step.Lock])
      let log := r.2 ++ [Step.Unlock]
      if r.1 = .NONE then get_chunk_loop w fuel decoder log
      else ⟨.returned none, decoder, log⟩

/-- Function `decoder_get_chunk`. -/
def decoder_get_chunk (w : Surroundings) (fuel : Nat) (decoder : Decoder) (log : List Step) :
    GetChunkResult :=
  match decoder.chunk with
  | some chunk => ⟨.returned (some chunk), decoder, log⟩
  | none => get_chunk_loop w fuel decoder log

/-! ## Example surroundings -/

/-- A buffer that is empty for the first `failures` calls of `Allocate` and
then hands out `chunk`; the command stays `command`. -/
def scripted (failures : Nat) (chunk : music_chunk) (command : DecoderCommand) :
    Surroundings :=
  { Allocate := fun log =>
      if (log.filter (fun s => s = Step.Allocate none)).length < failures
      then none else some chunk
    command := fun _ => command }

/-! ## Flushing the chunk -/

/-- The two places a chunk can be in besides the decoder: the free list of
the `MusicBuffer` (`dc.buffer`) and the `MusicPipe` (`dc.pipe`), head first. -/
structure Places where
  pool : List music_chunk
  pipe : List music_chunk
  deriving DecidableEq, Repr

/-- Modelled from the spec: `music_chunk::IsEmpty`, a chunk without data. -/
def IsEmpty (chunk : music_chunk) : Bool :=
  chunk.length = 0

/-- Modelled from the spec: `MusicBuffer::Return` frees the chunk back to the
pool. -/
def Return (places : Places) (chunk : music_chunk) : Places :=
  { places with pool := chunk :: places.pool }

/-- Modelled from the spec: `MusicPipe::Push` appends the chunk to the tail
of the pipe. -/
def Push (places : Places) (chunk : music_chunk) : Places :=
  { places with pipe := places.pipe ++ [chunk] }

/-- What `decoder_flush_chunk` does to the decoder control, in order. -/
inductive FlushStep where
  | Lock
  | signal
  | Unlock
  deriving DecidableEq, Repr

/-- The decoder, the places and the steps after `decoder_flush_chunk`. -/
structure FlushResult where
  decoder : Decoder
  places : Places
  log : List FlushStep
  deriving DecidableEq, Repr

/-- Function `decoder_flush_chunk`; `none` stands for the failure of
`assert(decoder.chunk != nullptr)`.  The three asserts on the seek flags are
not part of the control flow. -/
def decoder_flush_chunk (client_is_waiting : Bool) (decoder : Decoder) (places : Places) :
    Option FlushResult :=
  match decoder.chunk with
  | none => none
  | some chunk =>
    let places := if IsEmpty chunk then Return places chunk else Push places chunk
    let decoder := { decoder with chunk := none }
    let log := [FlushStep.Lock]
    let log := if client_is_waiting then log ++ [FlushStep.signal] else log
    let log := log ++ [FlushStep.Unlock]
    some ⟨decoder, places, log⟩

end DecoderInternal

/-!
# Native DSD packing

A shallow embedding of `src/pcm/PcmDsdNative.cxx`.  The source is a function
from byte indices to values; the result records the words stored through
`dest` and the indices of `src` that were read.
-/

namespace PcmDsdNative

/-- Value of a `uint8_t`. -/
def u8 (n : Nat) : Nat := n % 2 ^ 8

/-- Value of an `unsigned` / `uint32_t`. -/
def u32 (n : Nat) : Nat := n % 2 ^ 32

/-- Function `pcm_two_dsd_native`, its result converted to `uint32_t`. -/
def pcm_two_dsd_native (a b c d : Nat) : Nat :=
  u32 (0x00000000 ||| (u8 a <<< 24) ||| (u8 b <<< 16) ||| (u8 c <<< 8) ||| u8 d)

/-- What a call of `pcm_dsd_native` leaves behind: the value stored in
`*dest_size_r` (also the size asked from `buffer.Get`), the 32 bit words
stored through `dest` in order from `dest0`, and the indices of `src` read. -/
structure Packed where
  dest_size : Nat
  words : List Nat
  reads : List Nat
  deriving DecidableEq, Repr

/-- The `for` loop of `pcm_dsd_native` with `i` iterations left and `src`
advanced by `pos` bytes: the words stored and the indices read. -/
def pack_loop (src : Nat → Nat) : Nat → Nat → List Nat × List Nat
  | 0, _ => ([], [])
  | i + 1, pos =>
    let left := pcm_two_dsd_native (src (pos + 6)) (src (pos + 4)) (src (pos + 2)) (src pos)
    let right :=
      pcm_two_dsd_native (src (pos + 7)) (src (pos + 5)) (src (pos + 3)) (src (pos + 1))
    let rest := pack_loop src i (pos + 8)
    (left :: right :: rest.1,
     [pos + 6, pos + 4, pos + 2, pos, pos + 7, pos + 5, pos + 3, pos + 1] ++ rest.2)

/-- Function `pcm_dsd_native` (the four `assert`s at its top are not part of
the control flow). -/
def pcm_dsd_native (channels : Nat) (src : Nat → Nat) (src_size : Nat) : Packed :=
  let num_src_samples := u32 src_size
  let num_src_frames := num_src_samples / channels
  let num_frames := num_src_frames / 2
  let dest_size := src_size
  let r := pack_loop src (num_frames / 2) 0
  ⟨dest_size, r.1, r.2⟩

/-- Word `j` of the buffer that `buffer.Get(dest_size)` handed out, after the
call: the word stored by the call if there is one, else what the buffer held
before (`scratch`). -/
def buffer_after (scratch : Nat → Nat) (r : Packed) (j : Nat) : Nat :=
  r.words.getD j (scratch j)

/-- The number of bytes stored through `dest`. -/
def bytes_written (r : Packed) : Nat :=
  4 * r.words.length

/-- The source byte `j` read back from the packed words of a stereo stream:
frame `j / 8`, channel `j % 2`, byte `j % 8 / 2` of the word counted from the
least significant one. -/
def recover_source (words : List Nat) (j : Nat) : Nat :=
  (words.getD (2 * (j / 8) + j % 2) 0 >>> (8 * (j % 8 / 2))) % 256

/-- The source bytes `0, 1, 2, ...`. -/
def ramp : Nat → Nat :=
  fun i => i

end PcmDsdNative

/-!
# Tags of DSD hybrid files

A shallow embedding of the atom search and of the numeric genre tag of
`src/decoder/DsdHybridDecoderPlugin.cxx`.  Memory is a function from byte
offsets to values; pointers are offsets; every byte read is recorded.
-/

namespace DsdHybrid

/-- Value of a `uint8_t`. -/
def u8 (n : Nat) : Nat := n % 2 ^ 8

/-- Value of a `uint32_t`. -/
def u32 (n : Nat) : Nat := n % 2 ^ 32

/-- Value of a `size_t` (LP64). -/
def u64 (n : Nat) : Nat := n % 2 ^ 64

/-- Function `dsdhybrid_read_be32_size`: the four bytes at `ptr`, the first
one the most significant. -/
def dsdhybrid_read_be32_size (mem : Nat → Nat) (ptr : Nat) : Nat :=
  u8 (mem ptr) * 2 ^ 24 + u8 (mem (ptr + 1)) * 2 ^ 16 + u8 (mem (ptr + 2)) * 2 ^ 8
    + u8 (mem (ptr + 3))

/-- The call `memcmp(ptr, name, n)` with `n` the length of `name`: whether
the bytes are equal, and the offsets it has to read (up to the first
difference). -/
def memcmp_eq (mem : Nat → Nat) : Nat → List Nat → Bool × List Nat
  | _, [] => (true, [])
  | ptr, c :: rest =>
    if u8 (mem ptr) = c then
      let r := memcmp_eq mem (ptr + 1) rest
      (r.1, ptr :: r.2)
    else (false, [ptr])

/-- How the bounded model of a loop ends. -/
inductive FindOutcome where
  | returned (found : Bool)
  | out_of_fuel
  deriving DecidableEq, Repr

/-- What `dsdhybrid_tags_find_child_atom` leaves behind: its return value,
`*atom_ptr` and `*atom_size`, and the offsets read. -/
structure FindResult where
  outcome : FindOutcome
  atom_ptr : Nat
  atom_size : Nat
  reads : List Nat
  deriving DecidableEq, Repr

/-- The `while` loop of `dsdhybrid_tags_find_child_atom`, at most `fuel`
iterations.  `current_atom_size` is a `uint32_t`, `atom_size_remain` a
`size_t`; `current_atom_size + 8` is computed in `uint32_t`. -/
def find_loop (mem : Nat → Nat) (atom_name : List Nat) (atom_ptr atom_size : Nat) :
    Nat → Nat → Nat → List Nat → FindResult
  | 0, _, _, reads => ⟨.out_of_fuel, atom_ptr, atom_size, reads⟩
  | fuel + 1, current_atom_ptr, atom_size_remain, reads =>
    if 0 < atom_size_remain then
      let current_atom_size := u32 (dsdhybrid_read_be32_size mem current_atom_ptr + 2 ^ 32 - 8)
      let reads := reads ++ [current_atom_ptr, current_atom_ptr + 1, current_atom_ptr + 2,
        current_atom_ptr + 3]
      if u64 (atom_size_remain + 2 ^ 64 - 8) < current_atom_size then
        ⟨.returned false, atom_ptr, atom_size, reads⟩
      else
        let current_atom_ptr := current_atom_ptr + 4
        let current_atom_name_ptr := current_atom_ptr
        let current_atom_ptr := current_atom_ptr + 4
        let cmp := memcmp_eq mem current_atom_name_ptr atom_name
        let reads := reads ++ cmp.2
        if cmp.1 then ⟨.returned true, current_atom_ptr, current_atom_size, reads⟩
        else
          let current_atom_ptr := current_atom_ptr + current_atom_size
          let atom_size_remain :=
            u64 (atom_size_remain + 2 ^ 64 - u32 (current_atom_size + 8))
          find_loop mem atom_name atom_ptr atom_size fuel current_atom_ptr atom_size_remain
            reads
    else ⟨.returned false, atom_ptr, atom_size, reads⟩

/-- Function `dsdhybrid_tags_find_child_atom`. -/
def dsdhybrid_tags_find_child_atom (mem : Nat → Nat) (fuel : Nat) (atom_ptr atom_size : Nat)
    (atom_name : List Nat) : FindResult :=
  if atom_size = 0 then ⟨.returned false, atom_ptr, atom_size, []⟩
  else find_loop mem atom_name atom_ptr atom_size fuel atom_ptr atom_size []

/-- The bytes of a four character atom name. -/
def atom_name_of (name : String) : List Nat :=
  name.toList.map Char.toNat

/-- Function `dsdhybrid_get_raw_tag`: `none` for `false`, else the new
`*raw_tag_ptr` and `*raw_tag_size`. -/
def dsdhybrid_get_raw_tag (mem : Nat → Nat) (raw_tag_ptr raw_tag_size : Nat) :
    Option (Nat × Nat) :=
  let data_ptr := raw_tag_ptr
  let data_size := dsdhybrid_read_be32_size mem data_ptr
  if raw_tag_size ≠ data_size then none
  else
    let data_ptr := data_ptr + 4
    if ¬ (memcmp_eq mem data_ptr (atom_name_of "data")).1 then none
    else
      let data_ptr := data_ptr + 12
      let data_size := u32 (data_size + 2 ^ 32 - 16)
      some (data_ptr, data_size)

/-- The table `genres` of `dsdhybrid_invoke_genre_num_tag`. -/
def genres : List String :=
  ["Blues", "Classic Rock", "Country", "Dance", "Disco", "Funk", "Grunge", "Hip-Hop",
   "Jazz", "Metal", "New Age", "Oldies", "Other", "Pop", "R&B", "Rap", "Reggae", "Rock",
   "Techno", "Industrial", "Alternative", "Ska", "Death Metal", "Pranks", "Soundtrack",
   "Euro-Techno", "Ambient", "Trip-Hop", "Vocal", "Jazz+Funk", "Fusion", "Trance",
   "Classical", "Instrumental", "Acid", "House", "Game", "Sound Clip", "Gospel", "Noise",
   "Alt. Rock", "Bass", "Soul", "Punk", "Space", "Meditative", "Instrumental Pop",
   "Instrumental Rock", "Ethnic", "Gothic", "Darkwave", "Techno-Industrial", "Electronic",
   "Pop-Folk", "Eurodance", "Dream", "Southern Rock", "Comedy", "Cult", "Gangsta", "Top 40",
   "Christian Rap", "Pop/Funk", "Jungle", "Native American", "Cabaret", "New Wave",
   "Psychadelic", "Rave", "Showtunes", "Trailer", "Lo-Fi", "Tribal", "Acid Punk",
   "Acid Jazz", "Polka", "Retro", "Musical", "Rock & Roll", "Hard Rock", "Folk",
   "Folk/Rock", "National Folk", "Swing", "Fusion", "Bebob", "Latin", "Revival", "Celtic",
   "Bluegrass", "Avantgarde", "Gothic Rock", "Progressive Rock", "Psychadelic Rock",
   "Symphonic Rock", "Slow Rock", "Big Band", "Chorus", "Easy Listening", "Acoustic",
   "Humour", "Speech", "Chanson", "Opera", "Chamber Music", "Sonata", "Symphony",
   "Booty Bass", "Primus", "Porn Groove", "Satire", "Slow Jam", "Club", "Tango", "Samba",
   "Folklore", "Ballad", "Power Ballad", "Rhythmic Soul", "Freestyle", "Duet", "Punk Rock",
   "Drum Solo", "A Capella", "Euro-House", "Dance Hall", "Goa", "Drum & Bass", "Club-House",
   "Hardcore", "Terror", "Indie", "BritPop", "Negerpunk", "Polsk Punk", "Beat",
   "Christian Gangsta Rap", "Heavy Metal", "Black Metal", "Crossover",
   "Contemporary Christian", "Christian Rock", "Merengue", "Salsa", "Thrash Metal", "Anime",
   "Jpop", "Synthpop"]

/-- What `dsdhybrid_invoke_genre_num_tag` does with the tag handler: nothing,
a call with an entry of `genres`, or a call with what lies at an index
outside the table. -/
inductive GenreCall where
  | not_invoked
  | invoke_tag (value : String)
  | outside_table (index : Int)
  deriving DecidableEq, Repr

/-- The index expression `num - 1` of `genres[num - 1]`, computed in `int`
from the `uint8_t` value `num`. -/
def genre_index (num : Nat) : Int :=
  (u8 num : Int) - 1

/-- Function `dsdhybrid_invoke_genre_num_tag`. -/
def dsdhybrid_invoke_genre_num_tag (mem : Nat → Nat) (tag_data_ptr tag_data_size : Nat) :
    GenreCall :=
  match dsdhybrid_get_raw_tag mem tag_data_ptr tag_data_size with
  | none => .not_invoked
  | some (tag_data_ptr, _) =>
    let tag_data_ptr := tag_data_ptr + 1
    let num := u8 (mem tag_data_ptr)
    if 148 < num then .not_invoked
    else
      let index := genre_index num
      if 0 ≤ index ∧ index < genres.length then
        .invoke_tag (genres.getD index.toNat "")
      else .outside_table index

/-- Memory that holds the given bytes from offset 0 on and zero after them. -/
def bytes (l : List Nat) : Nat → Nat :=
  fun i => l.getD i 0

/-- The 16 bytes of a `moov` atom made of an `udta` atom of 12 bytes, whose
four bytes of content are `00 00 00 08`, followed by the letters `meta`. -/
def crafted_moov : Nat → Nat :=
  bytes [0, 0, 0, 12, 117, 100, 116, 97, 0, 0, 0, 8, 109, 101, 116, 97]

/-- The payload of a `gnre` entry: a `data` atom of 18 bytes whose value is
the genre number `num`. -/
def gnre_payload (num : Nat) : Nat → Nat :=
  bytes [0, 0, 0, 18, 100, 97, 116, 97, 0, 0, 0, 0, 0, 0, 0, 0, 0, num]

end DsdHybrid

namespace Alsa

/-! ## Format negotiation -/

/-- The return value of `alsa_try_format_or_packed` in terms of the answers
of the device alone. -/
theorem try_format_or_packed_fst (set_format : snd_pcm_format_t → Int)
    (fmt : snd_pcm_format_t) (n : Negotiation) :
    (alsa_try_format_or_packed set_format fmt n).1 =
      if set_format fmt ≠ -EINVAL then set_format fmt
      else if alsa_to_packed_format fmt = .UNKNOWN then -EINVAL
      else set_format (alsa_to_packed_format fmt) := by
  simp only [alsa_try_format_or_packed, snd_pcm_hw_params_set_format]
  split_ifs <;> rfl

/-- The return value of `alsa_output_try_format` does not depend on the
negotiation state it is called in. -/
theorem try_format_err (big_endian : Bool) (set_format : snd_pcm_format_t → Int)
    (f : SampleFormat) (n : Negotiation) :
    (alsa_output_try_format big_endian set_format f n).1 =
      format_probe big_endian set_format f := by
  simp only [format_probe, alsa_output_try_format]
  split_ifs <;> simp only [try_format_or_packed_fst] at * <;> first | rfl | contradiction

/-- Once `err` is not `-EINVAL` the loop of `alsa_output_setup_format` ends. -/
theorem probe_loop_stop (big_endian : Bool) (set_format : snd_pcm_format_t → Int)
    (l : List SampleFormat) (err : Int) (af : AudioFormat) (n : Negotiation)
    (h : err ≠ -EINVAL) :
    probe_loop big_endian set_format l err af n = (err, af, n) := by
  cases l with
  | nil => rfl
  | cons f l => simp [probe_loop, h]

/-- The loop of `alsa_output_setup_format` changes neither rate nor channels. -/
theorem probe_loop_rate_channels (big_endian : Bool) (set_format : snd_pcm_format_t → Int)
    (l : List SampleFormat) (err : Int) (af : AudioFormat) (n : Negotiation) :
    (probe_loop big_endian set_format l err af n).2.1.sample_rate = af.sample_rate ∧
    (probe_loop big_endian set_format l err af n).2.1.channels = af.channels := by
  induction l generalizing err af n with
  | nil => exact ⟨rfl, rfl⟩
  | cons f l ih =>
    simp only [probe_loop]
    split_ifs
    all_goals first
      | exact ⟨rfl, rfl⟩
      | exact ih _ _ _

/-- What the loop of `alsa_output_setup_format` computes when it is entered
with `-EINVAL` and every probe answers `0` or `-EINVAL`: the first accepted
entry other than the requested format, or the unchanged format. -/
theorem probe_loop_first_accepted (big_endian : Bool) (set_format : snd_pcm_format_t → Int)
    (l : List SampleFormat) (af : AudioFormat) (n : Negotiation)
    (hl : ∀ f ∈ l, f ≠ SampleFormat.UNDEFINED)
    (hall : ∀ f ∈ l, format_probe big_endian set_format f = 0 ∨
      format_probe big_endian set_format f = -EINVAL) :
    (∀ g, (l.filter (fun f => f ≠ af.format)).find?
        (fun f => format_probe big_endian set_format f = 0) = some g →
      (probe_loop big_endian set_format (l ++ [SampleFormat.UNDEFINED]) (-EINVAL) af n).1 = 0 ∧
      (probe_loop big_endian set_format (l ++ [SampleFormat.UNDEFINED]) (-EINVAL) af n).2.1
        = { af with format := g }) ∧
    ((l.filter (fun f => f ≠ af.format)).find?
        (fun f => format_probe big_endian set_format f = 0) = none →
      (probe_loop big_endian set_format (l ++ [SampleFormat.UNDEFINED]) (-EINVAL) af n).1
        = -EINVAL ∧
      (probe_loop big_endian set_format (l ++ [SampleFormat.UNDEFINED]) (-EINVAL) af n).2.1
        = af) := by
  induction l generalizing n with
  | nil => simp [probe_loop]
  | cons f l ih =>
    have hf : f ≠ SampleFormat.UNDEFINED := hl f (List.mem_cons_self _ _)
    have hl2 : ∀ g ∈ l, g ≠ SampleFormat.UNDEFINED :=
      fun g hg => hl g (List.mem_cons_of_mem _ hg)
    have hall2 : ∀ g ∈ l, format_probe big_endian set_format g = 0 ∨
        format_probe big_endian set_format g = -EINVAL :=
      fun g hg => hall g (List.mem_cons_of_mem _ hg)
    by_cases hreq : f = af.format
    · have hstep : ∀ m, probe_loop big_endian set_format
          ((f :: l) ++ [SampleFormat.UNDEFINED]) (-EINVAL) af m =
          probe_loop big_endian set_format (l ++ [SampleFormat.UNDEFINED]) (-EINVAL) af m := by
        intro m
        simp only [List.cons_append, probe_loop]
        rw [if_pos ⟨trivial, hf⟩, if_pos hreq]
        rfl
      rw [hstep]
      simpa [List.filter_cons, hreq] using ih n hl2 hall2
    · rcases h : alsa_output_try_format big_endian set_format f n with ⟨e, m⟩
      have he : e = format_probe big_endian set_format f := by
        have := try_format_err big_endian set_format f n
        rw [h] at this
        exact this
      rcases hall f (List.mem_cons_self _ _) with h0 | hinv
      · have hstep : probe_loop big_endian set_format
            ((f :: l) ++ [SampleFormat.UNDEFINED]) (-EINVAL) af n =
            (0, { af with format := f }, m) := by
          simp only [List.cons_append, probe_loop, h]
          rw [if_pos ⟨trivial, hf⟩, if_neg hreq, he, h0, if_pos rfl]
          exact probe_loop_stop _ _ _ _ _ _ (by decide)
        rw [hstep]
        simp [List.filter_cons, hreq, h0]
      · have hne : (-EINVAL : Int) ≠ 0 := by decide
        have hstep : probe_loop big_endian set_format
            ((f :: l) ++ [SampleFormat.UNDEFINED]) (-EINVAL) af n =
            probe_loop big_endian set_format (l ++ [SampleFormat.UNDEFINED]) (-EINVAL) af m := by
          simp only [List.cons_append, probe_loop, h]
          rw [if_pos ⟨trivial, hf⟩, if_neg hreq, he, hinv, if_neg hne]
          rfl
        rw [hstep]
        simpa [List.filter_cons, hreq, hinv, hne] using ih m hl2 hall2

/-- When the requested format and every entry of the fallback list are
rejected with `-EINVAL`, `alsa_output_setup_format` returns `-EINVAL` and
leaves the audio format as it was. -/
theorem setup_format_all_rejected (big_endian : Bool) (set_format : snd_pcm_format_t → Int)
    (af : AudioFormat) (n : Negotiation)
    (hrej : format_probe big_endian set_format af.format = -EINVAL)
    (hall : ∀ f ∈ [SampleFormat.S24_P32, SampleFormat.S32, SampleFormat.S16, SampleFormat.S8],
      format_probe big_endian set_format f = -EINVAL) :
    (alsa_output_setup_format big_endian set_format af n).1 = -EINVAL ∧
    (alsa_output_setup_format big_endian set_format af n).2.1 = af := by
  simp only [alsa_output_setup_format]
  rcases h : alsa_output_try_format big_endian set_format af.format n with ⟨e, m⟩
  have he : e = -EINVAL := by
    have := try_format_err big_endian set_format af.format n
    rw [h, hrej] at this
    exact this
  subst he
  have hne : (-EINVAL : Int) ≠ 0 := by decide
  have hnone : ([SampleFormat.S24_P32, SampleFormat.S32, SampleFormat.S16,
      SampleFormat.S8].filter (fun f => f ≠ af.format)).find?
      (fun f => format_probe big_endian set_format f = 0) = none := by
    rw [List.find?_eq_none]
    intro f hf
    have hmem := (List.mem_filter.mp hf).1
    simp [hall f hmem, hne]
  exact (probe_loop_first_accepted big_endian set_format _ af m (by decide)
    (fun f hf => Or.inr (hall f hf))).2 hnone

/-- Claim C1. `alsa_output_setup_format`, for every requested format and every
device whose format probes answer `0` or `-EINVAL`: when the requested
format is rejected and some entry of `[S24_P32, S32, S16, S8]` other than
the requested one is accepted, the function returns `0`, the negotiated
format is the first accepted entry of that list (the requested format
skipped), and sample rate and channel count are left as they were. -/
theorem setup_format_first_accepted (big_endian : Bool)
    (set_format : snd_pcm_format_t → Int) (af : AudioFormat) (n : Negotiation)
    (hprobe : ∀ f, format_probe big_endian set_format f = 0 ∨
      format_probe big_endian set_format f = -EINVAL)
    (hrej : format_probe big_endian set_format af.format = -EINVAL)
    (hacc : ∃ f ∈ [SampleFormat.S24_P32, SampleFormat.S32, SampleFormat.S16, SampleFormat.S8],
      f ≠ af.format ∧ format_probe big_endian set_format f = 0) :
    (alsa_output_setup_format big_endian set_format af n).1 = 0 ∧
    ([SampleFormat.S24_P32, SampleFormat.S32, SampleFormat.S16, SampleFormat.S8].filter
        (fun f => f ≠ af.format)).find? (fun f => format_probe big_endian set_format f = 0)
      = some (alsa_output_setup_format big_endian set_format af n).2.1.format ∧
    (alsa_output_setup_format big_endian set_format af n).2.1.sample_rate = af.sample_rate ∧
    (alsa_output_setup_format big_endian set_format af n).2.1.channels = af.channels := by
  simp only [alsa_output_setup_format]
  rcases h : alsa_output_try_format big_endian set_format af.format n with ⟨e, m⟩
  have he : e = -EINVAL := by
    have := try_format_err big_endian set_format af.format n
    rw [h, hrej] at this
    exact this
  subst he
  obtain ⟨f, hmem, hne, hok⟩ := hacc
  have hsome : (([SampleFormat.S24_P32, SampleFormat.S32, SampleFormat.S16,
      SampleFormat.S8].filter (fun f => f ≠ af.format)).find?
      (fun f => format_probe big_endian set_format f = 0)).isSome = true := by
    rw [List.find?_isSome]
    exact ⟨f, List.mem_filter.mpr ⟨hmem, by simpa using hne⟩, by simpa using hok⟩
  obtain ⟨g, hg⟩ := Option.isSome_iff_exists.mp hsome
  have hloop := (probe_loop_first_accepted big_endian set_format _ af m (by decide)
    (fun f _ => hprobe f)).1 g hg
  have hrc := probe_loop_rate_channels big_endian set_format probe_formats (-EINVAL) af m
  refine ⟨hloop.1, ?_, hrc.1, hrc.2⟩
  rw [hg]
  have h2 := hloop.2
  have h3 : (probe_loop big_endian set_format probe_formats (-EINVAL) af m).2.1.format = g := by
    show (probe_loop big_endian set_format
      ([SampleFormat.S24_P32, SampleFormat.S32, SampleFormat.S16, SampleFormat.S8]
        ++ [SampleFormat.UNDEFINED]) (-EINVAL) af m).2.1.format = g
    rw [h2]
  rw [h3]

/-- The scenario of C1: 16 bit at 44100 Hz with 2 channels requested from a
device that rejects 16 bit and accepts 24 bit in 32. -/
theorem setup_format_first_accepted_witness :
    format_probe false only_s24_le SampleFormat.S16 = -EINVAL ∧
    format_probe false only_s24_le SampleFormat.S24_P32 = 0 ∧
    (alsa_output_setup_format false only_s24_le ⟨44100, .S16, 2⟩ ⟨none, none, none, []⟩).1 = 0 ∧
    (alsa_output_setup_format false only_s24_le ⟨44100, .S16, 2⟩
      ⟨none, none, none, []⟩).2.1.format = SampleFormat.S24_P32 ∧
    (alsa_output_setup_format false only_s24_le ⟨44100, .S16, 2⟩
      ⟨none, none, none, []⟩).2.1.sample_rate = 44100 ∧
    (alsa_output_setup_format false only_s24_le ⟨44100, .S16, 2⟩
      ⟨none, none, none, []⟩).2.1.channels = 2 := by
  obtain ⟨h0, hfind, hr, hc⟩ := setup_format_first_accepted false only_s24_le
    ⟨44100, .S16, 2⟩ ⟨none, none, none, []⟩ (by intro f; cases f <;> decide) (by decide)
    ⟨SampleFormat.S24_P32, by decide, by decide, by decide⟩
  refine ⟨by decide, by decide, h0, ?_, hr, hc⟩
  have hconcrete : ([SampleFormat.S24_P32, SampleFormat.S32, SampleFormat.S16,
      SampleFormat.S8].filter (fun f => f ≠ (⟨44100, .S16, 2⟩ : AudioFormat).format)).find?
      (fun f => format_probe false only_s24_le f = 0) = some SampleFormat.S24_P32 := by decide
  rw [hconcrete] at hfind
  exact (Option.some.inj hfind).symm

/-! ## DSD over USB -/

/-- Claim C2 as stated fails: on a device that accepts `S32_LE` only,
`alsa_setup` negotiates `S32`, which differs from the target `S24_P32` in
the sample representation, and `alsa_setup_dsd` still returns `true`. -/
theorem setup_dsd_accepts_s32 :
    ¬ (((alsa_setup (echo_hw only_s32_le) dsd_usb_output
            ⟨2822400 / 2, .S24_P32, 2⟩ none none).audio_format.sample_rate ≠ 2822400 / 2 ∨
        (alsa_setup (echo_hw only_s32_le) dsd_usb_output
            ⟨2822400 / 2, .S24_P32, 2⟩ none none).audio_format.format ≠ SampleFormat.S24_P32) →
      (alsa_setup_dsd (echo_hw only_s32_le) dsd_usb_output
        ⟨2822400, .DSD, 2⟩ false none none).success = false) := by
  unfold alsa_setup_dsd alsa_setup configure_hw
  decide

/-- Claim C2, amended. `alsa_setup_dsd` on the path without native DSD: if the
format negotiated by `alsa_setup` differs from the target (`S24_P32`, half
the requested rate, the requested channels) in the sample rate, or has a
sample representation other than `S24_P32` and `S32`, the function returns
`false`. -/
theorem setup_dsd_requires_exact_transport (hw : Hw) (ad : AlsaOutput) (af : AudioFormat)
    (shift8_r : Bool) (packed_r reverse_endian_r : Option Bool)
    (hnative : ad.dsd_native = false)
    (hdiff :
      (alsa_setup hw ad ⟨af.sample_rate / 2, .S24_P32, af.channels⟩
          packed_r reverse_endian_r).audio_format.sample_rate ≠ af.sample_rate / 2 ∨
      ((alsa_setup hw ad ⟨af.sample_rate / 2, .S24_P32, af.channels⟩
          packed_r reverse_endian_r).audio_format.format ≠ SampleFormat.S24_P32 ∧
       (alsa_setup hw ad ⟨af.sample_rate / 2, .S24_P32, af.channels⟩
          packed_r reverse_endian_r).audio_format.format ≠ SampleFormat.S32)) :
    (alsa_setup_dsd hw ad af shift8_r packed_r reverse_endian_r).success = false := by
  simp only [alsa_setup_dsd, hnative]
  generalize alsa_setup hw ad ⟨af.sample_rate / 2, .S24_P32, af.channels⟩
    packed_r reverse_endian_r = res at hdiff ⊢
  rcases res with ⟨ok, e, ad2, ⟨rate, fmt, ch⟩, pk, rv, lg⟩
  simp only [Bool.false_eq_true, if_false] at hdiff ⊢
  split_ifs with h1 h2 h3 h3
  all_goals first
    | rfl
    | (exfalso
       simp only [ne_eq, not_not, AudioFormat.mk.injEq] at h3
       rcases hdiff with hd | hd
       · exact hd h3.1
       · first
          | exact hd.2 h2
          | exact hd.1 h3.2.1)

/-- The amended C2 on a device that accepts 16 bit only: the negotiated
format is `S16` and the DSD-over-USB setup fails. -/
theorem setup_dsd_requires_exact_transport_witness :
    (alsa_setup (echo_hw only_s16_le) dsd_usb_output ⟨2822400 / 2, .S24_P32, 2⟩
        none none).audio_format.format = SampleFormat.S16 ∧
    (alsa_setup_dsd (echo_hw only_s16_le) dsd_usb_output ⟨2822400, .DSD, 2⟩
        false none none).success = false :=
  ⟨by unfold alsa_setup configure_hw; decide,
   setup_dsd_requires_exact_transport (echo_hw only_s16_le) dsd_usb_output
     ⟨2822400, .DSD, 2⟩ false none none rfl
     (Or.inr (by unfold alsa_setup configure_hw; decide))⟩

/-! ## Play, recover, drain, cancel -/

/-- Claim C3. `alsa_play` on a chunk of `size` bytes: whenever the call reaches
`PcmExport::Export` (no failed `snd_pcm_prepare` before it) and `Export`
reports a destination size of 0, `alsa_play` returns `size` with no error
set, `period_position` is unchanged, and the log gains the `Export` call
and no `writei`. -/
theorem play_empty_export_consumes_all (w : World) (fuel : Nat) (ad : AlsaOutput)
    (log : List Event) (size : Nat)
    (hprep : ad.must_prepare = true → 0 ≤ w.answer log .snd_pcm_prepare)
    (hexp : w.Export (if ad.must_prepare
        then log ++ [Event.call .snd_pcm_prepare (w.answer log .snd_pcm_prepare)]
        else log) size = 0) :
    (alsa_play w fuel ad log size).outcome = .returned size none ∧
    (alsa_play w fuel ad log size).ad.period_position = ad.period_position ∧
    (alsa_play w fuel ad log size).log =
      (if ad.must_prepare
        then log ++ [Event.call .snd_pcm_prepare (w.answer log .snd_pcm_prepare)]
        else log) ++ [Event.Export size 0] := by
  cases hmp : ad.must_prepare
  · simp only [hmp, Bool.false_eq_true, if_false] at hexp
    simp only [alsa_play, hmp, Bool.false_eq_true, if_false, play_export, hexp, if_true]
    exact ⟨trivial, trivial, trivial⟩
  · have h0 : ¬ w.answer log .snd_pcm_prepare < 0 := not_lt.mpr (hprep hmp)
    rw [if_pos hmp] at hexp
    simp only [alsa_play, hmp, if_true, h0, if_false, play_export, hexp]
    exact ⟨trivial, trivial, trivial⟩

/-- C3 on an open device whose export stage yields nothing for a chunk of
4 bytes. -/
theorem play_empty_export_consumes_all_witness :
    (alsa_play (steady_world .RUNNING 1 0 0) 0 (open_output 7 true) [] 4).outcome
      = .returned 4 none ∧
    (alsa_play (steady_world .RUNNING 1 0 0) 0 (open_output 7 true) [] 4).ad.period_position
      = 7 ∧
    (alsa_play (steady_world .RUNNING 1 0 0) 0 (open_output 7 true) [] 4).log
      = [Event.call .snd_pcm_prepare 0, Event.Export 4 0] :=
  play_empty_export_consumes_all (steady_world .RUNNING 1 0 0) 0 (open_output 7 true) [] 4
    (by decide) (by decide)

/-- Claim C4. `alsa_recover` agrees with the reference mapping on every device
state the mapping names: the return value is the one of the mapping, and
the output object is unchanged but for the `period_position` of the
mapping. -/
theorem recover_matches_reference (w : World) (ad : AlsaOutput) (log : List Event)
    (err rv : Int) (pos : Nat)
    (href : recover_reference (w.state log)
      (w.answer (log ++ [Event.state (w.state log)]) .snd_pcm_resume)
      (if w.state log = .SUSPENDED
        then w.answer (log ++ [Event.state (w.state log)] ++
          [Event.call .snd_pcm_resume
            (w.answer (log ++ [Event.state (w.state log)]) .snd_pcm_resume)]) .snd_pcm_prepare
        else w.answer (log ++ [Event.state (w.state log)]) .snd_pcm_prepare)
      err ad.period_position = some (rv, pos)) :
    (alsa_recover w ad log err).1 = rv ∧
    (alsa_recover w ad log err).2.1 = { ad with period_position := pos } := by
  unfold alsa_recover
  unfold recover_reference at href
  cases hst : w.state log <;> simp only [hst] at href ⊢
  all_goals try simp only [recover_prepare, reduceCtorEq, if_true, if_false] at href ⊢
  all_goals try split_ifs at href ⊢
  all_goals
    (simp only [Option.some.injEq, Prod.mk.injEq] at href
     obtain ⟨h1, h2⟩ := href
     subst h1 h2
     exact ⟨rfl, rfl⟩)

/-- C4 on a suspended device that cannot be resumed yet. -/
theorem recover_matches_reference_witness :
    (alsa_recover (steady_world .SUSPENDED 0 (-EAGAIN) 0) (open_output 7 false) []
      (-ESTRPIPE)).1 = 0 ∧
    (alsa_recover (steady_world .SUSPENDED 0 (-EAGAIN) 0) (open_output 7 false) []
      (-ESTRPIPE)).2.1 = { open_output 7 false with period_position := 7 } :=
  recover_matches_reference (steady_world .SUSPENDED 0 (-EAGAIN) 0) (open_output 7 false) []
    (-ESTRPIPE) 0 7 (by decide)

/-- An error code that fits an `int` is kept by the conversion from `long`. -/
theorem to_int_of_error (ret : Int) (hneg : ret < 0) (hint : -2 ^ 31 ≤ ret) :
    to_int ret = ret := by
  unfold to_int
  have h1 : (0 : Int) ≤ ret + 2 ^ 31 := by linarith
  have h2 : ret + 2 ^ 31 < 2 ^ 32 := by
    have : (2 : Int) ^ 31 < 2 ^ 32 := by norm_num
    linarith
  rw [Int.emod_eq_of_lt h1 h2]
  ring

/-- Claim C5. In any iteration of the write loop of `alsa_play`: when `writei`
returns a negative error code (an `int`) other than `-EAGAIN` and `-EINTR`
and the device then reports the state DISCONNECTED, `alsa_play` returns 0
with the error set; the log ends with that write and the state query (no
further write), and the output object, `period_position` included, is
unchanged. -/
theorem play_stops_when_disconnected (w : World) (size fuel : Nat) (ad : AlsaOutput)
    (log : List Event)
    (hneg : w.answer log (.writei ad.writei .chunk size) < 0)
    (hint : -2 ^ 31 ≤ w.answer log (.writei ad.writei .chunk size))
    (hagain : w.answer log (.writei ad.writei .chunk size) ≠ -EAGAIN)
    (hintr : w.answer log (.writei ad.writei .chunk size) ≠ -EINTR)
    (hstate : w.state (log ++ [Event.call (.writei ad.writei .chunk size)
      (w.answer log (.writei ad.writei .chunk size))]) = .DISCONNECTED) :
    write_loop w size (fuel + 1) ad log =
      ⟨.returned 0 (some ⟨w.answer log (.writei ad.writei .chunk size), .strerror⟩), ad,
       log ++ [Event.call (.writei ad.writei .chunk size)
                 (w.answer log (.writei ad.writei .chunk size)),
               Event.state .DISCONNECTED]⟩ := by
  have hpos : ¬ 0 < w.answer log (.writei ad.writei .chunk size) := by linarith
  have hconv := to_int_of_error _ hneg hint
  simp only [write_loop, hpos, if_false, hneg, hagain, hintr, ne_eq, not_false_eq_true,
    and_self, if_true, alsa_recover, hstate, hconv, List.append_assoc, List.singleton_append]

/-- C5 on a disconnected device whose writes fail with `-ENODEV` (-19). -/
theorem play_stops_when_disconnected_witness :
    write_loop (steady_world .DISCONNECTED (-19) 0 4) 1 (3 + 1) (open_output 7 false) [] =
      ⟨.returned 0 (some ⟨-19, .strerror⟩), open_output 7 false,
       [Event.call (.writei .snd_pcm_writei .chunk 1) (-19), Event.state .DISCONNECTED]⟩ :=
  play_stops_when_disconnected (steady_world .DISCONNECTED (-19) 0 4) 1 3
    (open_output 7 false) [] (by decide) (by decide) (by decide) (by decide) (by decide)

/-- Claim C6. `alsa_cancel`, from every device state: `period_position` becomes 0
and `must_prepare` becomes true, every other field of the output object is
unchanged, and the log gains exactly the call `snd_pcm_drop`. -/
theorem cancel_resets_and_drops (w : World) (ad : AlsaOutput) (log : List Event) :
    alsa_cancel w ad log =
      ({ ad with period_position := 0, must_prepare := true },
       log ++ [Event.call .snd_pcm_drop (w.answer log .snd_pcm_drop)]) := rfl

/-- Claim C8. `alsa_drain` on a device in state RUNNING whose bookkeeping
satisfies `period_position < period_frames`: with `0 < period_position` it
writes `period_frames - period_position` frames of silence (at most one
period), then calls `snd_pcm_drain`, and `period_position` becomes 0; with
`period_position = 0` it calls `snd_pcm_drain` without any write. -/
theorem drain_completes_period (w : World) (ad : AlsaOutput) (log : List Event)
    (hstate : w.state log = .RUNNING)
    (hlt : ad.period_position < ad.period_frames)
    (hframes : ad.period_frames < 2 ^ 64) :
    (0 < ad.period_position →
      alsa_drain w ad log =
        ({ ad with period_position := 0 },
         log ++ [Event.state .RUNNING] ++
           [Event.call (.writei ad.writei .silence (ad.period_frames - ad.period_position))
             (w.answer (log ++ [Event.state .RUNNING])
               (.writei ad.writei .silence (ad.period_frames - ad.period_position)))] ++
           [Event.call .snd_pcm_drain
             (w.answer (log ++ [Event.state .RUNNING] ++
               [Event.call (.writei ad.writei .silence (ad.period_frames - ad.period_position))
                 (w.answer (log ++ [Event.state .RUNNING])
                   (.writei ad.writei .silence (ad.period_frames - ad.period_position)))])
               .snd_pcm_drain)]) ∧
      ad.period_frames - ad.period_position ≤ ad.period_frames) ∧
    (ad.period_position = 0 →
      alsa_drain w ad log =
        ({ ad with period_position := 0 },
         log ++ [Event.state .RUNNING] ++
           [Event.call .snd_pcm_drain
             (w.answer (log ++ [Event.state .RUNNING]) .snd_pcm_drain)])) := by
  have hsub : u64 (ad.period_frames + 2 ^ 64 - ad.period_position) =
      ad.period_frames - ad.period_position := by
    unfold u64
    have h1 : ad.period_frames + 2 ^ 64 - ad.period_position =
        (ad.period_frames - ad.period_position) + 2 ^ 64 := by omega
    rw [h1, Nat.add_mod_right]
    exact Nat.mod_eq_of_lt (by omega)
  constructor
  · intro hpos
    refine ⟨?_, Nat.sub_le _ _⟩
    simp only [alsa_drain, hstate, ne_eq, not_true_eq_false, if_false, hpos, if_true,
      alsa_write_silence, hsub]
  · intro hzero
    have hnpos : ¬ 0 < ad.period_position := by omega
    simp only [alsa_drain, hstate, ne_eq, not_true_eq_false, if_false, hnpos]

/-- C8 on a running device 100 frames into a period of 1024. -/
theorem drain_completes_period_witness :
    (alsa_drain (steady_world .RUNNING 924 0 4) (open_output 100 false) []).2 =
      [Event.state .RUNNING, Event.call (.writei .snd_pcm_writei .silence 924) 924,
       Event.call .snd_pcm_drain 0] ∧
    (alsa_drain (steady_world .RUNNING 924 0 4) (open_output 100 false) []).1.period_position
      = 0 := by
  have h := (drain_completes_period (steady_world .RUNNING 924 0 4) (open_output 100 false) []
    rfl (by decide) (by decide)).1 (by decide)
  rw [h.1]
  exact ⟨rfl, rfl⟩

/-! ## `alsa_setup` -/

/-- The call `snd_pcm_hw_params_any` fails with the error set, or goes on with the
same format and one more call before the channel configuration. -/
theorem setup_any_cases (hw : Hw) (pass : Nat) (v : SetupVars) :
    (∃ r, setup_any hw pass v = .error r ∧ r.success = false ∧ r.error.isSome = true ∧
      r.log = v.log ++ [HwCall.hw_params_any]) ∨
    (∃ v1, setup_any hw pass v = .ok v1 ∧ v1.audio_format = v.audio_format ∧
      v1.log = v.log ++ [HwCall.hw_params_any]) := by
  simp only [setup_any]
  split_ifs
  · exact Or.inl ⟨_, rfl, rfl, rfl, rfl⟩
  · exact Or.inr ⟨_, rfl, rfl, rfl⟩

/-- The memory mapped access keeps the format and logs at most a `set_access`. -/
theorem setup_access_mmap_log (hw : Hw) (pass : Nat) (v : SetupVars) :
    (setup_access_mmap hw pass v).audio_format = v.audio_format ∧
    ∀ c ∈ (setup_access_mmap hw pass v).log, c ∈ v.log ∨ before_channels c = true := by
  simp only [setup_access_mmap]
  split_ifs
  all_goals
    refine ⟨rfl, ?_⟩
    intro c hc
    first
      | exact Or.inl hc
      | (rcases List.mem_append.mp hc with h | h
         · exact Or.inl h
         · rw [List.mem_singleton.mp h]
           exact Or.inr rfl)

/-- The direct write access fails with the error set, or goes on with the
same format; it logs at most a `set_access`. -/
theorem setup_access_rw_cases (hw : Hw) (pass : Nat) (v : SetupVars) :
    (∃ r, setup_access_rw hw pass v = .error r ∧ r.success = false ∧ r.error.isSome = true ∧
      ∀ c ∈ r.log, c ∈ v.log ∨ before_channels c = true) ∨
    (∃ v1, setup_access_rw hw pass v = .ok v1 ∧ v1.audio_format = v.audio_format ∧
      ∀ c ∈ v1.log, c ∈ v.log ∨ before_channels c = true) := by
  have hlog : ∀ c ∈ v.log ++ [HwCall.set_access .RW_INTERLEAVED],
      c ∈ v.log ∨ before_channels c = true := by
    intro c hc
    rcases List.mem_append.mp hc with h | h
    · exact Or.inl h
    · rw [List.mem_singleton.mp h]
      exact Or.inr rfl
  simp only [setup_access_rw]
  split_ifs
  all_goals first
    | exact Or.inl ⟨_, rfl, rfl, rfl, hlog⟩
    | exact Or.inr ⟨_, rfl, rfl, hlog⟩
    | exact Or.inr ⟨_, rfl, rfl, fun c hc => Or.inl hc⟩

/-- With every format rejected, the format stage of `alsa_setup` returns
`false` with the error set, having logged `set_format` calls only. -/
theorem setup_format_rejected (hw : Hw) (pass : Nat) (v : SetupVars)
    (hrej : format_probe hw.big_endian (hw.set_format pass) v.audio_format.format = -EINVAL)
    (hall : ∀ f ∈ [SampleFormat.S24_P32, SampleFormat.S32, SampleFormat.S16, SampleFormat.S8],
      format_probe hw.big_endian (hw.set_format pass) f = -EINVAL) :
    ∃ r, setup_format hw pass v = .error r ∧ r.success = false ∧ r.error.isSome = true ∧
      ∀ c ∈ r.log, c ∈ v.log ∨ before_channels c = true := by
  have herr := (setup_format_all_rejected hw.big_endian (hw.set_format pass) v.audio_format
    ⟨none, v.packed, v.reverse_endian, []⟩ hrej hall).1
  have hneg : (-EINVAL : Int) < 0 := by decide
  unfold setup_format
  simp only [herr, hneg, if_true]
  refine ⟨_, rfl, rfl, rfl, ?_⟩
  intro c hc
  rcases List.mem_append.mp hc with h | h
  · exact Or.inl h
  · obtain ⟨a, _, ha⟩ := List.mem_map.mp h
    rw [← ha]
    exact Or.inr rfl

/-- With every format rejected, a pass through `configure_hw` ends before
the channel configuration, as a failure with the error set. -/
theorem pass_format_rejected (hw : Hw) (pass : Nat) (v : SetupVars)
    (hlog : ∀ c ∈ v.log, before_channels c = true)
    (hrej : format_probe hw.big_endian (hw.set_format pass) v.audio_format.format = -EINVAL)
    (hall : ∀ f ∈ [SampleFormat.S24_P32, SampleFormat.S32, SampleFormat.S16, SampleFormat.S8],
      format_probe hw.big_endian (hw.set_format pass) f = -EINVAL) :
    ∃ r, configure_hw_pass hw pass v = .error r ∧ r.success = false ∧
      r.error.isSome = true ∧ ∀ c ∈ r.log, before_channels c = true := by
  unfold configure_hw_pass
  simp only [bind, Except.bind]
  rcases setup_any_cases hw pass v with ⟨r, h1, hs, he, hl⟩ | ⟨v1, h1, hf1, hl1⟩
  · rw [h1]
    refine ⟨r, rfl, hs, he, ?_⟩
    intro c hc
    rw [hl] at hc
    rcases List.mem_append.mp hc with h | h
    · exact hlog c h
    · rw [List.mem_singleton.mp h]
      rfl
  · rw [h1]
    have hlog1 : ∀ c ∈ v1.log, before_channels c = true := by
      intro c hc
      rw [hl1] at hc
      rcases List.mem_append.mp hc with h | h
      · exact hlog c h
      · rw [List.mem_singleton.mp h]
        rfl
    obtain ⟨hf2, hl2⟩ := setup_access_mmap_log hw pass v1
    have hlog2 : ∀ c ∈ (setup_access_mmap hw pass v1).log, before_channels c = true :=
      fun c hc => (hl2 c hc).elim (hlog1 c) id
    rcases setup_access_rw_cases hw pass (setup_access_mmap hw pass v1) with
      ⟨r, h3, hs, he, hl⟩ | ⟨v3, h3, hf3, hl3⟩
    · simp only [h3]
      exact ⟨r, rfl, hs, he, fun c hc => (hl c hc).elim (hlog2 c) id⟩
    · simp only [h3]
      have hlog3 : ∀ c ∈ v3.log, before_channels c = true :=
        fun c hc => (hl3 c hc).elim (hlog2 c) id
      have hfmt : v3.audio_format = v.audio_format := by rw [hf3, hf2, hf1]
      obtain ⟨r, h4, hs, he, hl⟩ := setup_format_rejected hw pass v3
        (by rw [hfmt]; exact hrej) hall
      simp only [h4]
      exact ⟨r, rfl, hs, he, fun c hc => (hl c hc).elim (hlog3 c) id⟩

/-- Claim C10. When the device rejects with `-EINVAL` the requested format and
every entry of the fallback list `[S24_P32, S32, S16, S8]`:
`alsa_output_setup_format` returns a negative error and leaves the format
as requested; `alsa_setup` returns `false` with the error set, and every
call in its log is `snd_pcm_hw_params_any`, a `set_access` or a
`set_format` (channels, rate, buffer and period are never configured). -/
theorem setup_fails_when_no_format_accepted (hw : Hw) (ad : AlsaOutput) (af : AudioFormat)
    (packed_r reverse_endian_r : Option Bool)
    (hrej : format_probe hw.big_endian (hw.set_format 0) af.format = -EINVAL)
    (hall : ∀ f ∈ [SampleFormat.S24_P32, SampleFormat.S32, SampleFormat.S16, SampleFormat.S8],
      format_probe hw.big_endian (hw.set_format 0) f = -EINVAL) :
    (∀ n, (alsa_output_setup_format hw.big_endian (hw.set_format 0) af n).1 < 0 ∧
      (alsa_output_setup_format hw.big_endian (hw.set_format 0) af n).2.1.format
        = af.format) ∧
    (alsa_setup hw ad af packed_r reverse_endian_r).success = false ∧
    (alsa_setup hw ad af packed_r reverse_endian_r).error.isSome = true ∧
    ∀ c ∈ (alsa_setup hw ad af packed_r reverse_endian_r).log, before_channels c = true := by
  constructor
  · intro n
    obtain ⟨h1, h2⟩ := setup_format_all_rejected hw.big_endian (hw.set_format 0) af n hrej hall
    rw [h1, h2]
    exact ⟨by decide, rfl⟩
  · obtain ⟨r, hr, hs, he, hl⟩ := pass_format_rejected hw 0
      { ad := ad, audio_format := af, sample_rate := af.sample_rate, channels := af.channels,
        period_time_ro := ad.period_time, packed := packed_r,
        reverse_endian := reverse_endian_r, log := [] }
      (by intro c hc; cases hc) hrej hall
    have hres : alsa_setup hw ad af packed_r reverse_endian_r = r := by
      unfold alsa_setup configure_hw
      rw [hr]
    rw [hres]
    exact ⟨hs, he, hl⟩

/-- C10 on a device that rejects every sample format, 16 bit requested. -/
theorem setup_fails_when_no_format_accepted_witness :
    (alsa_setup (echo_hw no_format) (open_output 0 false) ⟨44100, .S16, 2⟩
      none none).success = false ∧
    (alsa_setup (echo_hw no_format) (open_output 0 false) ⟨44100, .S16, 2⟩
      none none).error.isSome = true :=
  ⟨(setup_fails_when_no_format_accepted (echo_hw no_format) (open_output 0 false)
      ⟨44100, .S16, 2⟩ none none (by decide) (by decide)).2.1,
   (setup_fails_when_no_format_accepted (echo_hw no_format) (open_output 0 false)
      ⟨44100, .S16, 2⟩ none none (by decide) (by decide)).2.2.1⟩

/-! ## Period bookkeeping -/

/-- A failure of `snd_pcm_hw_params_any` is a `return false`. -/
theorem setup_any_error (hw : Hw) (pass : Nat) (v : SetupVars) (r : SetupResult)
    (h : setup_any hw pass v = .error r) : r.success = false := by
  simp only [setup_any] at h
  split_ifs at h
  cases h
  rfl

/-- A failure of the direct write access is a `return false`. -/
theorem setup_access_rw_error (hw : Hw) (pass : Nat) (v : SetupVars) (r : SetupResult)
    (h : setup_access_rw hw pass v = .error r) : r.success = false := by
  simp only [setup_access_rw] at h
  split_ifs at h
  cases h
  rfl

/-- A failure of the format stage is a `return false`. -/
theorem setup_format_error (hw : Hw) (pass : Nat) (v : SetupVars) (r : SetupResult)
    (h : setup_format hw pass v = .error r) : r.success = false := by
  simp only [setup_format] at h
  split_ifs at h
  cases h
  rfl

/-- A failure of the channel stage is a `return false`. -/
theorem setup_channels_error (hw : Hw) (pass : Nat) (v : SetupVars) (r : SetupResult)
    (h : setup_channels hw pass v = .error r) : r.success = false := by
  simp only [setup_channels] at h
  split_ifs at h
  cases h
  rfl

/-- A failure of the rate stage is a `return false`. -/
theorem setup_rate_error (hw : Hw) (pass : Nat) (v : SetupVars) (r : SetupResult)
    (h : setup_rate hw pass v = .error r) : r.success = false := by
  simp only [setup_rate] at h
  split_ifs at h
  cases h
  rfl

/-- A failure of the buffer time stage is a `return false`. -/
theorem setup_buffer_time_error (hw : Hw) (pass : Nat) (v : SetupVars) (r : SetupResult)
    (h : setup_buffer_time hw pass v = .error r) : r.success = false := by
  simp only [setup_buffer_time] at h
  split_ifs at h
  cases h
  rfl

/-- A failure of the period time stage is a `return false`. -/
theorem setup_period_time_error (hw : Hw) (pass : Nat) (vb : SetupVars × Nat)
    (r : SetupResult) (h : setup_period_time hw pass vb = .error r) : r.success = false := by
  simp only [setup_period_time] at h
  split_ifs at h <;> cases h <;> rfl

/-- Every way out of a pass before the commit is a `return false`. -/
theorem pass_error_fails (hw : Hw) (pass : Nat) (v : SetupVars) (r : SetupResult)
    (h : configure_hw_pass hw pass v = .error r) : r.success = false := by
  unfold configure_hw_pass at h
  simp only [bind, Except.bind, pure, Except.pure] at h
  cases h1 : setup_any hw pass v with
  | error e => rw [h1] at h; cases h; exact setup_any_error hw pass v _ h1
  | ok v1 =>
    rw [h1] at h
    cases h2 : setup_access_rw hw pass (setup_access_mmap hw pass v1) with
    | error e => simp only [h2] at h; cases h; exact setup_access_rw_error hw pass _ _ h2
    | ok v2 =>
      simp only [h2] at h
      cases h3 : setup_format hw pass v2 with
      | error e => simp only [h3] at h; cases h; exact setup_format_error hw pass _ _ h3
      | ok v3 =>
        simp only [h3] at h
        cases h4 : setup_channels hw pass v3 with
        | error e => simp only [h4] at h; cases h; exact setup_channels_error hw pass _ _ h4
        | ok v4 =>
          simp only [h4] at h
          cases h5 : setup_rate hw pass v4 with
          | error e => simp only [h5] at h; cases h; exact setup_rate_error hw pass _ _ h5
          | ok v5 =>
            simp only [h5] at h
            cases h6 : setup_buffer_time hw pass v5 with
            | error e =>
              simp only [h6] at h; cases h; exact setup_buffer_time_error hw pass _ _ h6
            | ok v6 =>
              simp only [h6] at h
              cases h7 : setup_period_time hw pass v6 with
              | error e =>
                simp only [h7] at h; cases h; exact setup_period_time_error hw pass _ _ h7
              | ok v7 => simp only [h7] at h; cases h

/-- A successful end of `alsa_setup` stores a period of at least one frame
and the position 0. -/
theorem setup_sw_params_success (hw : Hw) (pass : Nat) (v : SetupVars)
    (h : (setup_sw_params hw pass v).success = true) :
    1 ≤ (setup_sw_params hw pass v).ad.period_frames ∧
    (setup_sw_params hw pass v).ad.period_position = 0 := by
  simp only [setup_sw_params] at h ⊢
  split_ifs at h ⊢
  all_goals first
    | (exfalso; simp only [goto_error] at h; exact Bool.false_ne_true h)
    | exact ⟨le_refl 1, rfl⟩
    | exact ⟨by simp only []; omega, rfl⟩

/-- The same for the passes through `configure_hw`, whatever the retry count. -/
theorem configure_hw_success (hw : Hw) (retry pass : Nat) (v : SetupVars)
    (h : (configure_hw hw retry pass v).success = true) :
    1 ≤ (configure_hw hw retry pass v).ad.period_frames ∧
    (configure_hw hw retry pass v).ad.period_position = 0 := by
  induction retry generalizing pass v with
  | zero =>
    unfold configure_hw at h ⊢
    cases hp : configure_hw_pass hw pass v with
    | error r =>
      rw [hp] at h
      exact absurd h (by simp only [pass_error_fails hw pass v r hp]; decide)
    | ok ev =>
      rw [hp] at h
      simp only at h ⊢
      split_ifs at h ⊢
      all_goals first
        | (exfalso; simp only [goto_error] at h; exact Bool.false_ne_true h)
        | exact setup_sw_params_success hw pass _ h
  | succ n ih =>
    unfold configure_hw at h ⊢
    cases hp : configure_hw_pass hw pass v with
    | error r =>
      rw [hp] at h
      exact absurd h (by simp only [pass_error_fails hw pass v r hp]; decide)
    | ok ev =>
      rw [hp] at h
      simp only at h ⊢
      split_ifs at h ⊢
      all_goals first
        | (exfalso; simp only [goto_error] at h; exact Bool.false_ne_true h)
        | exact setup_sw_params_success hw pass _ h
        | exact ih _ _ h

/-- Function `alsa_recover` leaves the output object as it is or resets `period_position`. -/
theorem recover_ad (w : World) (ad : AlsaOutput) (log : List Event) (err : Int) :
    (alsa_recover w ad log err).2.1 = ad ∨
    (alsa_recover w ad log err).2.1 = { ad with period_position := 0 } := by
  unfold alsa_recover
  cases w.state log <;> simp only [recover_prepare] <;> try split_ifs
  all_goals first
    | exact Or.inl rfl
    | exact Or.inr rfl
    | exact Or.inl trivial
    | exact Or.inr trivial

/-- Function `alsa_drain` leaves the output object as it is or resets `period_position`. -/
theorem drain_ad (w : World) (ad : AlsaOutput) (log : List Event) :
    (alsa_drain w ad log).1 = ad ∨
    (alsa_drain w ad log).1 = { ad with period_position := 0 } := by
  simp only [alsa_drain]
  split_ifs
  all_goals first
    | exact Or.inl rfl
    | exact Or.inr rfl

/-- The write loop keeps `period_position < period_frames`, changes neither
`period_frames` nor `must_prepare`, and never takes a modulo by zero. -/
theorem write_loop_keeps (w : World) (size fuel : Nat) (ad : AlsaOutput) (log : List Event)
    (hinv : ad.period_position < ad.period_frames) :
    (write_loop w size fuel ad log).ad.period_position
      < (write_loop w size fuel ad log).ad.period_frames ∧
    (write_loop w size fuel ad log).ad.period_frames = ad.period_frames ∧
    (write_loop w size fuel ad log).ad.must_prepare = ad.must_prepare ∧
    (write_loop w size fuel ad log).outcome ≠ .modulo_by_period_frames_zero := by
  induction fuel generalizing ad log with
  | zero => exact ⟨hinv, rfl, rfl, by simp [write_loop]⟩
  | succ n ih =>
    have hrec : ∀ err l,
        (alsa_recover w ad l err).2.1.period_position
          < (alsa_recover w ad l err).2.1.period_frames ∧
        (alsa_recover w ad l err).2.1.period_frames = ad.period_frames ∧
        (alsa_recover w ad l err).2.1.must_prepare = ad.must_prepare := by
      intro err l
      rcases recover_ad w ad l err with h | h <;> rw [h]
      · exact ⟨hinv, rfl, rfl⟩
      · exact ⟨Nat.lt_of_le_of_lt (Nat.zero_le _) hinv, rfl, rfl⟩
    simp only [write_loop]
    split_ifs with h1 h2 h3 h4
    · exact absurd hinv (by rw [h2]; exact Nat.not_lt_zero _)
    · exact ⟨Nat.mod_lt _ (Nat.pos_of_ne_zero h2), rfl, rfl, by simp⟩
    · obtain ⟨ha, hb, hc⟩ := hrec (to_int (w.answer log (.writei ad.writei .chunk size)))
        (log ++ [Event.call (.writei ad.writei .chunk size)
          (w.answer log (.writei ad.writei .chunk size))])
      exact ⟨ha, hb, hc, by simp⟩
    · obtain ⟨ha, hb, hc⟩ := hrec (to_int (w.answer log (.writei ad.writei .chunk size)))
        (log ++ [Event.call (.writei ad.writei .chunk size)
          (w.answer log (.writei ad.writei .chunk size))])
      obtain ⟨i1, i2, i3, i4⟩ := ih _ _ ha
      exact ⟨i1, i2.trans hb, i3.trans hc, i4⟩
    · exact ih _ _ hinv

/-- Function `alsa_play` keeps `period_position < period_frames`, does not change
`period_frames`, and never takes a modulo by zero. -/
theorem play_keeps (w : World) (fuel : Nat) (ad : AlsaOutput) (log : List Event) (size : Nat)
    (hinv : ad.period_position < ad.period_frames) :
    (alsa_play w fuel ad log size).ad.period_position
      < (alsa_play w fuel ad log size).ad.period_frames ∧
    (alsa_play w fuel ad log size).ad.period_frames = ad.period_frames ∧
    (alsa_play w fuel ad log size).outcome ≠ .modulo_by_period_frames_zero := by
  simp only [alsa_play, play_export]
  split_ifs
  all_goals first
    | exact ⟨hinv, rfl, by simp⟩
    | (obtain ⟨i1, i2, _, i4⟩ := write_loop_keeps w _ fuel _ _ hinv
       exact ⟨i1, i2, i4⟩)
    | (have hinv2 : ({ ad with must_prepare := false } : AlsaOutput).period_position
          < ({ ad with must_prepare := false } : AlsaOutput).period_frames := hinv
       obtain ⟨i1, i2, _, i4⟩ := write_loop_keeps w _ fuel _ _ hinv2
       exact ⟨i1, i2, i4⟩)

/-- Every sequence of operations keeps `period_position < period_frames`. -/
theorem run_ops_keeps (w : World) (ops : List Op) (ad : AlsaOutput) (log : List Event)
    (hinv : ad.period_position < ad.period_frames) :
    (run_ops w ops ad log).1.period_position < (run_ops w ops ad log).1.period_frames := by
  induction ops generalizing ad log with
  | nil => exact hinv
  | cons op ops ih =>
    cases op with
    | play size fuel =>
      have hp := (play_keeps w fuel ad log size hinv).1
      simp only [run_ops]
      split
      · exact ih _ _ hp
      · exact hp
    | drain =>
      simp only [run_ops]
      apply ih
      rcases drain_ad w ad log with h | h <;> rw [h]
      · exact hinv
      · exact Nat.lt_of_le_of_lt (Nat.zero_le _) hinv
    | cancel =>
      simp only [run_ops]
      apply ih
      exact Nat.lt_of_le_of_lt (Nat.zero_le _) hinv

/-- Claim C9. Period bookkeeping: a successful `alsa_setup` stores
`period_frames >= 1` and `period_position = 0`; from a state with
`period_position < period_frames`, `alsa_play` (where a positive write
result `ret` gives the new position `(old + ret) mod period_frames`, and
no modulo by zero happens), `alsa_recover`, `alsa_drain`, `alsa_cancel` and
every sequence of operations end in such a state again. -/
theorem period_bookkeeping (hw : Hw) (ad0 : AlsaOutput) (af : AudioFormat)
    (packed_r reverse_endian_r : Option Bool) (w : World) (fuel size : Nat)
    (ad : AlsaOutput) (log : List Event) (err : Int) (ops : List Op)
    (hinv : ad.period_position < ad.period_frames) :
    ((alsa_setup hw ad0 af packed_r reverse_endian_r).success = true →
      1 ≤ (alsa_setup hw ad0 af packed_r reverse_endian_r).ad.period_frames ∧
      (alsa_setup hw ad0 af packed_r reverse_endian_r).ad.period_position = 0) ∧
    ((alsa_play w fuel ad log size).ad.period_position
        < (alsa_play w fuel ad log size).ad.period_frames ∧
      (alsa_play w fuel ad log size).outcome ≠ .modulo_by_period_frames_zero) ∧
    (0 < w.answer log (.writei ad.writei .chunk size) →
      (write_loop w size (fuel + 1) ad log).ad.period_position =
        u64 (ad.period_position + (w.answer log (.writei ad.writei .chunk size)).toNat)
          % ad.period_frames) ∧
    (alsa_recover w ad log err).2.1.period_position
      < (alsa_recover w ad log err).2.1.period_frames ∧
    (alsa_drain w ad log).1.period_position < (alsa_drain w ad log).1.period_frames ∧
    (alsa_cancel w ad log).1.period_position < (alsa_cancel w ad log).1.period_frames ∧
    (run_ops w ops ad log).1.period_position < (run_ops w ops ad log).1.period_frames := by
  have hzero : ({ ad with period_position := 0 } : AlsaOutput).period_position
      < ({ ad with period_position := 0 } : AlsaOutput).period_frames :=
    Nat.lt_of_le_of_lt (Nat.zero_le _) hinv
  refine ⟨?_, ?_, ?_, ?_, ?_, ?_, run_ops_keeps w ops ad log hinv⟩
  · intro h
    exact configure_hw_success hw _ _ _ h
  · obtain ⟨h1, _, h3⟩ := play_keeps w fuel ad log size hinv
    exact ⟨h1, h3⟩
  · intro hpos
    have hne : ad.period_frames ≠ 0 := fun h0 => by rw [h0] at hinv; exact Nat.not_lt_zero _ hinv
    simp only [write_loop, hpos, if_true, hne, if_false]
  · rcases recover_ad w ad log err with h | h <;> rw [h]
    · exact hinv
    · exact hzero
  · rcases drain_ad w ad log with h | h <;> rw [h]
    · exact hinv
    · exact hzero
  · exact hzero

/-- C9 on an open device 7 frames into a period of 1024 whose next write
takes 100 frames. -/
theorem period_bookkeeping_witness :
    (open_output 7 false).period_position < (open_output 7 false).period_frames ∧
    (write_loop (steady_world .RUNNING 100 0 4) 1 (0 + 1) (open_output 7 false)
      []).ad.period_position = 107 := by
  have h := (period_bookkeeping (echo_hw only_s16_le) (open_output 0 false) ⟨44100, .S16, 2⟩
    none none (steady_world .RUNNING 100 0 4) 0 1 (open_output 7 false) [] 0 []
    (by decide)).2.2.1 (by decide)
  exact ⟨by decide, h.trans (by decide)⟩

/-! ## Prepare before the first write after a cancel -/

/-- Function `alsa_recover` adds no unguarded write to a log without a pending prepare. -/
theorem recover_guard (w : World) (ad : AlsaOutput) (log : List Event) (err : Int)
    (h : log.foldl guard_step (some false) = some false) :
    (alsa_recover w ad log err).2.2.foldl guard_step (some false) = some false := by
  unfold alsa_recover
  cases w.state log <;>
    simp only [recover_prepare, List.foldl_append, List.foldl_cons, List.foldl_nil, h,
      guard_step]
  split_ifs
  all_goals
    simp only [List.foldl_append, List.foldl_cons, List.foldl_nil, h, guard_step]

/-- The write loop adds no unguarded write to a log without a pending prepare. -/
theorem write_loop_guard (w : World) (size fuel : Nat) (ad : AlsaOutput) (log : List Event)
    (h : log.foldl guard_step (some false) = some false) :
    (write_loop w size fuel ad log).log.foldl guard_step (some false) = some false := by
  induction fuel generalizing ad log with
  | zero => exact h
  | succ n ih =>
    have hw : (log ++ [Event.call (.writei ad.writei .chunk size)
        (w.answer log (.writei ad.writei .chunk size))]).foldl guard_step (some false)
        = some false := by
      simp only [List.foldl_append, List.foldl_cons, List.foldl_nil, h, guard_step]
      rfl
    simp only [write_loop]
    split_ifs
    · exact hw
    · exact hw
    · exact recover_guard w ad _ _ hw
    · exact ih _ _ (recover_guard w ad _ _ hw)
    · exact ih _ _ hw

/-- After `alsa_play` no prepare is pending, whatever the outcome. -/
theorem play_guard (w : World) (fuel : Nat) (ad : AlsaOutput) (log : List Event) (size : Nat)
    (h : pending_prepare ad log) :
    (alsa_play w fuel ad log size).log.foldl guard_step (some false) = some false := by
  obtain ⟨p, hp, himp⟩ := h
  have hexport : ∀ (a : AlsaOutput) (l : List Event),
      l.foldl guard_step (some false) = some false →
      (play_export w fuel a l size).log.foldl guard_step (some false) = some false := by
    intro a l hl
    have he : (l ++ [Event.Export size (w.Export l size)]).foldl guard_step (some false)
        = some false := by
      simp only [List.foldl_append, List.foldl_cons, List.foldl_nil, hl, guard_step]
    simp only [play_export]
    split_ifs
    · exact he
    · exact he
    · exact write_loop_guard w _ fuel a _ he
  cases hmp : ad.must_prepare
  · have hpf : p = false := by
      cases p
      · rfl
      · have := (himp rfl).1
        rw [hmp] at this
        cases this
    subst hpf
    simp only [alsa_play, hmp, Bool.false_eq_true, if_false]
    exact hexport ad log hp
  · have hprep : (log ++ [Event.call .snd_pcm_prepare
        (w.answer log .snd_pcm_prepare)]).foldl guard_step (some false) = some false := by
      simp only [List.foldl_append, List.foldl_cons, List.foldl_nil, hp, guard_step]
    simp only [alsa_play, hmp, if_true]
    split_ifs
    · exact hprep
    · exact hexport _ _ hprep

/-- Function `alsa_drain` keeps the link between log and output object. -/
theorem drain_pending (w : World) (ad : AlsaOutput) (log : List Event)
    (h : pending_prepare ad log) :
    pending_prepare (alsa_drain w ad log).1 (alsa_drain w ad log).2 := by
  obtain ⟨p, hp, himp⟩ := h
  simp only [alsa_drain]
  split_ifs with h1 h2
  · exact ⟨p, by simp only [List.foldl_append, List.foldl_cons, List.foldl_nil, hp,
      guard_step], himp⟩
  · have hpf : p = false := by
      cases p
      · rfl
      · have := (himp rfl).2
        omega
    subst hpf
    refine ⟨false, ?_, fun hc => by cases hc⟩
    simp only [alsa_write_silence, List.foldl_append, List.foldl_cons, List.foldl_nil, hp,
      guard_step]
    rfl
  · refine ⟨p, by simp only [List.foldl_append, List.foldl_cons, List.foldl_nil, hp,
      guard_step], fun hpt => ⟨(himp hpt).1, rfl⟩⟩

/-- Function `alsa_cancel` keeps the link between log and output object. -/
theorem cancel_pending (w : World) (ad : AlsaOutput) (log : List Event)
    (h : pending_prepare ad log) :
    pending_prepare (alsa_cancel w ad log).1 (alsa_cancel w ad log).2 := by
  obtain ⟨p, hp, _⟩ := h
  exact ⟨true, by simp only [alsa_cancel, List.foldl_append, List.foldl_cons, List.foldl_nil,
    hp, guard_step], fun _ => ⟨rfl, rfl⟩⟩

/-- Every sequence of operations keeps the link between log and output object. -/
theorem run_ops_pending (w : World) (ops : List Op) (ad : AlsaOutput) (log : List Event)
    (h : pending_prepare ad log) :
    pending_prepare (run_ops w ops ad log).1 (run_ops w ops ad log).2 := by
  induction ops generalizing ad log with
  | nil => exact h
  | cons op ops ih =>
    cases op with
    | play size fuel =>
      have hp : pending_prepare (alsa_play w fuel ad log size).ad
          (alsa_play w fuel ad log size).log :=
        ⟨false, play_guard w fuel ad log size h, fun hc => by cases hc⟩
      simp only [run_ops]
      split
      · exact ih _ _ hp
      · exact hp
    | drain =>
      simp only [run_ops]
      exact ih _ _ (drain_pending w ad log h)
    | cancel =>
      simp only [run_ops]
      exact ih _ _ (cancel_pending w ad log h)

/-- Function `alsa_recover` only appends to the log. -/
theorem recover_log_extends (w : World) (ad : AlsaOutput) (log : List Event) (err : Int) :
    ∃ rest, (alsa_recover w ad log err).2.2 = log ++ rest := by
  unfold alsa_recover
  cases w.state log <;> simp only [recover_prepare] <;> try split_ifs
  all_goals
    try simp only [List.append_assoc]
    exact ⟨_, rfl⟩

/-- The write loop only appends to the log and never writes `must_prepare`. -/
theorem write_loop_log_extends (w : World) (size fuel : Nat) (ad : AlsaOutput)
    (log : List Event) :
    (∃ rest, (write_loop w size fuel ad log).log = log ++ rest) ∧
    (write_loop w size fuel ad log).ad.must_prepare = ad.must_prepare := by
  induction fuel generalizing ad log with
  | zero => exact ⟨⟨[], by simp [write_loop]⟩, rfl⟩
  | succ n ih =>
    have hmp : ∀ err l, (alsa_recover w ad l err).2.1.must_prepare = ad.must_prepare := by
      intro err l
      rcases recover_ad w ad l err with h | h <;> rw [h]
    simp only [write_loop]
    split_ifs
    · exact ⟨⟨_, rfl⟩, rfl⟩
    · exact ⟨⟨_, rfl⟩, rfl⟩
    · obtain ⟨rest, hr⟩ := recover_log_extends w ad
        (log ++ [Event.call (.writei ad.writei .chunk size)
          (w.answer log (.writei ad.writei .chunk size))])
        (to_int (w.answer log (.writei ad.writei .chunk size)))
      exact ⟨⟨_, by rw [hr, List.append_assoc]⟩, hmp _ _⟩
    · obtain ⟨rest, hr⟩ := recover_log_extends w ad
        (log ++ [Event.call (.writei ad.writei .chunk size)
          (w.answer log (.writei ad.writei .chunk size))])
        (to_int (w.answer log (.writei ad.writei .chunk size)))
      obtain ⟨⟨rest2, hr2⟩, hm2⟩ := ih (alsa_recover w ad
        (log ++ [Event.call (.writei ad.writei .chunk size)
          (w.answer log (.writei ad.writei .chunk size))])
        (to_int (w.answer log (.writei ad.writei .chunk size)))).2.1
        (alsa_recover w ad
        (log ++ [Event.call (.writei ad.writei .chunk size)
          (w.answer log (.writei ad.writei .chunk size))])
        (to_int (w.answer log (.writei ad.writei .chunk size)))).2.2
      exact ⟨⟨_, by rw [hr2, hr, List.append_assoc, List.append_assoc]⟩, hm2.trans (hmp _ _)⟩
    · obtain ⟨⟨rest2, hr2⟩, hm2⟩ := ih ad
        (log ++ [Event.call (.writei ad.writei .chunk size)
          (w.answer log (.writei ad.writei .chunk size))])
      exact ⟨⟨_, by rw [hr2, List.append_assoc]⟩, hm2⟩

/-- The part of `alsa_play` after the prepare only appends to the log and
never writes `must_prepare`. -/
theorem play_export_log_extends (w : World) (fuel : Nat) (ad : AlsaOutput)
    (log : List Event) (size : Nat) :
    (∃ rest, (play_export w fuel ad log size).log = log ++ rest) ∧
    (play_export w fuel ad log size).ad.must_prepare = ad.must_prepare := by
  simp only [play_export]
  split_ifs
  · exact ⟨⟨_, rfl⟩, rfl⟩
  · exact ⟨⟨_, rfl⟩, rfl⟩
  · obtain ⟨⟨rest, hr⟩, hm⟩ := write_loop_log_extends w (w.Export log size / ad.out_frame_size)
      fuel ad (log ++ [Event.Export size (w.Export log size)])
    exact ⟨⟨_, by rw [hr, List.append_assoc]⟩, hm⟩

/-- Claim C7. `alsa_play` entered with `must_prepare` set: the first thing the
call logs is `snd_pcm_prepare` (before any `Export` or `writei`),
`must_prepare` is false afterwards, and when that prepare fails the call
returns 0 with the error set and logs nothing else.  In every sequence of
operations, started on any output object, each `writei` that follows a
`snd_pcm_drop` has a `snd_pcm_prepare` between that drop and itself. -/
theorem play_prepares_before_writing (w : World) (fuel : Nat) (ad : AlsaOutput)
    (log : List Event) (size : Nat) (ops : List Op) (ad0 : AlsaOutput)
    (hmp : ad.must_prepare = true) :
    (∃ rest, (alsa_play w fuel ad log size).log =
      log ++ Event.call .snd_pcm_prepare (w.answer log .snd_pcm_prepare) :: rest) ∧
    (alsa_play w fuel ad log size).ad.must_prepare = false ∧
    (w.answer log .snd_pcm_prepare < 0 →
      (alsa_play w fuel ad log size).outcome =
        .returned 0 (some ⟨w.answer log .snd_pcm_prepare, .strerror⟩) ∧
      (alsa_play w fuel ad log size).log =
        log ++ [Event.call .snd_pcm_prepare (w.answer log .snd_pcm_prepare)]) ∧
    write_guarded (run_ops w ops ad0 []).2 := by
  refine ⟨?_, ?_, ?_, ?_⟩
  · simp only [alsa_play, hmp, if_true]
    split_ifs
    · exact ⟨[], rfl⟩
    · obtain ⟨⟨rest, hr⟩, _⟩ := play_export_log_extends w fuel { ad with must_prepare := false }
        (log ++ [Event.call .snd_pcm_prepare (w.answer log .snd_pcm_prepare)]) size
      exact ⟨rest, by rw [hr, List.append_assoc, List.singleton_append]⟩
  · simp only [alsa_play, hmp, if_true]
    split_ifs
    · rfl
    · exact (play_export_log_extends w fuel { ad with must_prepare := false }
        (log ++ [Event.call .snd_pcm_prepare (w.answer log .snd_pcm_prepare)]) size).2
  · intro hneg
    simp only [alsa_play, hmp, if_true, hneg]
    exact ⟨trivial, trivial⟩
  · obtain ⟨p, hp, _⟩ := run_ops_pending w ops ad0 [] ⟨false, rfl, fun hc => by cases hc⟩
    unfold write_guarded
    rw [hp]
    exact Option.some_ne_none p

/-- C7 on an open device after a cancel, whose prepare fails with `-EIO` (-5). -/
theorem play_prepares_before_writing_witness :
    (open_output 0 true).must_prepare = true ∧
    (alsa_play (steady_world .SETUP 1 (-5) 4) 2 (open_output 0 true) [] 4).outcome =
      .returned 0 (some ⟨-5, .strerror⟩) ∧
    (alsa_play (steady_world .SETUP 1 (-5) 4) 2 (open_output 0 true) [] 4).log =
      [Event.call .snd_pcm_prepare (-5)] ∧
    write_guarded (run_ops (steady_world .SETUP 1 (-5) 4)
      [.play 4 2, .cancel, .drain, .play 4 2] (open_output 0 false) []).2 :=
  ⟨rfl,
   ((play_prepares_before_writing (steady_world .SETUP 1 (-5) 4) 2 (open_output 0 true) [] 4
      [.play 4 2, .cancel, .drain, .play 4 2] (open_output 0 false) rfl).2.2.1
      (by decide)).1,
   ((play_prepares_before_writing (steady_world .SETUP 1 (-5) 4) 2 (open_output 0 true) [] 4
      [.play 4 2, .cancel, .drain, .play 4 2] (open_output 0 false) rfl).2.2.1
      (by decide)).2,
   (play_prepares_before_writing (steady_world .SETUP 1 (-5) 4) 2 (open_output 0 true) [] 4
      [.play 4 2, .cancel, .drain, .play 4 2] (open_output 0 false) rfl).2.2.2⟩

/-! ## The shift-by-8 flag and native DSD -/

/-- On the path without native DSD, the value of the flag before the call
changes neither the success of `alsa_setup_dsd` nor, on success, the flag
it leaves. -/
theorem setup_dsd_ignores_old_flag (hw : Hw) (ad : AlsaOutput) (af : AudioFormat)
    (s1 s2 : Bool) (packed_r reverse_endian_r : Option Bool)
    (hnative : ad.dsd_native = false) :
    (alsa_setup_dsd hw ad af s1 packed_r reverse_endian_r).success =
      (alsa_setup_dsd hw ad af s2 packed_r reverse_endian_r).success ∧
    ((alsa_setup_dsd hw ad af s1 packed_r reverse_endian_r).success = true →
      (alsa_setup_dsd hw ad af s1 packed_r reverse_endian_r).shift8 =
        (alsa_setup_dsd hw ad af s2 packed_r reverse_endian_r).shift8) := by
  simp only [alsa_setup_dsd, hnative]
  generalize alsa_setup hw ad ⟨af.sample_rate / 2, .S24_P32, af.channels⟩
    packed_r reverse_endian_r = res
  simp only [Bool.false_eq_true, if_false]
  split_ifs
  all_goals
    refine ⟨rfl, ?_⟩
    intro h
    first
      | rfl
      | exact absurd h (by decide)

/-- Claim C11. On the path without native DSD, for every successful run of
`alsa_setup_dsd`: `shift8` is true exactly when `alsa_setup` negotiated
`S32` and false exactly when it negotiated `S24_P32`, whatever the value of
the flag before the call and whatever the configuration of the output; and
when `alsa_setup_or_dsd` takes this path (`dsd_usb` set, format `DSD`), the
`shift8` it passes to `PcmExport::Open` is that value. -/
theorem shift8_follows_negotiated_depth (hw : Hw) (ad : AlsaOutput) (af : AudioFormat)
    (shift8_r : Bool)
    (hnative : ad.dsd_native = false)
    (hok : (alsa_setup_dsd hw ad af shift8_r none none).success = true) :
    ((alsa_setup_dsd hw ad af shift8_r none none).shift8 = true ↔
      (alsa_setup hw ad ⟨af.sample_rate / 2, .S24_P32, af.channels⟩
        none none).audio_format.format = SampleFormat.S32) ∧
    ((alsa_setup_dsd hw ad af shift8_r none none).shift8 = false ↔
      (alsa_setup hw ad ⟨af.sample_rate / 2, .S24_P32, af.channels⟩
        none none).audio_format.format = SampleFormat.S24_P32) ∧
    (ad.dsd_usb = true → af.format = SampleFormat.DSD →
      ∃ o, (alsa_setup_or_dsd hw ad af).export_open = some o ∧
        o.shift8 = (alsa_setup_dsd hw ad af shift8_r none none).shift8) := by
  have hor : ad.dsd_usb = true → af.format = SampleFormat.DSD →
      ∃ o, (alsa_setup_or_dsd hw ad af).export_open = some o ∧
        o.shift8 = (alsa_setup_dsd hw ad af shift8_r none none).shift8 := by
    intro husb hdsd
    have hen : (ad.dsd_usb && decide (af.format = SampleFormat.DSD) ||
        ad.dsd_native && decide (af.format = SampleFormat.DSD)) = true := by
      simp [husb, hdsd]
    obtain ⟨hs, hf⟩ := setup_dsd_ignores_old_flag hw ad af false shift8_r none none hnative
    have hok0 : (alsa_setup_dsd hw ad af false none none).success = true := by
      rw [hs]
      exact hok
    have hneg : ¬ ¬ (alsa_setup_dsd hw ad af false none none).success = true :=
      not_not.mpr hok0
    simp only [alsa_setup_or_dsd, hen, if_true, if_neg hneg]
    exact ⟨_, rfl, hf hok0⟩
  refine ⟨?_, ?_, hor⟩
  all_goals
    simp only [alsa_setup_dsd, hnative] at hok ⊢
    generalize alsa_setup hw ad ⟨af.sample_rate / 2, .S24_P32, af.channels⟩
      none none = res at hok ⊢
    rcases res with ⟨ok, e, ad2, ⟨rate, fmt, ch⟩, pk, rv, lg⟩
    simp only [Bool.false_eq_true, if_false] at hok ⊢
    split_ifs at hok ⊢ with h1 h2 h3 h3
    all_goals first
      | exact absurd hok (by decide)
      | (simp only [ne_eq, not_not, AudioFormat.mk.injEq] at h3
         simp [h2, h3.2.1])

/-- C11 on a device that accepts `S32_LE` only: `shift8` is passed as true. -/
theorem shift8_follows_negotiated_depth_witness :
    (alsa_setup_dsd (echo_hw only_s32_le) dsd_usb_output ⟨2822400, .DSD, 2⟩
      false none none).success = true ∧
    (alsa_setup_dsd (echo_hw only_s32_le) dsd_usb_output ⟨2822400, .DSD, 2⟩
      false none none).shift8 = true := by
  have hok : (alsa_setup_dsd (echo_hw only_s32_le) dsd_usb_output ⟨2822400, .DSD, 2⟩
      false none none).success = true := by
    unfold alsa_setup_dsd alsa_setup configure_hw
    decide
  refine ⟨hok, ?_⟩
  exact (shift8_follows_negotiated_depth (echo_hw only_s32_le) dsd_usb_output
    ⟨2822400, .DSD, 2⟩ false rfl hok).1.mpr (by unfold alsa_setup configure_hw; decide)

/-- Claim C12 at a failing input: with native DSD configured, on a device that
rejects `DSD_U8` and accepts `S16_LE`, `alsa_setup` falls back to `S16` and
`alsa_setup_dsd` returns `true` all the same; `alsa_setup_or_dsd` then
opens the export for the format `DSD`. -/
theorem native_dsd_accepts_pcm_fallback :
    (alsa_setup (echo_hw only_s16_le) dsd_native_output ⟨2822400, .DSD_U8, 2⟩
      none none).audio_format.format = SampleFormat.S16 ∧
    (alsa_setup_dsd (echo_hw only_s16_le) dsd_native_output ⟨2822400, .DSD, 2⟩
      false none none).success = true ∧
    (alsa_setup_or_dsd (echo_hw only_s16_le) dsd_native_output
      ⟨2822400, .DSD, 2⟩).export_open =
      some ⟨.DSD, 2, false, false, some false, some false⟩ := by
  refine ⟨?_, ?_, ?_⟩
  · unfold alsa_setup configure_hw
    decide
  · unfold alsa_setup_dsd alsa_setup configure_hw
    decide
  · unfold alsa_setup_or_dsd alsa_setup_dsd alsa_setup configure_hw
    decide

end Alsa

namespace RtOpt

/-! ## `parse_priority` -/

/-- The policy and priority that `parse_priority` stores depend on the string
alone; name and timer slack of the entry are kept. -/
theorem parse_priority_entry (paramstr : Option (List Char)) (e : rtopt_priority) :
    parse_priority paramstr e =
      { e with policy := (parse_priority paramstr ⟨[], 0, 0, 0⟩).policy,
               priority := (parse_priority paramstr ⟨[], 0, 0, 0⟩).priority } := by
  cases paramstr with
  | none => rfl
  | some s =>
    simp only [parse_priority]
    split_ifs
    · rfl
    · rfl
    · cases (split_colon s).2 with
      | none => rfl
      | some p =>
        simp only []
        split_ifs <;> rfl

/-- A realtime policy with a priority from 1 to 99 in decimal is stored as written. -/
theorem parse_priority_realtime_digits (p : Nat) (h1 : 1 ≤ p) (h2 : p ≤ 99) :
    parse_priority (some (RTOPT_SCHED_FIFO ++ ':' :: Nat.toDigits 10 p)) ⟨[], 0, 0, 0⟩
      = ⟨[], SCHED_FIFO, p, 0⟩ ∧
    parse_priority (some (RTOPT_SCHED_RR ++ ':' :: Nat.toDigits 10 p)) ⟨[], 0, 0, 0⟩
      = ⟨[], SCHED_RR, p, 0⟩ := by
  interval_cases p <;> exact ⟨by decide, by decide⟩

/-- Claim C14. For every integer `p` from 1 to 99 written in decimal,
`parse_priority` on `FIFO:p` stores the policy `SCHED_FIFO` and the priority
`p`, on `RR:p` the policy `SCHED_RR` and the priority `p`; on `OTHER` it
stores `SCHED_OTHER` with priority 0. -/
theorem parse_priority_well_formed (p : Nat) (e : rtopt_priority)
    (h1 : 1 ≤ p) (h2 : p ≤ 99) :
    parse_priority (some (RTOPT_SCHED_FIFO ++ ':' :: Nat.toDigits 10 p)) e
      = { e with policy := SCHED_FIFO, priority := p } ∧
    parse_priority (some (RTOPT_SCHED_RR ++ ':' :: Nat.toDigits 10 p)) e
      = { e with policy := SCHED_RR, priority := p } ∧
    parse_priority (some RTOPT_SCHED_OTHER) e
      = { e with policy := SCHED_OTHER, priority := 0 } := by
  obtain ⟨hf, hr⟩ := parse_priority_realtime_digits p h1 h2
  refine ⟨?_, ?_, ?_⟩
  · rw [parse_priority_entry, hf]
  · rw [parse_priority_entry, hr]
  · rw [parse_priority_entry]
    rfl

/-- C14 on `FIFO:50` for the entry of the player thread. -/
theorem parse_priority_well_formed_witness :
    parse_priority (some "FIFO:50".toList) ⟨RTOPT_PLAYER_PRIORITY_NAME, RTOPT_DISABLE, 0, 0⟩
      = ⟨RTOPT_PLAYER_PRIORITY_NAME, SCHED_FIFO, 50, 0⟩ :=
  (parse_priority_well_formed 50 ⟨RTOPT_PLAYER_PRIORITY_NAME, RTOPT_DISABLE, 0, 0⟩
    (by decide) (by decide)).1

/-- A `long` within the range of `int` is kept by the conversion to `int`. -/
theorem to_int_of_int (v : Int) (h1 : -2 ^ 31 ≤ v) (h2 : v < 2 ^ 31) : Alsa.to_int v = v := by
  unfold Alsa.to_int
  have ha : (0 : Int) ≤ v + 2 ^ 31 := by linarith
  have hb : v + 2 ^ 31 < 2 ^ 32 := by
    have : (2 : Int) ^ 32 = 2 ^ 31 + 2 ^ 31 := by norm_num
    linarith
  rw [Int.emod_eq_of_lt ha hb]
  ring

/-- A string without a colon has no priority part. -/
theorem split_colon_none (s : List Char) (h : ':' ∉ s) : (split_colon s).2 = none := by
  induction s with
  | nil => rfl
  | cons c cs ih =>
    have hc : c ≠ ':' := fun hc => h (by rw [hc]; exact List.mem_cons_self _ _)
    have hcs : ':' ∉ cs := fun hm => h (List.mem_cons_of_mem _ hm)
    simp only [split_colon, hc, if_false]
    exact ih hcs

/-- Claim C15 as stated fails: the unknown policy name `FOO` leaves the entry
of the main thread with `SCHED_OTHER`, not with `RTOPT_DISABLE`, and a later
`rtopt_change_priority` of a thread running at `SCHED_FIFO` 10 calls
`sched_setscheduler`. -/
theorem parse_priority_bad_string_enables :
    (parse_priority (some "FOO".toList)
      ⟨RTOPT_MAIN_PRIORITY_NAME, RTOPT_DISABLE, 0, 0⟩).policy ≠ RTOPT_DISABLE ∧
    rtopt_change_priority
      (set_parameter (some (block_with RTOPT_MAIN_PRIORITY_NAME "FOO".toList)) false)
      (steady_os SCHED_FIFO 10) [] RTOPT_MAIN_PRIORITY_NAME ⟨[], 0, 0, 0⟩ =
      (0, [⟨.sched_getparam 0, 0⟩, ⟨.sched_getscheduler 0, SCHED_FIFO⟩,
           ⟨.sched_setscheduler 0 SCHED_OTHER 0, 0⟩]) := by
  constructor
  · decide
  · decide

/-- Claim C15, amended. For every string (not null) with an unknown policy
name, or with `FIFO` or `RR` and no priority part, or with a priority part
that is not a number, or with a priority (within the range of `int`)
outside 1 to 99: `parse_priority` leaves the entry with the policy
`SCHED_OTHER` and the priority 0, which is not the disabled policy. -/
theorem parse_priority_bad_string (s : List Char) (e : rtopt_priority)
    (hbad : get_policy (split_colon s).1 = RTOPT_DISABLE ∨
      (((split_colon s).1 = RTOPT_SCHED_FIFO ∨ (split_colon s).1 = RTOPT_SCHED_RR) ∧
        (split_colon s).2 = none) ∨
      (∃ p, (split_colon s).2 = some p ∧ (strtol p).2 ≠ []) ∨
      (∃ p, (split_colon s).2 = some p ∧ -2 ^ 31 ≤ (strtol p).1 ∧ (strtol p).1 < 2 ^ 31 ∧
        ((strtol p).1 < 1 ∨ 99 < (strtol p).1))) :
    parse_priority (some s) e = { e with policy := SCHED_OTHER, priority := 0 } ∧
    (parse_priority (some s) e).policy ≠ RTOPT_DISABLE := by
  have hmain : parse_priority (some s) e = { e with policy := SCHED_OTHER, priority := 0 } := by
    simp only [parse_priority]
    split_ifs with hother hpol
    · rfl
    · rfl
    · cases hp : (split_colon s).2 with
      | none => rfl
      | some p =>
        simp only []
        split_ifs with hnum hrange
        · rfl
        · rfl
        · exfalso
          rcases hbad with h | h | h | h
          · rw [h] at hpol
            exact hpol (by decide)
          · rw [hp] at h
            exact absurd h.2 (by simp)
          · obtain ⟨q, hq, hrest⟩ := h
            rw [hp] at hq
            cases hq
            apply hnum
            simp [strtointeger, hrest]
          · obtain ⟨q, hq, hlo, hhi, hout⟩ := h
            rw [hp] at hq
            cases hq
            apply hrange
            simp only [strtointeger, to_int_of_int _ hlo hhi, MIN_PRIORITY, MAX_PRIORITY]
            rcases hout with ho | ho
            · exact Or.inl ho
            · exact Or.inr ho
  refine ⟨hmain, ?_⟩
  rw [hmain]
  show SCHED_OTHER ≠ RTOPT_DISABLE
  decide

/-- The amended C15 on `FIFO:100` for the entry of the player thread. -/
theorem parse_priority_bad_string_witness :
    parse_priority (some "FIFO:100".toList) ⟨RTOPT_PLAYER_PRIORITY_NAME, RTOPT_DISABLE, 0, 0⟩
      = ⟨RTOPT_PLAYER_PRIORITY_NAME, SCHED_OTHER, 0, 0⟩ :=
  (parse_priority_bad_string "FIFO:100".toList ⟨RTOPT_PLAYER_PRIORITY_NAME, RTOPT_DISABLE, 0, 0⟩
    (Or.inr (Or.inr (Or.inr ⟨"100".toList, by decide, by decide, by decide,
      Or.inr (by decide)⟩)))).1

/-- Claim C16 as stated fails: the bare names `BATCH` and `IDLE` do not
configure their policy; the entry ends with `SCHED_OTHER`. -/
theorem parse_priority_bare_batch_idle :
    (parse_priority (some "BATCH".toList) ⟨RTOPT_MAIN_PRIORITY_NAME, RTOPT_DISABLE, 0, 0⟩).policy
      ≠ SCHED_BATCH ∧
    (parse_priority (some "IDLE".toList) ⟨RTOPT_MAIN_PRIORITY_NAME, RTOPT_DISABLE, 0, 0⟩).policy
      ≠ SCHED_IDLE := by
  constructor <;> decide

/-- Claim C16, amended. A priority part is required for every policy but
`OTHER`: for every string without a colon, `BATCH` and `IDLE` included,
`parse_priority` leaves the entry with `SCHED_OTHER` and the priority 0. -/
theorem parse_priority_without_colon (s : List Char) (e : rtopt_priority)
    (hcolon : ':' ∉ s) :
    parse_priority (some s) e = { e with policy := SCHED_OTHER, priority := 0 } := by
  have hp := split_colon_none s hcolon
  simp only [parse_priority, hp]
  split_ifs <;> rfl

/-- The amended C16 on `BATCH` and on `IDLE`. -/
theorem parse_priority_without_colon_witness :
    parse_priority (some "BATCH".toList) ⟨RTOPT_MAIN_PRIORITY_NAME, RTOPT_DISABLE, 0, 0⟩
      = ⟨RTOPT_MAIN_PRIORITY_NAME, SCHED_OTHER, 0, 0⟩ ∧
    parse_priority (some "IDLE".toList) ⟨RTOPT_MAIN_PRIORITY_NAME, RTOPT_DISABLE, 0, 0⟩
      = ⟨RTOPT_MAIN_PRIORITY_NAME, SCHED_OTHER, 0, 0⟩ :=
  ⟨parse_priority_without_colon "BATCH".toList ⟨RTOPT_MAIN_PRIORITY_NAME, RTOPT_DISABLE, 0, 0⟩
     (by decide),
   parse_priority_without_colon "IDLE".toList ⟨RTOPT_MAIN_PRIORITY_NAME, RTOPT_DISABLE, 0, 0⟩
     (by decide)⟩

/-- Claim C17 at failing inputs: `BATCH:5` and `IDLE:7` leave entries with a
policy that is not realtime and a priority that is not 0; `BATCH:0`, the
form the header describes, is rejected. -/
theorem parse_priority_batch_nonzero :
    parse_priority (some "BATCH:5".toList) ⟨RTOPT_MAIN_PRIORITY_NAME, RTOPT_DISABLE, 0, 0⟩
      = ⟨RTOPT_MAIN_PRIORITY_NAME, SCHED_BATCH, 5, 0⟩ ∧
    parse_priority (some "IDLE:7".toList) ⟨RTOPT_MAIN_PRIORITY_NAME, RTOPT_DISABLE, 0, 0⟩
      = ⟨RTOPT_MAIN_PRIORITY_NAME, SCHED_IDLE, 7, 0⟩ ∧
    parse_priority (some "BATCH:0".toList) ⟨RTOPT_MAIN_PRIORITY_NAME, RTOPT_DISABLE, 0, 0⟩
      = ⟨RTOPT_MAIN_PRIORITY_NAME, SCHED_OTHER, 0, 0⟩ := by
  refine ⟨?_, ?_, ?_⟩ <;> decide

/-! ## Changing the priority of a thread -/

/-- Claim C13. `rtopt_change_thread_priority` for an enabled policy: when the
scheduler reports the policy and the priority of the calling thread equal
to the requested ones, the function returns 1 and the log gains no
`sched_setscheduler` call (it gains the two queries at most). -/
theorem change_thread_priority_unchanged (g : Globals) (os : Os) (log : List SysEvent)
    (new_priority save : rtopt_priority)
    (_henabled : new_priority.policy ≠ RTOPT_DISABLE)
    (hprio : os.sched_priority log = new_priority.priority)
    (hpolicy : os.answer (log ++ [⟨.sched_getparam 0, os.answer log (.sched_getparam 0)⟩])
      (.sched_getscheduler 0) = new_priority.policy) :
    (rtopt_change_thread_priority g os log new_priority save).1 = 1 ∧
    ∃ added, (rtopt_change_thread_priority g os log new_priority save).2 = log ++ added ∧
      ∀ ev ∈ added, ∀ pid policy sched_priority,
        ev.call ≠ Syscall.sched_setscheduler pid policy sched_priority := by
  simp only [rtopt_change_thread_priority, get_current_priority, hprio, hpolicy]
  split_ifs with h1 h2 h3 h4 h5
  all_goals first
    | exact ⟨rfl, [], (List.append_nil _).symm, fun ev hev => by cases hev⟩
    | (refine ⟨rfl, [⟨.sched_getparam 0, os.answer log (.sched_getparam 0)⟩], rfl, ?_⟩
       intro ev hev pid policy sched_priority
       rw [List.mem_singleton.mp hev]
       simp)
    | (refine ⟨rfl, [⟨.sched_getparam 0, os.answer log (.sched_getparam 0)⟩,
          ⟨.sched_getscheduler 0, new_priority.policy⟩], by simp, ?_⟩
       intro ev hev pid policy sched_priority
       simp only [List.mem_cons, List.mem_singleton, List.not_mem_nil, or_false] at hev
       rcases hev with h | h <;> rw [h] <;> simp)
    | (exfalso
       simp_all)

/-- C13 on a thread that already runs at `SCHED_FIFO` with priority 50. -/
theorem change_thread_priority_unchanged_witness :
    rtopt_change_thread_priority ⟨true, false, init_priority_tab⟩ (steady_os SCHED_FIFO 50) []
      ⟨RTOPT_PLAYER_PRIORITY_NAME, SCHED_FIFO, 50, 0⟩ ⟨[], 0, 0, 0⟩ =
      (1, [⟨.sched_getparam 0, 0⟩, ⟨.sched_getscheduler 0, SCHED_FIFO⟩]) := by
  have h := change_thread_priority_unchanged ⟨true, false, init_priority_tab⟩
    (steady_os SCHED_FIFO 50) [] ⟨RTOPT_PLAYER_PRIORITY_NAME, SCHED_FIFO, 50, 0⟩ ⟨[], 0, 0, 0⟩
    (by decide) rfl rfl
  refine Prod.ext h.1 ?_
  decide

/-- The entry that `get_priority_param` finds carries the key as its name,
when the names of the table are the keys. -/
theorem get_priority_param_from_name (keys : List (List Char)) (tab : List rtopt_priority)
    (key : List Char) (e : rtopt_priority)
    (hnames : tab.map (fun x => x.name) = keys)
    (h : get_priority_param_from keys tab key = some e) : e.name = key := by
  induction keys generalizing tab with
  | nil =>
    cases tab <;> simp [get_priority_param_from] at h
  | cons k keys ih =>
    cases tab with
    | nil => simp at hnames
    | cons x tab =>
      simp only [List.map_cons, List.cons.injEq] at hnames
      simp only [get_priority_param_from] at h
      split_ifs at h with hk
      · cases h
        rw [hnames.1, hk]
      · exact ih tab hnames.2 h

/-- Claim C18. With the table named after the keys (as `init_priority_tab`
leaves it): when the policy of `update_priority` is disabled,
`rtopt_change_priority` for that key calls `sched_setscheduler` with
`SCHED_IDLE` and priority 0, then `ioprio_set` with `(3 << 13) | 7` for the
calling thread, and returns 1; for every other key with a disabled policy
it returns 1 and makes no call. -/
theorem change_priority_disabled (g : Globals) (os : Os) (log : List SysEvent)
    (key : List Char) (e save : rtopt_priority)
    (hnames : g.priority_tab.map (fun x => x.name) = priority_keys)
    (hentry : get_priority_param g key = some e)
    (hdisabled : e.policy = RTOPT_DISABLE) :
    (key = RTOPT_UPDATE_PRIORITY_NAME →
      rtopt_change_priority g os log key save =
        (1, log ++ [⟨.sched_setscheduler 0 SCHED_IDLE 0,
                      os.answer log (.sched_setscheduler 0 SCHED_IDLE 0)⟩] ++
              [⟨.ioprio_set 1 0 24583,
                os.answer (log ++ [⟨.sched_setscheduler 0 SCHED_IDLE 0,
                      os.answer log (.sched_setscheduler 0 SCHED_IDLE 0)⟩])
                  (.ioprio_set 1 0 24583)⟩])) ∧
    (key ≠ RTOPT_UPDATE_PRIORITY_NAME →
      rtopt_change_priority g os log key save = (1, log)) := by
  have hname : e.name = key := get_priority_param_from_name _ _ _ _ hnames hentry
  constructor
  · intro hkey
    subst hkey
    simp only [rtopt_change_priority, hentry, hdisabled, ne_eq, not_true_eq_false,
      not_false_eq_true, if_true, hname, SetThreadIdlePriority, change_priority,
      ioprio_set_idle]
    rfl
  · intro hkey
    simp only [rtopt_change_priority, hentry, hdisabled, ne_eq, not_true_eq_false,
      not_false_eq_true, if_true, hname, hkey, if_false]

/-- C18 without a `realtime_option` block: the update thread is made idle,
the player thread is left alone. -/
theorem change_priority_disabled_witness :
    rtopt_change_priority (set_parameter none false) (steady_os SCHED_OTHER 0) []
      RTOPT_UPDATE_PRIORITY_NAME ⟨[], 0, 0, 0⟩ =
      (1, [⟨.sched_setscheduler 0 SCHED_IDLE 0, 0⟩, ⟨.ioprio_set 1 0 24583, 0⟩]) ∧
    rtopt_change_priority (set_parameter none false) (steady_os SCHED_OTHER 0) []
      RTOPT_PLAYER_PRIORITY_NAME ⟨[], 0, 0, 0⟩ = (1, []) :=
  ⟨(change_priority_disabled (set_parameter none false) (steady_os SCHED_OTHER 0) []
      RTOPT_UPDATE_PRIORITY_NAME ⟨RTOPT_UPDATE_PRIORITY_NAME, RTOPT_DISABLE, 0, 0⟩ ⟨[], 0, 0, 0⟩
      (by decide) (by decide) rfl).1 rfl,
   (change_priority_disabled (set_parameter none false) (steady_os SCHED_OTHER 0) []
      RTOPT_PLAYER_PRIORITY_NAME ⟨RTOPT_PLAYER_PRIORITY_NAME, RTOPT_DISABLE, 0, 0⟩ ⟨[], 0, 0, 0⟩
      (by decide) (by decide) rfl).2 (by decide)⟩

end RtOpt

namespace DecoderInternal

/-! ## `decoder_get_chunk` -/

/-- What the loop of `decoder_get_chunk` guarantees when it returns a chunk:
the serial is stamped, the replay gain info is stamped when the serial is
not 0, and the decoder holds the chunk; serial and info of the decoder are
never written. -/
theorem get_chunk_loop_stamps (w : Surroundings) (fuel : Nat) (decoder : Decoder)
    (log : List Step) (c : music_chunk)
    (h : (get_chunk_loop w fuel decoder log).outcome = .returned (some c)) :
    c.replay_gain_serial = decoder.replay_gain_serial ∧
    (decoder.replay_gain_serial ≠ 0 → c.replay_gain_info = decoder.replay_gain_info) ∧
    (get_chunk_loop w fuel decoder log).decoder.chunk = some c := by
  induction fuel generalizing decoder log with
  | zero => simp [get_chunk_loop] at h
  | succ n ih =>
    simp only [get_chunk_loop] at h ⊢
    cases ha : w.Allocate log with
    | some chunk =>
      simp only [ha] at h ⊢
      simp only [GetChunkOutcome.returned.injEq, Option.some.injEq] at h
      subst h
      refine ⟨?_, ?_, rfl⟩
      · split_ifs <;> rfl
      · intro hs
        rw [if_pos hs]
    | none =>
      simp only [ha] at h ⊢
      split_ifs at h ⊢ with hcmd
      · exact ih _ _ h
      · simp at h

/-- The loop of `decoder_get_chunk` returns null only after a failed
allocation followed by a command other than `NONE`, and then the decoder
holds no chunk. -/
theorem get_chunk_loop_null (w : Surroundings) (fuel : Nat) (decoder : Decoder)
    (log : List Step)
    (h : (get_chunk_loop w fuel decoder log).outcome = .returned none) :
    (get_chunk_loop w fuel decoder log).decoder.chunk = none ∧
    ∃ l, w.Allocate l = none ∧
      (need_chunks w (l ++ [Step.Allocate none] ++ [Step.Lock])).1 ≠ .NONE ∧
      (get_chunk_loop w fuel decoder log).log =
        (need_chunks w (l ++ [Step.Allocate none] ++ [Step.Lock])).2 ++ [Step.Unlock] := by
  induction fuel generalizing decoder log with
  | zero => simp [get_chunk_loop] at h
  | succ n ih =>
    simp only [get_chunk_loop] at h ⊢
    cases ha : w.Allocate log with
    | some chunk =>
      simp only [ha] at h
      simp at h
    | none =>
      simp only [ha] at h ⊢
      split_ifs at h ⊢ with hcmd
      · exact ih _ _ h
      · exact ⟨rfl, log, ha, hcmd, rfl⟩

/-- Function `need_chunks` only appends to the log. -/
theorem need_chunks_extends (w : Surroundings) (log : List Step) :
    ∃ rest, (need_chunks w log).2 = log ++ rest := by
  simp only [need_chunks]
  split_ifs
  · exact ⟨_, by rw [List.append_assoc, List.append_assoc]⟩
  · exact ⟨_, by rw [List.append_assoc]⟩

/-- The loop of `decoder_get_chunk` only appends to the log. -/
theorem get_chunk_loop_extends (w : Surroundings) (fuel : Nat) (decoder : Decoder)
    (log : List Step) :
    ∃ rest, (get_chunk_loop w fuel decoder log).log = log ++ rest := by
  induction fuel generalizing decoder log with
  | zero => exact ⟨[], (List.append_nil _).symm⟩
  | succ n ih =>
    simp only [get_chunk_loop]
    cases w.Allocate log with
    | some chunk => exact ⟨_, rfl⟩
    | none =>
      obtain ⟨r1, h1⟩ := need_chunks_extends w (log ++ [Step.Allocate none] ++ [Step.Lock])
      simp only []
      split_ifs
      · obtain ⟨r2, h2⟩ := ih { decoder with chunk := none }
          ((need_chunks w (log ++ [Step.Allocate none] ++ [Step.Lock])).2 ++ [Step.Unlock])
        exact ⟨[Step.Allocate none] ++ ([Step.Lock] ++ (r1 ++ ([Step.Unlock] ++ r2))),
          by rw [h2, h1]; simp only [List.append_assoc]⟩
      · exact ⟨[Step.Allocate none] ++ ([Step.Lock] ++ (r1 ++ [Step.Unlock])),
          by rw [h1]; simp only [List.append_assoc]⟩

/-- Every iteration of the loop of `decoder_get_chunk` starts with `Allocate`. -/
theorem get_chunk_loop_allocates_first (w : Surroundings) (fuel : Nat) (decoder : Decoder)
    (log : List Step) :
    ∃ rest, (get_chunk_loop w (fuel + 1) decoder log).log =
      log ++ Step.Allocate (w.Allocate log) :: rest := by
  simp only [get_chunk_loop]
  cases w.Allocate log with
  | some chunk => exact ⟨[], rfl⟩
  | none =>
    obtain ⟨r1, h1⟩ := need_chunks_extends w (log ++ [Step.Allocate none] ++ [Step.Lock])
    simp only []
    split_ifs
    · obtain ⟨r2, h2⟩ := get_chunk_loop_extends w fuel { decoder with chunk := none }
        ((need_chunks w (log ++ [Step.Allocate none] ++ [Step.Lock])).2 ++ [Step.Unlock])
      exact ⟨[Step.Lock] ++ (r1 ++ ([Step.Unlock] ++ r2)), by rw [h2, h1]; simp⟩
    · exact ⟨[Step.Lock] ++ (r1 ++ [Step.Unlock]), by rw [h1]; simp⟩

/-- Claim C19 as stated fails: with the serial 0, the chunk returned keeps the
replay gain info that `Allocate` delivered, which differs from the one of
the decoder. -/
theorem get_chunk_keeps_info_on_serial_zero :
    (decoder_get_chunk (scripted 0 ⟨0, 5, ⟨9⟩⟩ .NONE) 1 ⟨none, 0, ⟨3⟩⟩ []).outcome =
      .returned (some ⟨0, 0, ⟨9⟩⟩) ∧
    (⟨9⟩ : ReplayGainInfo) ≠ (⟨none, 0, ⟨3⟩⟩ : Decoder).replay_gain_info := by
  constructor <;> decide

/-- Claim C19, amended. Whenever `decoder_get_chunk` obtains a chunk through
`Allocate()`, the chunk returned carries the replay gain serial of the
decoder, carries the replay gain info of the decoder when that serial is
not 0, and is the chunk now held in `decoder.chunk`. -/
theorem get_chunk_stamps (w : Surroundings) (fuel : Nat) (decoder : Decoder)
    (log : List Step) (c : music_chunk)
    (hfree : decoder.chunk = none)
    (h : (decoder_get_chunk w fuel decoder log).outcome = .returned (some c)) :
    c.replay_gain_serial = decoder.replay_gain_serial ∧
    (decoder.replay_gain_serial ≠ 0 → c.replay_gain_info = decoder.replay_gain_info) ∧
    (decoder_get_chunk w fuel decoder log).decoder.chunk = some c := by
  simp only [decoder_get_chunk, hfree] at h ⊢
  exact get_chunk_loop_stamps w fuel decoder log c h

/-- The amended C19 with the serial 7, after two failed allocations. -/
theorem get_chunk_stamps_witness :
    (decoder_get_chunk (scripted 2 ⟨0, 5, ⟨9⟩⟩ .NONE) 3 ⟨none, 7, ⟨3⟩⟩ []).outcome =
      .returned (some ⟨0, 7, ⟨3⟩⟩) ∧
    (⟨0, 7, ⟨3⟩⟩ : music_chunk).replay_gain_serial = 7 ∧
    (⟨0, 7, ⟨3⟩⟩ : music_chunk).replay_gain_info = ⟨3⟩ := by
  have hout : (decoder_get_chunk (scripted 2 ⟨0, 5, ⟨9⟩⟩ .NONE) 3 ⟨none, 7, ⟨3⟩⟩ []).outcome =
      .returned (some ⟨0, 7, ⟨3⟩⟩) := by decide
  have h := get_chunk_stamps (scripted 2 ⟨0, 5, ⟨9⟩⟩ .NONE) 3 ⟨none, 7, ⟨3⟩⟩ []
    ⟨0, 7, ⟨3⟩⟩ rfl hout
  exact ⟨hout, h.1, h.2.1 (by decide)⟩

/-- Claim C20. For every behaviour of buffer and command: a decoder that holds
a chunk on entry gets it back with nothing logged (no `Allocate`, no
`Wait`); otherwise the call returns null only after a failed allocation
followed by a command, read under the lock, other than `NONE`, and then
`decoder.chunk` is null; and after a failed allocation with the command
`NONE` the next thing the call does is another `Allocate`. -/
theorem get_chunk_aborts_only_on_command (w : Surroundings) (fuel : Nat) (decoder : Decoder)
    (log : List Step)
    (hfree : decoder.chunk = none) :
    (∀ held, decoder_get_chunk w fuel { decoder with chunk := some held } log =
      ⟨.returned (some held), { decoder with chunk := some held }, log⟩) ∧
    ((decoder_get_chunk w fuel decoder log).outcome = .returned none →
      (decoder_get_chunk w fuel decoder log).decoder.chunk = none ∧
      ∃ l, w.Allocate l = none ∧
        (need_chunks w (l ++ [Step.Allocate none] ++ [Step.Lock])).1 ≠ .NONE ∧
        (decoder_get_chunk w fuel decoder log).log =
          (need_chunks w (l ++ [Step.Allocate none] ++ [Step.Lock])).2 ++ [Step.Unlock]) ∧
    (w.Allocate log = none →
      (need_chunks w (log ++ [Step.Allocate none] ++ [Step.Lock])).1 = .NONE →
      decoder_get_chunk w (fuel + 2) decoder log =
        get_chunk_loop w (fuel + 1) decoder
          ((need_chunks w (log ++ [Step.Allocate none] ++ [Step.Lock])).2 ++ [Step.Unlock]) ∧
      ∃ rest, (decoder_get_chunk w (fuel + 2) decoder log).log =
        (need_chunks w (log ++ [Step.Allocate none] ++ [Step.Lock])).2 ++ [Step.Unlock] ++
          Step.Allocate (w.Allocate
            ((need_chunks w (log ++ [Step.Allocate none] ++ [Step.Lock])).2 ++ [Step.Unlock]))
          :: rest) := by
  refine ⟨fun held => rfl, ?_, ?_⟩
  · intro h
    simp only [decoder_get_chunk, hfree] at h ⊢
    exact get_chunk_loop_null w fuel decoder log h
  · intro halloc hcmd
    have hd : ({ decoder with chunk := none } : Decoder) = decoder := by
      cases decoder
      simp only [Decoder.mk.injEq, and_true, true_and]
      exact hfree.symm
    have hstep : decoder_get_chunk w (fuel + 2) decoder log =
        get_chunk_loop w (fuel + 1) decoder
          ((need_chunks w (log ++ [Step.Allocate none] ++ [Step.Lock])).2 ++ [Step.Unlock]) := by
      simp only [decoder_get_chunk, hfree]
      rw [get_chunk_loop]
      simp only [halloc, hcmd, if_true, hd]
    refine ⟨hstep, ?_⟩
    rw [hstep]
    exact get_chunk_loop_allocates_first w fuel decoder _

/-- C20 on a buffer that is empty twice while the command stays `NONE`, and on
a buffer that stays empty while the command is `STOP`. -/
theorem get_chunk_aborts_only_on_command_witness :
    (decoder_get_chunk (scripted 2 ⟨0, 5, ⟨9⟩⟩ .NONE) (1 + 2) ⟨none, 7, ⟨3⟩⟩ []).log =
      [Step.Allocate none, Step.Lock, Step.read_command .NONE, Step.Wait,
       Step.read_command .NONE, Step.Unlock,
       Step.Allocate none, Step.Lock, Step.read_command .NONE, Step.Wait,
       Step.read_command .NONE, Step.Unlock,
       Step.Allocate (some ⟨0, 5, ⟨9⟩⟩)] ∧
    (decoder_get_chunk (scripted 2 ⟨0, 5, ⟨9⟩⟩ .STOP) 3 ⟨none, 7, ⟨3⟩⟩ []).decoder.chunk
      = none := by
  have h1 := ((get_chunk_aborts_only_on_command (scripted 2 ⟨0, 5, ⟨9⟩⟩ .NONE) 1
    ⟨none, 7, ⟨3⟩⟩ [] rfl).2.2 (by decide) (by decide)).1
  have h2 := ((get_chunk_aborts_only_on_command (scripted 2 ⟨0, 5, ⟨9⟩⟩ .STOP) 3
    ⟨none, 7, ⟨3⟩⟩ [] rfl).2.1 (by decide)).1
  refine ⟨?_, h2⟩
  rw [h1]
  decide

end DecoderInternal

namespace Alsa

/-! ## The flags and the accepted format -/

/-- A successful `alsa_try_format_or_packed` assigns `packed`, leaves
`reverse_endian` alone, and the format the device took is `fmt`, packed if
the flag says so. -/
theorem try_format_or_packed_ok (set_format : snd_pcm_format_t → Int)
    (fmt : snd_pcm_format_t) (n : Negotiation)
    (h : (alsa_try_format_or_packed set_format fmt n).1 = 0) :
    ∃ p, (alsa_try_format_or_packed set_format fmt n).2.packed = some p ∧
      (alsa_try_format_or_packed set_format fmt n).2.hw_format =
        some (if p then alsa_to_packed_format fmt else fmt) ∧
      (p = true → alsa_to_packed_format fmt ≠ .UNKNOWN) ∧
      (alsa_try_format_or_packed set_format fmt n).2.reverse_endian = n.reverse_endian := by
  have hne : (-EINVAL : Int) ≠ 0 := by decide
  by_cases h0 : set_format fmt = 0
  · refine ⟨false, ?_⟩
    simp [alsa_try_format_or_packed, snd_pcm_hw_params_set_format, h0, hne.symm]
  · by_cases hE : set_format fmt = -EINVAL
    · by_cases hU : alsa_to_packed_format fmt = .UNKNOWN
      · simp [alsa_try_format_or_packed, snd_pcm_hw_params_set_format, hE, hU, hne] at h
      · by_cases h1 : set_format (alsa_to_packed_format fmt) = 0
        · refine ⟨true, ?_⟩
          simp [alsa_try_format_or_packed, snd_pcm_hw_params_set_format, hE, hU, h1, hne]
        · simp [alsa_try_format_or_packed, snd_pcm_hw_params_set_format, hE, hU, h1, hne] at h
    · simp [alsa_try_format_or_packed, snd_pcm_hw_params_set_format, hE, h0] at h

/-- Only the 24 bit in 32 sample format has a packed variant. -/
theorem packed_only_s24 (big_endian : Bool) (f : SampleFormat) :
    (alsa_to_packed_format (get_bitformat big_endian f) ≠ .UNKNOWN → f = .S24_P32) ∧
    (alsa_to_packed_format (byteswap_bitformat (get_bitformat big_endian f)) ≠ .UNKNOWN →
      f = .S24_P32) ∧
    (byteswap_bitformat (get_bitformat big_endian f) ≠ .UNKNOWN →
      f = .S16 ∨ f = .S24_P32 ∨ f = .S32) := by
  cases big_endian <;> cases f <;> decide

/-- A successful `alsa_output_try_format` assigns both flags, and they
describe the format the device took. -/
theorem try_format_ok (big_endian : Bool) (set_format : snd_pcm_format_t → Int)
    (f : SampleFormat) (n : Negotiation)
    (h : (alsa_output_try_format big_endian set_format f n).1 = 0) :
    ∃ p r, (alsa_output_try_format big_endian set_format f n).2.packed = some p ∧
      (alsa_output_try_format big_endian set_format f n).2.reverse_endian = some r ∧
      (alsa_output_try_format big_endian set_format f n).2.hw_format =
        some (described_format big_endian f p r) ∧
      (p = true → f = .S24_P32) ∧
      (r = true → f = .S16 ∨ f = .S24_P32 ∨ f = .S32) := by
  have hne : (-EINVAL : Int) ≠ 0 := by decide
  obtain ⟨hp1, hp2, hp3⟩ := packed_only_s24 big_endian f
  by_cases hU : get_bitformat big_endian f = .UNKNOWN
  · simp [alsa_output_try_format, hU, hne] at h
  · have hok1 := try_format_or_packed_ok set_format (get_bitformat big_endian f) n
    rcases h1 : alsa_try_format_or_packed set_format (get_bitformat big_endian f) n
      with ⟨e1, n1⟩
    rw [h1] at hok1
    by_cases he1 : e1 = 0
    · obtain ⟨p, hp, hf, hpk, _⟩ := hok1 he1
      refine ⟨p, false, ?_⟩
      simp only [alsa_output_try_format, if_neg hU, h1, he1, if_true]
      simp only [described_format] at *
      refine ⟨by simpa using hp, by simp [hne.symm], ?_, fun hpt => hp1 (hpk hpt), by simp⟩
      simpa [hne.symm] using hf
    · by_cases hE : e1 = -EINVAL
      · subst hE
        by_cases hU2 : byteswap_bitformat (get_bitformat big_endian f) = .UNKNOWN
        · simp [alsa_output_try_format, hU, h1, hne, hU2] at h
        · have hok2 := try_format_or_packed_ok set_format
            (byteswap_bitformat (get_bitformat big_endian f)) n1
          rcases h2 : alsa_try_format_or_packed set_format
            (byteswap_bitformat (get_bitformat big_endian f)) n1 with ⟨e2, n2⟩
          rw [h2] at hok2
          by_cases he2 : e2 = 0
          · obtain ⟨p, hp, hf, hpk, _⟩ := hok2 he2
            refine ⟨p, true, ?_⟩
            simp only [alsa_output_try_format, if_neg hU, h1, if_neg hne, if_neg hU2, h2, he2]
            simp only [described_format] at *
            refine ⟨by simpa using hp, by simp, ?_, fun hpt => hp2 (hpk hpt),
              fun _ => hp3 hU2⟩
            simpa using hf
          · simp [alsa_output_try_format, hU, h1, hne, hU2, h2, he2] at h
      · simp [alsa_output_try_format, hU, h1, he1, hE] at h

/-- The loop of `alsa_output_setup_format` keeps this: when `err` is `0`,
both flags are assigned and describe the accepted format. -/
theorem probe_loop_flags (big_endian : Bool) (set_format : snd_pcm_format_t → Int)
    (l : List SampleFormat) (err : Int) (af : AudioFormat) (n : Negotiation)
    (hQ : err = 0 → ∃ p r, n.packed = some p ∧ n.reverse_endian = some r ∧
      n.hw_format = some (described_format big_endian af.format p r) ∧
      (p = true → af.format = .S24_P32) ∧
      (r = true → af.format = .S16 ∨ af.format = .S24_P32 ∨ af.format = .S32))
    (h : (probe_loop big_endian set_format l err af n).1 = 0) :
    ∃ p r, (probe_loop big_endian set_format l err af n).2.2.packed = some p ∧
      (probe_loop big_endian set_format l err af n).2.2.reverse_endian = some r ∧
      (probe_loop big_endian set_format l err af n).2.2.hw_format =
        some (described_format big_endian
          (probe_loop big_endian set_format l err af n).2.1.format p r) ∧
      (p = true → (probe_loop big_endian set_format l err af n).2.1.format = .S24_P32) ∧
      (r = true → (probe_loop big_endian set_format l err af n).2.1.format = .S16 ∨
        (probe_loop big_endian set_format l err af n).2.1.format = .S24_P32 ∨
        (probe_loop big_endian set_format l err af n).2.1.format = .S32) := by
  induction l generalizing err af n with
  | nil => exact hQ h
  | cons f l ih =>
    by_cases hc : err = -EINVAL ∧ f ≠ SampleFormat.UNDEFINED
    · by_cases hreq : f = af.format
      · have hstep : probe_loop big_endian set_format (f :: l) err af n =
            probe_loop big_endian set_format l err af n := by
          simp only [probe_loop]
          rw [if_pos hc, if_pos hreq]
        rw [hstep] at h ⊢
        exact ih err af n hQ h
      · have hok := try_format_ok big_endian set_format f n
        rcases ht : alsa_output_try_format big_endian set_format f n with ⟨e, m⟩
        rw [ht] at hok
        have hstep : probe_loop big_endian set_format (f :: l) err af n =
            probe_loop big_endian set_format l e
              (if e = 0 then { af with format := f } else af) m := by
          simp only [probe_loop, ht]
          rw [if_pos hc, if_neg hreq]
        rw [hstep] at h ⊢
        refine ih e _ m ?_ h
        intro he
        rw [if_pos he]
        exact hok he
    · have hstep : probe_loop big_endian set_format (f :: l) err af n = (err, af, n) := by
        simp only [probe_loop]
        rw [if_neg hc]
      rw [hstep] at h ⊢
      exact hQ h

/-- Claim C28. Whenever `alsa_output_setup_format` returns `0`, whatever the
flags held before the call, both `packed` and `reverse_endian` hold a value
assigned during the call, and the format the hardware accepted is the host
format of the negotiated sample format (`get_bitformat`), byte-swapped by
`byteswap_bitformat` iff `reverse_endian`, then converted by
`alsa_to_packed_format` iff `packed`; `packed` set implies the negotiated
format is `S24_P32`, and `reverse_endian` set implies it is `S16`, `S24_P32`
or `S32`. -/
theorem setup_format_flags_describe (big_endian : Bool)
    (set_format : snd_pcm_format_t → Int) (af : AudioFormat) (n : Negotiation)
    (h : (alsa_output_setup_format big_endian set_format af n).1 = 0) :
    ∃ p r, (alsa_output_setup_format big_endian set_format af n).2.2.packed = some p ∧
      (alsa_output_setup_format big_endian set_format af n).2.2.reverse_endian = some r ∧
      (alsa_output_setup_format big_endian set_format af n).2.2.hw_format =
        some (described_format big_endian
          (alsa_output_setup_format big_endian set_format af n).2.1.format p r) ∧
      (p = true →
        (alsa_output_setup_format big_endian set_format af n).2.1.format = .S24_P32) ∧
      (r = true →
        (alsa_output_setup_format big_endian set_format af n).2.1.format = .S16 ∨
        (alsa_output_setup_format big_endian set_format af n).2.1.format = .S24_P32 ∨
        (alsa_output_setup_format big_endian set_format af n).2.1.format = .S32) := by
  have hok := try_format_ok big_endian set_format af.format n
  rcases ht : alsa_output_try_format big_endian set_format af.format n with ⟨e, m⟩
  rw [ht] at hok
  have hdef : alsa_output_setup_format big_endian set_format af n =
      probe_loop big_endian set_format probe_formats e af m := by
    simp only [alsa_output_setup_format, ht]
  rw [hdef] at h ⊢
  exact probe_loop_flags big_endian set_format probe_formats e af m hok h

/-- A device that takes only packed big-endian 24 bit, asked for 16 bit on a
little-endian host with no flag assigned: the call returns `0` with the
format `S24_P32`, both flags set, and `S24_3BE` accepted. -/
theorem setup_format_flags_describe_witness :
    (alsa_output_setup_format false (fun fmt => if fmt = .S24_3BE then 0 else -EINVAL)
      ⟨44100, .S16, 2⟩ ⟨none, none, none, []⟩).1 = 0 ∧
    ∃ p r, (alsa_output_setup_format false (fun fmt => if fmt = .S24_3BE then 0 else -EINVAL)
        ⟨44100, .S16, 2⟩ ⟨none, none, none, []⟩).2.2.packed = some p ∧
      (alsa_output_setup_format false (fun fmt => if fmt = .S24_3BE then 0 else -EINVAL)
        ⟨44100, .S16, 2⟩ ⟨none, none, none, []⟩).2.2.reverse_endian = some r ∧
      (alsa_output_setup_format false (fun fmt => if fmt = .S24_3BE then 0 else -EINVAL)
        ⟨44100, .S16, 2⟩ ⟨none, none, none, []⟩).2.2.hw_format =
        some (described_format false
          (alsa_output_setup_format false (fun fmt => if fmt = .S24_3BE then 0 else -EINVAL)
            ⟨44100, .S16, 2⟩ ⟨none, none, none, []⟩).2.1.format p r) ∧
      (p = true →
        (alsa_output_setup_format false (fun fmt => if fmt = .S24_3BE then 0 else -EINVAL)
          ⟨44100, .S16, 2⟩ ⟨none, none, none, []⟩).2.1.format = .S24_P32) ∧
      (r = true →
        (alsa_output_setup_format false (fun fmt => if fmt = .S24_3BE then 0 else -EINVAL)
          ⟨44100, .S16, 2⟩ ⟨none, none, none, []⟩).2.1.format = .S16 ∨
        (alsa_output_setup_format false (fun fmt => if fmt = .S24_3BE then 0 else -EINVAL)
          ⟨44100, .S16, 2⟩ ⟨none, none, none, []⟩).2.1.format = .S24_P32 ∨
        (alsa_output_setup_format false (fun fmt => if fmt = .S24_3BE then 0 else -EINVAL)
          ⟨44100, .S16, 2⟩ ⟨none, none, none, []⟩).2.1.format = .S32) :=
  ⟨by decide, setup_format_flags_describe false _ ⟨44100, .S16, 2⟩ ⟨none, none, none, []⟩
    (by decide)⟩

/-! ## The default period time -/

/-- Claim C22, at a buffer time below 10000: an output configured with
`buffer_time "8000"` and no period time, on a device that grants what is
asked.  `alsa_setup` succeeds without asking for any period time; the
quarter of the buffer time, 2000, is never requested. -/
theorem default_period_short_buffer :
    (alsa_configure fresh_output short_buffer_block).period_time = 0 ∧
    (alsa_configure fresh_output short_buffer_block).buffer_time = 8000 ∧
    (alsa_setup (echo_hw only_s16_le) (alsa_configure fresh_output short_buffer_block)
      ⟨44100, .S16, 2⟩ none none).success = true ∧
    period_times (alsa_setup (echo_hw only_s16_le)
      (alsa_configure fresh_output short_buffer_block) ⟨44100, .S16, 2⟩ none none).log = [] ∧
    HwCall.set_period_time_near (8000 / 4) ∉ (alsa_setup (echo_hw only_s16_le)
      (alsa_configure fresh_output short_buffer_block) ⟨44100, .S16, 2⟩ none none).log := by
  refine ⟨by decide, by decide, ?_, ?_, ?_⟩
  all_goals
    unfold alsa_setup configure_hw
    decide

/-- In a pass of `alsa_setup` entered with no period time
(`period_time_ro == 0`), let `buffer_time` be the value the buffer stage
ends with (what the hardware granted).  If `buffer_time` is at least 10000,
the period stage asks the hardware for exactly `buffer_time / 4` and nothing
else; if it is below 10000, the stage asks for nothing. -/
theorem period_stage_default (hw : Hw) (pass : Nat) (v v1 : SetupVars) (buffer_time : Nat)
    (h0 : v.period_time_ro = 0)
    (hb : setup_buffer_time hw pass v = .ok (v1, buffer_time)) :
    (10000 ≤ buffer_time →
      log_of (setup_period_time hw pass (v1, buffer_time)) =
        v1.log ++ [HwCall.set_period_time_near (buffer_time / 4)]) ∧
    (buffer_time < 10000 → setup_period_time hw pass (v1, buffer_time) = .ok v1) := by
  have h1 : v1.period_time_ro = 0 := by
    simp only [setup_buffer_time] at hb
    split_ifs at hb
    all_goals
      simp only [Except.ok.injEq, Prod.mk.injEq] at hb
      rw [← hb.1]
      exact h0
  constructor
  · intro hge
    have hpos : 0 < buffer_time / 4 := by omega
    simp only [setup_period_time, h1, true_and, if_pos hge, if_pos hpos]
    split_ifs <;> simp [log_of, goto_error]
  · intro hlt
    have hn : ¬ (10000 ≤ buffer_time) := by omega
    simp only [setup_period_time, h1, true_and, if_neg hn, lt_irrefl, if_false]

/-! ## The retry loop -/

/-- The commits of a log that was extended. -/
theorem commits_append (a b : List HwCall) : commits (a ++ b) = commits a + commits b :=
  List.count_append _ _ _

/-- Offering formats commits nothing. -/
theorem commits_set_format (l : List snd_pcm_format_t) :
    commits (l.map HwCall.set_format) = 0 := by
  induction l with
  | nil => rfl
  | cons a l ih =>
    simp only [List.map_cons, commits] at ih ⊢
    rw [List.count_cons, ih]
    simp

theorem setup_any_commits (hw : Hw) (pass : Nat) (v : SetupVars) :
    commits (log_of (setup_any hw pass v)) = commits v.log := by
  simp only [setup_any]
  split_ifs <;> simp only [log_of, goto_error, commits_append] <;> rfl

theorem setup_access_mmap_commits (hw : Hw) (pass : Nat) (v : SetupVars) :
    commits (setup_access_mmap hw pass v).log = commits v.log := by
  simp only [setup_access_mmap]
  split_ifs <;> simp only [commits_append] <;> rfl

theorem setup_access_rw_commits (hw : Hw) (pass : Nat) (v : SetupVars) :
    commits (log_of (setup_access_rw hw pass v)) = commits v.log := by
  simp only [setup_access_rw]
  split_ifs <;> simp only [log_of, goto_error, commits_append] <;> rfl

theorem setup_format_commits (hw : Hw) (pass : Nat) (v : SetupVars) :
    commits (log_of (setup_format hw pass v)) = commits v.log := by
  simp only [setup_format]
  split_ifs <;> simp only [log_of, return_false, commits_append, commits_set_format] <;> rfl

theorem setup_channels_commits (hw : Hw) (pass : Nat) (v : SetupVars) :
    commits (log_of (setup_channels hw pass v)) = commits v.log := by
  simp only [setup_channels]
  split_ifs <;> simp only [log_of, return_false, commits_append] <;> rfl

theorem setup_rate_commits (hw : Hw) (pass : Nat) (v : SetupVars) :
    commits (log_of (setup_rate hw pass v)) = commits v.log := by
  simp only [setup_rate]
  split_ifs <;> simp only [log_of, return_false, commits_append] <;> rfl

theorem setup_buffer_time_commits (hw : Hw) (pass : Nat) (v : SetupVars) :
    (∀ e, setup_buffer_time hw pass v = .error e → commits e.log = commits v.log) ∧
    (∀ v1 bt, setup_buffer_time hw pass v = .ok (v1, bt) → commits v1.log = commits v.log) := by
  simp only [setup_buffer_time]
  constructor
  · intro e h
    split_ifs at h
    all_goals
      cases h
      simp only [goto_error, commits_append]
      rfl
  · intro v1 bt h
    split_ifs at h
    all_goals
      cases h
      simp only [commits_append]
      rfl

theorem setup_period_time_commits (hw : Hw) (pass : Nat) (vb : SetupVars × Nat) :
    commits (log_of (setup_period_time hw pass vb)) = commits vb.1.log := by
  simp only [setup_period_time]
  split_ifs <;> simp only [log_of, goto_error, commits_append] <;> rfl

/-- One pass commits once if it gets to `snd_pcm_hw_params`, and not at all
if it leaves before; the value it hands on is the answer of that call. -/
theorem pass_commits (hw : Hw) (pass : Nat) (v : SetupVars) :
    (∀ e, configure_hw_pass hw pass v = .error e → commits e.log = commits v.log) ∧
    (∀ err v1, configure_hw_pass hw pass v = .ok (err, v1) →
      commits v1.log = commits v.log + 1 ∧ err = hw.hw_params pass) := by
  have e1 := setup_any_commits hw pass v
  cases h1 : setup_any hw pass v with
  | error e =>
    rw [h1] at e1
    simp only [configure_hw_pass, bind, Except.bind, h1]
    exact ⟨fun e0 h => by cases h; exact e1, fun _ _ h => by cases h⟩
  | ok v1 =>
    rw [h1] at e1
    have e2 := setup_access_rw_commits hw pass (setup_access_mmap hw pass v1)
    rw [setup_access_mmap_commits] at e2
    cases h2 : setup_access_rw hw pass (setup_access_mmap hw pass v1) with
    | error e =>
      rw [h2] at e2
      simp only [configure_hw_pass, bind, Except.bind, h1, h2]
      exact ⟨fun e0 h => by cases h; exact e2.trans e1, fun _ _ h => by cases h⟩
    | ok v2 =>
      rw [h2] at e2
      have e3 := setup_format_commits hw pass v2
      cases h3 : setup_format hw pass v2 with
      | error e =>
        rw [h3] at e3
        simp only [configure_hw_pass, bind, Except.bind, h1, h2, h3]
        exact ⟨fun e0 h => by cases h; exact e3.trans (e2.trans e1), fun _ _ h => by cases h⟩
      | ok v3 =>
        rw [h3] at e3
        have e4 := setup_channels_commits hw pass v3
        cases h4 : setup_channels hw pass v3 with
        | error e =>
          rw [h4] at e4
          simp only [configure_hw_pass, bind, Except.bind, h1, h2, h3, h4]
          exact ⟨fun e0 h => by cases h; exact e4.trans (e3.trans (e2.trans e1)),
            fun _ _ h => by cases h⟩
        | ok v4 =>
          rw [h4] at e4
          have e5 := setup_rate_commits hw pass v4
          cases h5 : setup_rate hw pass v4 with
          | error e =>
            rw [h5] at e5
            simp only [configure_hw_pass, bind, Except.bind, h1, h2, h3, h4, h5]
            exact ⟨fun e0 h => by
              cases h; exact e5.trans (e4.trans (e3.trans (e2.trans e1))),
              fun _ _ h => by cases h⟩
          | ok v5 =>
            rw [h5] at e5
            have e6 := setup_buffer_time_commits hw pass v5
            cases h6 : setup_buffer_time hw pass v5 with
            | error e =>
              simp only [configure_hw_pass, bind, Except.bind, h1, h2, h3, h4, h5, h6]
              exact ⟨fun e0 h => by
                cases h
                exact (e6.1 e h6).trans (e5.trans (e4.trans (e3.trans (e2.trans e1)))),
                fun _ _ h => by cases h⟩
            | ok vb =>
              have e6b := e6.2 vb.1 vb.2 h6
              have e7 := setup_period_time_commits hw pass vb
              cases h7 : setup_period_time hw pass vb with
              | error e =>
                rw [h7] at e7
                simp only [configure_hw_pass, bind, Except.bind, h1, h2, h3, h4, h5, h6, h7]
                exact ⟨fun e0 h => by
                  cases h
                  exact e7.trans (e6b.trans (e5.trans (e4.trans (e3.trans (e2.trans e1))))),
                  fun _ _ h => by cases h⟩
              | ok v7 =>
                rw [h7] at e7
                have hpass : configure_hw_pass hw pass v = .ok (setup_commit hw pass v7) := by
                  simp only [configure_hw_pass, bind, Except.bind, pure, Except.pure, h1, h2,
                    h3, h4, h5, h6, h7]
                rw [hpass]
                refine ⟨fun _ h => (by cases h), fun err v8 h => ?_⟩
                simp only [setup_commit, Except.ok.injEq, Prod.mk.injEq] at h
                obtain ⟨hA, hB⟩ := h
                subst hA
                subst hB
                refine ⟨?_, rfl⟩
                simp only [commits_append]
                have e7b : commits v7.log = commits v.log :=
                  e7.trans (e6b.trans (e5.trans (e4.trans (e3.trans (e2.trans e1)))))
                rw [e7b]
                rfl

/-- The calls after the commit commit nothing. -/
theorem setup_sw_params_commits (hw : Hw) (pass : Nat) (v : SetupVars) :
    commits (setup_sw_params hw pass v).log = commits v.log := by
  simp only [setup_sw_params]
  split_ifs <;> simp only [goto_error, commits_append] <;> rfl

/-- With `retry` tries left, `configure_hw` commits at most `retry` times
more (once if `retry` is 0). -/
theorem configure_hw_commits (hw : Hw) (retry pass : Nat) (v : SetupVars) :
    commits (configure_hw hw retry pass v).log ≤ commits v.log + max retry 1 := by
  induction retry generalizing pass v with
  | zero =>
    unfold configure_hw
    have hp := pass_commits hw pass v
    cases h : configure_hw_pass hw pass v with
    | error e => simp only; rw [hp.1 e h]; omega
    | ok ev =>
      obtain ⟨err, v1⟩ := ev
      have hc := (hp.2 err v1 h).1
      simp only
      split_ifs
      all_goals first
        | (simp only [goto_error]; omega)
        | (rw [setup_sw_params_commits]; omega)
  | succ n ih =>
    unfold configure_hw
    have hp := pass_commits hw pass v
    cases h : configure_hw_pass hw pass v with
    | error e => simp only; rw [hp.1 e h]; omega
    | ok ev =>
      obtain ⟨err, v1⟩ := ev
      have hc := (hp.2 err v1 h).1
      simp only
      split_ifs with hE hr
      all_goals first
        | (simp only [goto_error]; omega)
        | (rw [setup_sw_params_commits]; omega)
        | (have hmax : max n 1 = n := max_eq_left (by omega)
           have hih := ih (pass + 1) { v1 with period_time_ro := v1.period_time_ro >>> 1 }
           simp only [hmax] at hih
           omega)

/-- Claim C23. For every device, `alsa_setup` calls `snd_pcm_hw_params` at most
`MPD_ALSA_RETRY_NR` = 5 times and returns (the embedding is a total
function).  In every pass: a pass that ends before the commit ends
`alsa_setup`; after a commit that failed with `-EPIPE` while more than one
try was left and the period time in use was positive, the next pass starts
with that period time shifted right by one (halved); after any other commit
there is no further pass: a negative answer is the error exit, any other
answer leads on to the software parameters. -/
theorem setup_retry_bounded (hw : Hw) (ad : AlsaOutput) (audio_format : AudioFormat)
    (packed_r reverse_endian_r : Option Bool) :
    commits (alsa_setup hw ad audio_format packed_r reverse_endian_r).log
      ≤ MPD_ALSA_RETRY_NR ∧
    MPD_ALSA_RETRY_NR = 5 ∧
    ∀ (retry pass : Nat) (v : SetupVars),
      (∀ e, configure_hw_pass hw pass v = .error e → configure_hw hw retry pass v = e) ∧
      (∀ err v1, configure_hw_pass hw pass v = .ok (err, v1) →
        (err = -EPIPE ∧ 1 < retry ∧ 0 < v1.period_time_ro →
          configure_hw hw retry pass v =
            configure_hw hw (retry - 1) (pass + 1)
              { v1 with period_time_ro := v1.period_time_ro / 2 }) ∧
        (¬ (err = -EPIPE ∧ 1 < retry ∧ 0 < v1.period_time_ro) →
          configure_hw hw retry pass v =
            if err < 0 then goto_error v1 err HwCmd.snd_pcm_hw_params
            else setup_sw_params hw pass v1)) := by
  refine ⟨?_, rfl, ?_⟩
  · have h := configure_hw_commits hw MPD_ALSA_RETRY_NR 0
      { ad := ad, audio_format := audio_format,
        sample_rate := audio_format.sample_rate, channels := audio_format.channels,
        period_time_ro := ad.period_time, packed := packed_r,
        reverse_endian := reverse_endian_r, log := [] }
    simpa [alsa_setup, commits, MPD_ALSA_RETRY_NR] using h
  · intro retry pass v
    constructor
    · intro e h
      unfold configure_hw
      rw [h]
    · intro err v1 h
      constructor
      · rintro ⟨hE, hr, hp⟩
        obtain ⟨n, rfl⟩ : ∃ n, retry = n + 1 := ⟨retry - 1, by omega⟩
        conv_lhs => unfold configure_hw
        rw [h]
        simp only
        rw [if_pos hE, if_pos ⟨by omega, hp⟩, Nat.shiftRight_eq_div_pow]
        rfl
      · intro hnot
        unfold configure_hw
        rw [h]
        simp only
        by_cases hE : err = -EPIPE
        · have hneg : err < 0 := by rw [hE]; decide
          rw [if_pos hE, if_pos hneg]
          cases retry with
          | zero => rfl
          | succ n =>
            simp only
            rw [if_neg (by
              rintro ⟨hn, hp⟩
              exact hnot ⟨hE, by omega, hp⟩)]
        · rw [if_neg hE]

/-- A device whose commit fails with `-EPIPE` in every pass, with the default
configuration: `alsa_setup` commits exactly five times, asking for the period
times 125000, 62500, 31250, 15625 and 7812, and fails. -/
theorem setup_retry_bounded_witness :
    commits (alsa_setup epipe_hw dsd_usb_output ⟨44100, .S16, 2⟩ none none).log = 5 ∧
    period_times (alsa_setup epipe_hw dsd_usb_output ⟨44100, .S16, 2⟩ none none).log =
      [125000, 62500, 31250, 15625, 7812] ∧
    (alsa_setup epipe_hw dsd_usb_output ⟨44100, .S16, 2⟩ none none).success = false ∧
    commits (alsa_setup epipe_hw dsd_usb_output ⟨44100, .S16, 2⟩ none none).log
      ≤ MPD_ALSA_RETRY_NR := by
  refine ⟨?_, ?_, ?_,
    (setup_retry_bounded epipe_hw dsd_usb_output ⟨44100, .S16, 2⟩ none none).1⟩
  all_goals
    unfold alsa_setup configure_hw configure_hw configure_hw configure_hw configure_hw
    decide

/-! ## The first period request -/

/-- The period times of a log that was extended. -/
theorem period_times_append (a b : List HwCall) :
    period_times (a ++ b) = period_times a ++ period_times b := by
  induction a with
  | nil => rfl
  | cons c a ih => cases c <;> simp [period_times, ih]

/-- Offering formats asks for no period time. -/
theorem period_times_set_format (l : List snd_pcm_format_t) :
    period_times (l.map HwCall.set_format) = [] := by
  induction l with
  | nil => rfl
  | cons a l ih => simpa [period_times] using ih

theorem setup_any_period (hw : Hw) (pass : Nat) (v : SetupVars) :
    (∀ e, setup_any hw pass v = .error e → period_times e.log = period_times v.log) ∧
    (∀ v1, setup_any hw pass v = .ok v1 → period_view v1 = period_view v) := by
  simp only [setup_any]
  constructor
  · intro e h
    split_ifs at h
    all_goals first
      | (cases h; done)
      | (cases h; simp [goto_error, period_times_append, period_times])
  · intro v1 h
    split_ifs at h
    all_goals first
      | (cases h; done)
      | (cases h; simp [period_view, period_times_append, period_times])

theorem setup_access_mmap_period (hw : Hw) (pass : Nat) (v : SetupVars) :
    period_view (setup_access_mmap hw pass v) = period_view v := by
  simp only [setup_access_mmap]
  split_ifs <;> simp [period_view, period_times_append, period_times]

theorem setup_access_rw_period (hw : Hw) (pass : Nat) (v : SetupVars) :
    (∀ e, setup_access_rw hw pass v = .error e → period_times e.log = period_times v.log) ∧
    (∀ v1, setup_access_rw hw pass v = .ok v1 → period_view v1 = period_view v) := by
  simp only [setup_access_rw]
  constructor
  · intro e h
    split_ifs at h
    all_goals first
      | (cases h; done)
      | (cases h; simp [goto_error, period_times_append, period_times])
  · intro v1 h
    split_ifs at h
    all_goals first
      | (cases h; done)
      | (cases h; simp [period_view, period_times_append, period_times])

theorem setup_format_period (hw : Hw) (pass : Nat) (v : SetupVars) :
    (∀ e, setup_format hw pass v = .error e → period_times e.log = period_times v.log) ∧
    (∀ v1, setup_format hw pass v = .ok v1 → period_view v1 = period_view v) := by
  simp only [setup_format]
  constructor
  · intro e h
    split_ifs at h
    all_goals first
      | (cases h; done)
      | (cases h; simp [return_false, period_times_append, period_times_set_format])
  · intro v1 h
    split_ifs at h
    all_goals first
      | (cases h; done)
      | (cases h; simp [period_view, period_times_append, period_times_set_format])

theorem setup_channels_period (hw : Hw) (pass : Nat) (v : SetupVars) :
    (∀ e, setup_channels hw pass v = .error e → period_times e.log = period_times v.log) ∧
    (∀ v1, setup_channels hw pass v = .ok v1 → period_view v1 = period_view v) := by
  simp only [setup_channels]
  constructor
  · intro e h
    split_ifs at h
    all_goals first
      | (cases h; done)
      | (cases h; simp [return_false, period_times_append, period_times])
  · intro v1 h
    split_ifs at h
    all_goals first
      | (cases h; done)
      | (cases h; simp [period_view, period_times_append, period_times])

theorem setup_rate_period (hw : Hw) (pass : Nat) (v : SetupVars) :
    (∀ e, setup_rate hw pass v = .error e → period_times e.log = period_times v.log) ∧
    (∀ v1, setup_rate hw pass v = .ok v1 → period_view v1 = period_view v) := by
  simp only [setup_rate]
  constructor
  · intro e h
    split_ifs at h
    all_goals first
      | (cases h; done)
      | (cases h; simp [return_false, period_times_append, period_times])
  · intro v1 h
    split_ifs at h
    all_goals first
      | (cases h; done)
      | (cases h; simp [period_view, period_times_append, period_times])

/-- The buffer stage asks for no period time and ends with the granted
buffer time. -/
theorem setup_buffer_time_period (hw : Hw) (pass : Nat) (v : SetupVars) :
    (∀ e, setup_buffer_time hw pass v = .error e → period_times e.log = period_times v.log) ∧
    (∀ v1 bt, setup_buffer_time hw pass v = .ok (v1, bt) →
      period_view v1 = period_view v ∧ bt = granted_buffer_time hw pass v.ad.buffer_time) := by
  simp only [setup_buffer_time, granted_buffer_time]
  constructor
  · intro e h
    split_ifs at h
    all_goals first
      | (cases h; done)
      | (cases h; simp [goto_error, period_times_append, period_times])
  · intro v1 bt h
    split_ifs at h ⊢
    all_goals first
      | (cases h; done)
      | (cases h; simp [period_view, period_times_append, period_times])

/-- The period stage asks for `next_period_time` if that is positive, and for
nothing otherwise. -/
theorem setup_period_time_period (hw : Hw) (pass : Nat) (v : SetupVars) (bt : Nat) :
    (∀ e, setup_period_time hw pass (v, bt) = .error e →
      0 < next_period_time v.period_time_ro bt ∧
      period_times e.log = period_times v.log ++ [next_period_time v.period_time_ro bt]) ∧
    (∀ v1, setup_period_time hw pass (v, bt) = .ok v1 →
      v1.period_time_ro = next_period_time v.period_time_ro bt ∧
      period_times v1.log = period_times v.log ++
        (if 0 < next_period_time v.period_time_ro bt
          then [next_period_time v.period_time_ro bt] else [])) := by
  simp only [setup_period_time, next_period_time]
  constructor
  · intro e h
    split_ifs at h ⊢
    all_goals first
      | (cases h; done)
      | (cases h
         refine ⟨by assumption, ?_⟩
         simp [goto_error, period_times_append, period_times])
  · intro v1 h
    split_ifs at h ⊢
    all_goals first
      | (cases h; done)
      | (cases h; simp [period_times_append, period_times])

/-- The period times one pass adds to the log: `next_period_time` of the
granted buffer time if the pass gets to the period stage and that value is
positive. -/
theorem pass_period (hw : Hw) (pass : Nat) (v : SetupVars) :
    (∀ e, configure_hw_pass hw pass v = .error e →
      period_times e.log = period_times v.log ∨
      (0 < next_period_time v.period_time_ro
          (granted_buffer_time hw pass v.ad.buffer_time) ∧
        period_times e.log = period_times v.log ++
          [next_period_time v.period_time_ro
            (granted_buffer_time hw pass v.ad.buffer_time)])) ∧
    (∀ err v1, configure_hw_pass hw pass v = .ok (err, v1) →
      v1.period_time_ro = next_period_time v.period_time_ro
        (granted_buffer_time hw pass v.ad.buffer_time) ∧
      period_times v1.log = period_times v.log ++
        (if 0 < next_period_time v.period_time_ro
            (granted_buffer_time hw pass v.ad.buffer_time)
          then [next_period_time v.period_time_ro
            (granted_buffer_time hw pass v.ad.buffer_time)] else [])) := by
  have e1 := setup_any_period hw pass v
  cases h1 : setup_any hw pass v with
  | error e =>
    simp only [configure_hw_pass, bind, Except.bind, h1]
    exact ⟨fun e0 h => by cases h; exact Or.inl (e1.1 e h1), fun _ _ h => by cases h⟩
  | ok v1 =>
    have q1 := e1.2 v1 h1
    have e2 := setup_access_rw_period hw pass (setup_access_mmap hw pass v1)
    have q1b := setup_access_mmap_period hw pass v1
    cases h2 : setup_access_rw hw pass (setup_access_mmap hw pass v1) with
    | error e =>
      simp only [configure_hw_pass, bind, Except.bind, h1, h2]
      refine ⟨fun e0 h => ?_, fun _ _ h => by cases h⟩
      cases h
      left
      rw [e2.1 e h2]
      have := q1b.trans q1
      simp only [period_view, Prod.mk.injEq] at this
      exact this.2.2
    | ok v2 =>
      have q2 := ((e2.2 v2 h2).trans q1b).trans q1
      have e3 := setup_format_period hw pass v2
      cases h3 : setup_format hw pass v2 with
      | error e =>
        simp only [configure_hw_pass, bind, Except.bind, h1, h2, h3]
        refine ⟨fun e0 h => ?_, fun _ _ h => by cases h⟩
        cases h
        left
        rw [e3.1 e h3]
        simp only [period_view, Prod.mk.injEq] at q2
        exact q2.2.2
      | ok v3 =>
        have q3 := (e3.2 v3 h3).trans q2
        have e4 := setup_channels_period hw pass v3
        cases h4 : setup_channels hw pass v3 with
        | error e =>
          simp only [configure_hw_pass, bind, Except.bind, h1, h2, h3, h4]
          refine ⟨fun e0 h => ?_, fun _ _ h => by cases h⟩
          cases h
          left
          rw [e4.1 e h4]
          simp only [period_view, Prod.mk.injEq] at q3
          exact q3.2.2
        | ok v4 =>
          have q4 := (e4.2 v4 h4).trans q3
          have e5 := setup_rate_period hw pass v4
          cases h5 : setup_rate hw pass v4 with
          | error e =>
            simp only [configure_hw_pass, bind, Except.bind, h1, h2, h3, h4, h5]
            refine ⟨fun e0 h => ?_, fun _ _ h => by cases h⟩
            cases h
            left
            rw [e5.1 e h5]
            simp only [period_view, Prod.mk.injEq] at q4
            exact q4.2.2
          | ok v5 =>
            have q5 := (e5.2 v5 h5).trans q4
            have e6 := setup_buffer_time_period hw pass v5
            cases h6 : setup_buffer_time hw pass v5 with
            | error e =>
              simp only [configure_hw_pass, bind, Except.bind, h1, h2, h3, h4, h5, h6]
              refine ⟨fun e0 h => ?_, fun _ _ h => by cases h⟩
              cases h
              left
              rw [e6.1 e h6]
              simp only [period_view, Prod.mk.injEq] at q5
              exact q5.2.2
            | ok vb =>
              obtain ⟨v6, bt⟩ := vb
              obtain ⟨q6a, hbt⟩ := e6.2 v6 bt h6
              have q6 := q6a.trans q5
              simp only [period_view, Prod.mk.injEq] at q6
              obtain ⟨hro, hbuf, hpt⟩ := q6
              have hbt2 : bt = granted_buffer_time hw pass v.ad.buffer_time := by
                have q5c := q5
                simp only [period_view, Prod.mk.injEq] at q5c
                rw [hbt, q5c.2.1]
              subst hbt2
              have e7 := setup_period_time_period hw pass v6
                (granted_buffer_time hw pass v.ad.buffer_time)
              rw [hro, hpt] at e7
              cases h7 : setup_period_time hw pass
                (v6, granted_buffer_time hw pass v.ad.buffer_time) with
              | error e =>
                simp only [configure_hw_pass, bind, Except.bind, h1, h2, h3, h4, h5, h6, h7]
                refine ⟨fun e0 h => ?_, fun _ _ h => by cases h⟩
                cases h
                right
                exact e7.1 e h7
              | ok v7 =>
                have hpass : configure_hw_pass hw pass v = .ok (setup_commit hw pass v7) := by
                  simp only [configure_hw_pass, bind, Except.bind, pure, Except.pure, h1, h2,
                    h3, h4, h5, h6, h7]
                rw [hpass]
                refine ⟨fun _ h => (by cases h), fun err v8 h => ?_⟩
                simp only [setup_commit, Except.ok.injEq, Prod.mk.injEq] at h
                obtain ⟨_, hB⟩ := h
                subst hB
                obtain ⟨r1, r2⟩ := e7.2 v7 h7
                refine ⟨r1, ?_⟩
                simp only [period_times_append, r2]
                simp [period_times]

/-- The calls after the commit ask for no period time. -/
theorem setup_sw_params_period (hw : Hw) (pass : Nat) (v : SetupVars) :
    period_times (setup_sw_params hw pass v).log = period_times v.log := by
  simp only [setup_sw_params]
  split_ifs <;> simp [goto_error, period_times_append, period_times]

/-- What `configure_hw` asks for comes after what was asked before. -/
theorem configure_hw_period_extends (hw : Hw) (retry pass : Nat) (v : SetupVars) :
    period_times v.log <+: period_times (configure_hw hw retry pass v).log := by
  induction retry generalizing pass v with
  | zero =>
    unfold configure_hw
    have hp := pass_period hw pass v
    cases h : configure_hw_pass hw pass v with
    | error e =>
      simp only
      rcases hp.1 e h with h1 | ⟨_, h1⟩
      · simp [h1]
      · simp [h1]
    | ok ev =>
      obtain ⟨err, v1⟩ := ev
      have hc := (hp.2 err v1 h).2
      simp only
      split_ifs
      all_goals first
        | (simp only [goto_error]; rw [hc]; exact List.prefix_append _ _)
        | (rw [setup_sw_params_period, hc]; exact List.prefix_append _ _)
  | succ n ih =>
    unfold configure_hw
    have hp := pass_period hw pass v
    cases h : configure_hw_pass hw pass v with
    | error e =>
      simp only
      rcases hp.1 e h with h1 | ⟨_, h1⟩
      · simp [h1]
      · simp [h1]
    | ok ev =>
      obtain ⟨err, v1⟩ := ev
      have hc := (hp.2 err v1 h).2
      have hpre : period_times v.log <+: period_times v1.log := by
        rw [hc]
        exact List.prefix_append _ _
      simp only
      split_ifs
      all_goals first
        | (simp only [goto_error]; exact hpre)
        | (rw [setup_sw_params_period]; exact hpre)
        | exact hpre.trans
            (ih (pass + 1) { v1 with period_time_ro := v1.period_time_ro >>> 1 })

/-- After a pass that got to the commit, `configure_hw` goes on asking after
what that pass asked, and asks for nothing more if the pass ended with no
period time. -/
theorem configure_hw_after_pass (hw : Hw) (retry pass : Nat) (v v1 : SetupVars) (err : Int)
    (h : configure_hw_pass hw pass v = .ok (err, v1)) :
    period_times v1.log <+: period_times (configure_hw hw retry pass v).log ∧
    (v1.period_time_ro = 0 →
      period_times (configure_hw hw retry pass v).log = period_times v1.log) := by
  unfold configure_hw
  rw [h]
  simp only
  cases retry with
  | zero =>
    simp only
    split_ifs
    all_goals first
      | exact ⟨List.prefix_refl _, fun _ => rfl⟩
      | (rw [setup_sw_params_period]; exact ⟨List.prefix_refl _, fun _ => rfl⟩)
  | succ n =>
    simp only
    split_ifs with hE hr
    all_goals first
      | exact ⟨List.prefix_refl _, fun _ => rfl⟩
      | (rw [setup_sw_params_period]; exact ⟨List.prefix_refl _, fun _ => rfl⟩)
      | exact ⟨configure_hw_period_extends hw n (pass + 1)
            { v1 with period_time_ro := v1.period_time_ro >>> 1 },
          fun h0 => absurd h0 (by omega)⟩

/-- The first period request of the passes that start with no period time and
an empty log. -/
theorem configure_hw_first_request (hw : Hw) (v : SetupVars)
    (hro : v.period_time_ro = 0) (hlog : v.log = []) :
    (∀ t, (period_times (configure_hw hw MPD_ALSA_RETRY_NR 0 v).log).head? = some t →
      10000 ≤ granted_buffer_time hw 0 v.ad.buffer_time ∧
      t = granted_buffer_time hw 0 v.ad.buffer_time / 4) ∧
    (granted_buffer_time hw 0 v.ad.buffer_time < 10000 →
      period_times (configure_hw hw MPD_ALSA_RETRY_NR 0 v).log = []) ∧
    (10000 ≤ granted_buffer_time hw 0 v.ad.buffer_time →
      0 < commits (configure_hw hw MPD_ALSA_RETRY_NR 0 v).log →
      (period_times (configure_hw hw MPD_ALSA_RETRY_NR 0 v).log).head?
        = some (granted_buffer_time hw 0 v.ad.buffer_time / 4)) := by
  have hp := pass_period hw 0 v
  rw [hro, hlog] at hp
  simp only [period_times, List.nil_append] at hp
  generalize granted_buffer_time hw 0 v.ad.buffer_time = bt at hp ⊢
  have hnext : next_period_time 0 bt = if 10000 ≤ bt then bt / 4 else 0 := by
    simp [next_period_time]
  cases h : configure_hw_pass hw 0 v with
  | error e =>
    have hres : configure_hw hw MPD_ALSA_RETRY_NR 0 v = e := by
      unfold configure_hw
      rw [h]
    have hcom : commits e.log = 0 := by
      rw [(pass_commits hw 0 v).1 e h, hlog]
      rfl
    rw [hres]
    rcases hp.1 e h with h1 | ⟨hpos, h1⟩
    · rw [h1]
      refine ⟨fun t ht => (by cases ht), fun _ => rfl, fun _ hc => (by omega)⟩
    · rw [h1]
      rw [hnext] at hpos ⊢
      by_cases hge : 10000 ≤ bt
      · rw [if_pos hge]
        refine ⟨fun t ht => ?_, fun hlt => (by omega), fun _ hc => (by omega)⟩
        simp only [List.head?_cons, Option.some.injEq] at ht
        exact ⟨hge, ht.symm⟩
      · rw [if_neg hge] at hpos
        omega
  | ok ev =>
    obtain ⟨err, v1⟩ := ev
    obtain ⟨hr1, hr2⟩ := hp.2 err v1 h
    obtain ⟨hpre, hnone⟩ := configure_hw_after_pass hw MPD_ALSA_RETRY_NR 0 v v1 err h
    rw [hnext] at hr1 hr2
    by_cases hge : 10000 ≤ bt
    · have hpos : 0 < bt / 4 := by omega
      rw [if_pos hge] at hr1 hr2
      rw [if_pos hpos] at hr2
      rw [hr2] at hpre
      obtain ⟨rest, hrest⟩ := hpre
      rw [← hrest]
      refine ⟨fun t ht => ?_, fun hlt => (by omega), fun _ _ => rfl⟩
      simp only [List.singleton_append, List.head?_cons, Option.some.injEq] at ht
      exact ⟨hge, ht.symm⟩
    · rw [if_neg hge] at hr1 hr2
      simp only [lt_irrefl, if_false] at hr2
      rw [hnone hr1, hr2]
      refine ⟨fun t ht => (by cases ht), fun _ => rfl, fun hge2 => absurd hge2 hge⟩

/-- Claim C22, amended. For every device and every configuration with no
explicit period time (`ad->period_time == 0`), let `buffer_time` be the
buffer time granted in the first pass of `alsa_setup`.  Every first period
time `alsa_setup` asks the hardware for is `buffer_time / 4`, with
`buffer_time` at least 10000.  If `buffer_time` is below 10000, `alsa_setup`
asks for no period time at all.  If it is at least 10000 and `alsa_setup`
gets as far as `snd_pcm_hw_params`, the first period time asked for is
`buffer_time / 4`. -/
theorem default_period_first_request (hw : Hw) (ad : AlsaOutput) (audio_format : AudioFormat)
    (packed_r reverse_endian_r : Option Bool) (h0 : ad.period_time = 0) :
    (∀ t, (period_times (alsa_setup hw ad audio_format packed_r reverse_endian_r).log).head?
        = some t →
      10000 ≤ granted_buffer_time hw 0 ad.buffer_time ∧
      t = granted_buffer_time hw 0 ad.buffer_time / 4) ∧
    (granted_buffer_time hw 0 ad.buffer_time < 10000 →
      period_times (alsa_setup hw ad audio_format packed_r reverse_endian_r).log = []) ∧
    (10000 ≤ granted_buffer_time hw 0 ad.buffer_time →
      0 < commits (alsa_setup hw ad audio_format packed_r reverse_endian_r).log →
      (period_times (alsa_setup hw ad audio_format packed_r reverse_endian_r).log).head?
        = some (granted_buffer_time hw 0 ad.buffer_time / 4)) := by
  simp only [alsa_setup]
  exact configure_hw_first_request hw _ h0 rfl

/-- The default configuration (no period time, buffer time 500000) on a
device that grants what is asked and fails every commit with `-EPIPE`: the
first period time asked for is 125000, the later ones are its halves. -/
theorem default_period_first_request_witness :
    dsd_usb_output.period_time = 0 ∧
    granted_buffer_time epipe_hw 0 dsd_usb_output.buffer_time = 500000 ∧
    period_times (alsa_setup epipe_hw dsd_usb_output ⟨44100, .S16, 2⟩ none none).log =
      [125000, 62500, 31250, 15625, 7812] ∧
    (period_times (alsa_setup epipe_hw dsd_usb_output ⟨44100, .S16, 2⟩ none none).log).head?
      = some (granted_buffer_time epipe_hw 0 dsd_usb_output.buffer_time / 4) := by
  refine ⟨rfl, by decide, ?_,
    (default_period_first_request epipe_hw dsd_usb_output ⟨44100, .S16, 2⟩ none none rfl).2.2
      (by decide) ?_⟩
  all_goals
    unfold alsa_setup configure_hw configure_hw configure_hw configure_hw configure_hw
    decide

/-! ## The asserts of `alsa_setup_dsd` -/

/-- With `dsd_enabled` set, `alsa_setup_or_dsd` goes through `alsa_setup_dsd`,
and the format is `DSD`. -/
theorem setup_or_dsd_enabled (hw : Hw) (ad : AlsaOutput) (af : AudioFormat)
    (h : dsd_enabled ad af = true) :
    (alsa_setup_or_dsd hw ad af).success = (alsa_setup_dsd hw ad af false none none).success ∧
    (alsa_setup_or_dsd hw ad af).log = (alsa_setup_dsd hw ad af false none none).log ∧
    (alsa_setup_dsd_asserts ad af).2 = true := by
  have hen : ((ad.dsd_usb && decide (af.format = SampleFormat.DSD)) ||
      (ad.dsd_native && decide (af.format = SampleFormat.DSD))) = true := h
  refine ⟨?_, ?_, ?_⟩
  · simp only [alsa_setup_or_dsd, hen, if_true]
    split_ifs with hs
    · simpa using hs
    · simpa using hs
  · simp only [alsa_setup_or_dsd, hen, if_true]
    split_ifs <;> rfl
  · simp only [alsa_setup_dsd_asserts]
    cases hu : ad.dsd_usb <;> cases hn : ad.dsd_native <;>
      simp [hu, hn] at hen ⊢ <;> exact hen

/-- A configuration that sets `dsd_usb` satisfies both asserts whenever
`alsa_setup_or_dsd` goes through `alsa_setup_dsd`. -/
theorem configured_usb_asserts (ad : AlsaOutput) (param : config_param) (af : AudioFormat)
    (husb : param.dsd_usb = some true)
    (h : dsd_enabled (alsa_configure ad param) af = true) :
    alsa_setup_dsd_asserts (alsa_configure ad param) af = (true, true) := by
  have hu : (alsa_configure ad param).dsd_usb = true := by
    simp only [alsa_configure, GetBlockValue, husb, Option.getD_some]
    split_ifs <;> rfl
  have h2 := (setup_or_dsd_enabled (echo_hw no_format) _ af h).2.2
  simp only [alsa_setup_dsd_asserts] at h2 ⊢
  rw [hu, h2]

/-- Claim C27 at the configuration `dsd_native "yes"` (no `dsd_usb` line) and a
DSD stream: `alsa_configure` leaves `dsd_usb` clear and `dsd_native` set,
`alsa_setup_or_dsd` takes the path through `alsa_setup_dsd`, and there
`assert(ad->dsd_usb)` fails while the assert on the format holds. -/
theorem native_config_fails_assert :
    (alsa_configure fresh_output native_block).dsd_usb = false ∧
    (alsa_configure fresh_output native_block).dsd_native = true ∧
    dsd_enabled (alsa_configure fresh_output native_block) ⟨2822400, .DSD, 2⟩ = true ∧
    alsa_setup_dsd_asserts (alsa_configure fresh_output native_block) ⟨2822400, .DSD, 2⟩
      = (false, true) := by
  decide

end Alsa

namespace DecoderInternal

/-! ## `decoder_flush_chunk` -/

/-- Claim C21. For every decoder holding a chunk `c` that is neither in the
pool nor in the pipe, `decoder_flush_chunk` returns, the decoder holds no
chunk afterwards, and: if `c` is empty, `c` is put into the pool and the
pipe is as before (`c` is not in it); otherwise `c` is appended to the tail
of the pipe and the pool is as before (`c` is not in it). -/
theorem flush_moves_chunk (client_is_waiting : Bool) (decoder : Decoder) (places : Places)
    (c : music_chunk) (hc : decoder.chunk = some c)
    (hpool : c ∉ places.pool) (hpipe : c ∉ places.pipe) :
    ∃ r, decoder_flush_chunk client_is_waiting decoder places = some r ∧
      r.decoder.chunk = none ∧
      (c.length = 0 →
        r.places.pool = c :: places.pool ∧ r.places.pipe = places.pipe ∧
        c ∈ r.places.pool ∧ c ∉ r.places.pipe) ∧
      (c.length ≠ 0 →
        r.places.pipe = places.pipe ++ [c] ∧ r.places.pool = places.pool ∧
        c ∈ r.places.pipe ∧ c ∉ r.places.pool) := by
  have hdef : decoder_flush_chunk client_is_waiting decoder places =
      some ⟨{ decoder with chunk := none },
        if IsEmpty c then Return places c else Push places c,
        (if client_is_waiting then [FlushStep.Lock] ++ [FlushStep.signal]
          else [FlushStep.Lock]) ++ [FlushStep.Unlock]⟩ := by
    simp only [decoder_flush_chunk, hc]
  refine ⟨_, hdef, rfl, ?_, ?_⟩
  · intro he
    simp [IsEmpty, he, Return, hpipe]
  · intro he
    simp [IsEmpty, he, Push, hpool]

/-- An empty chunk goes to the pool of a decoder; a chunk of 100 bytes would
go to the pipe. -/
theorem flush_moves_chunk_witness :
    ∃ r, decoder_flush_chunk true ⟨some ⟨0, 1, ⟨7⟩⟩, 1, ⟨7⟩⟩ ⟨[], [⟨100, 1, ⟨7⟩⟩]⟩ = some r ∧
      r.decoder.chunk = none ∧
      ((⟨0, 1, ⟨7⟩⟩ : music_chunk).length = 0 →
        r.places.pool = ⟨0, 1, ⟨7⟩⟩ :: ([] : List music_chunk) ∧
        r.places.pipe = [⟨100, 1, ⟨7⟩⟩] ∧
        (⟨0, 1, ⟨7⟩⟩ : music_chunk) ∈ r.places.pool ∧
        (⟨0, 1, ⟨7⟩⟩ : music_chunk) ∉ r.places.pipe) ∧
      ((⟨0, 1, ⟨7⟩⟩ : music_chunk).length ≠ 0 →
        r.places.pipe = [⟨100, 1, ⟨7⟩⟩] ++ [⟨0, 1, ⟨7⟩⟩] ∧
        r.places.pool = [] ∧
        (⟨0, 1, ⟨7⟩⟩ : music_chunk) ∈ r.places.pipe ∧
        (⟨0, 1, ⟨7⟩⟩ : music_chunk) ∉ r.places.pool) :=
  flush_moves_chunk true ⟨some ⟨0, 1, ⟨7⟩⟩, 1, ⟨7⟩⟩ ⟨[], [⟨100, 1, ⟨7⟩⟩]⟩ ⟨0, 1, ⟨7⟩⟩ rfl
    (by decide) (by decide)

end DecoderInternal

namespace PcmDsdNative

/-! ## The packed words -/

/-- Four bytes combined by `pcm_two_dsd_native` occupy the four bytes of the
word, `a` the most significant. -/
theorem two_dsd_native_eq (a b c d : Nat) :
    pcm_two_dsd_native a b c d = u8 a * 2 ^ 24 + u8 b * 2 ^ 16 + u8 c * 2 ^ 8 + u8 d := by
  have ha : u8 a < 2 ^ 8 := Nat.mod_lt _ (by norm_num)
  have hb : u8 b < 2 ^ 8 := Nat.mod_lt _ (by norm_num)
  have hc : u8 c < 2 ^ 8 := Nat.mod_lt _ (by norm_num)
  have hd : u8 d < 2 ^ 8 := Nat.mod_lt _ (by norm_num)
  simp only [pcm_two_dsd_native, u32]
  generalize u8 a = x at *
  generalize u8 b = y at *
  generalize u8 c = z at *
  generalize u8 d = w at *
  have h1 : 2 ^ 8 * z + w = 2 ^ 8 * z ||| w := Nat.mul_add_lt_is_or hd z
  have h2 : 2 ^ 16 * y + (2 ^ 8 * z + w) = 2 ^ 16 * y ||| (2 ^ 8 * z + w) :=
    Nat.mul_add_lt_is_or (by omega) y
  have h3 : 2 ^ 24 * x + (2 ^ 16 * y + (2 ^ 8 * z + w)) =
      2 ^ 24 * x ||| (2 ^ 16 * y + (2 ^ 8 * z + w)) :=
    Nat.mul_add_lt_is_or (by omega) x
  have hsum : x * 2 ^ 24 + y * 2 ^ 16 + z * 2 ^ 8 + w =
      2 ^ 24 * x + (2 ^ 16 * y + (2 ^ 8 * z + w)) := by ring
  have hor : (0 ||| (x <<< 24) ||| (y <<< 16) ||| (z <<< 8) ||| w) =
      2 ^ 24 * x ||| (2 ^ 16 * y ||| (2 ^ 8 * z ||| w)) := by
    simp only [Nat.shiftLeft_eq, Nat.zero_or, Nat.or_assoc, Nat.mul_comm]
  rw [hor, ← h1, ← h2, ← h3, hsum]
  apply Nat.mod_eq_of_lt
  omega

/-- The loop stores two words per iteration. -/
theorem pack_loop_length (src : Nat → Nat) (i pos : Nat) :
    (pack_loop src i pos).1.length = 2 * i := by
  induction i generalizing pos with
  | zero => rfl
  | succ i ih =>
    simp only [pack_loop, List.length_cons, ih]
    omega

/-- The loop reads eight bytes per iteration. -/
theorem pack_loop_reads (src : Nat → Nat) (i pos : Nat) :
    ∀ j ∈ (pack_loop src i pos).2, pos ≤ j ∧ j < pos + 8 * i := by
  induction i generalizing pos with
  | zero => intro j hj; cases hj
  | succ i ih =>
    intro j hj
    simp only [pack_loop, List.mem_append, List.mem_cons, List.mem_singleton,
      List.not_mem_nil, or_false] at hj
    rcases hj with (h | h | h | h | h | h | h | h) | h
    all_goals first
      | omega
      | (have hih := ih (pos + 8) j h; omega)

/-- The words stored for frame `k` of the loop. -/
theorem pack_loop_words (src : Nat → Nat) (i pos k : Nat) (hk : k < i) :
    (pack_loop src i pos).1.get? (2 * k) = some (pcm_two_dsd_native
      (src (pos + 8 * k + 6)) (src (pos + 8 * k + 4)) (src (pos + 8 * k + 2))
      (src (pos + 8 * k))) ∧
    (pack_loop src i pos).1.get? (2 * k + 1) = some (pcm_two_dsd_native
      (src (pos + 8 * k + 7)) (src (pos + 8 * k + 5)) (src (pos + 8 * k + 3))
      (src (pos + 8 * k + 1))) := by
  induction i generalizing pos k with
  | zero => omega
  | succ i ih =>
    cases k with
    | zero => exact ⟨rfl, rfl⟩
    | succ k =>
      have h := ih (pos + 8) k (by omega)
      have e : pos + 8 * (k + 1) = pos + 8 + 8 * k := by ring
      have e0 : 2 * (k + 1) = 2 * k + 1 + 1 := by ring
      have e1 : 2 * (k + 1) + 1 = 2 * k + 1 + 1 + 1 := by ring
      rw [e, e1, e0]
      simp only [pack_loop, List.get?_cons_succ]
      exact h

/-- The number of iterations for a stereo stream of `8 * n` bytes. -/
theorem stereo_iterations (n : Nat) (hlt : 8 * n < 2 ^ 32) :
    u32 (8 * n) / 2 / 2 / 2 = n := by
  have : u32 (8 * n) = 8 * n := Nat.mod_eq_of_lt hlt
  rw [this]
  omega

/-- A packed word gives back its four bytes. -/
theorem word_bytes (a b c d : Nat) :
    pcm_two_dsd_native a b c d % 256 = u8 d ∧
    (pcm_two_dsd_native a b c d >>> 8) % 256 = u8 c ∧
    (pcm_two_dsd_native a b c d >>> 16) % 256 = u8 b ∧
    (pcm_two_dsd_native a b c d >>> 24) % 256 = u8 a := by
  rw [two_dsd_native_eq]
  have ha : u8 a < 256 := Nat.mod_lt _ (by norm_num)
  have hb : u8 b < 256 := Nat.mod_lt _ (by norm_num)
  have hc : u8 c < 256 := Nat.mod_lt _ (by norm_num)
  have hd : u8 d < 256 := Nat.mod_lt _ (by norm_num)
  generalize u8 a = x at *
  generalize u8 b = y at *
  generalize u8 c = z at *
  generalize u8 d = w at *
  simp only [Nat.shiftRight_eq_div_pow]
  norm_num
  refine ⟨?_, ?_, ?_, ?_⟩ <;> omega

/-- The eight source bytes of a frame group are read back from its two
words. -/
theorem recover_group (words : List Nat) (k a0 a1 a2 a3 a4 a5 a6 a7 : Nat)
    (hl : words.get? (2 * k) = some (pcm_two_dsd_native a6 a4 a2 a0))
    (hr : words.get? (2 * k + 1) = some (pcm_two_dsd_native a7 a5 a3 a1)) :
    recover_source words (8 * k) = u8 a0 ∧ recover_source words (8 * k + 1) = u8 a1 ∧
    recover_source words (8 * k + 2) = u8 a2 ∧ recover_source words (8 * k + 3) = u8 a3 ∧
    recover_source words (8 * k + 4) = u8 a4 ∧ recover_source words (8 * k + 5) = u8 a5 ∧
    recover_source words (8 * k + 6) = u8 a6 ∧ recover_source words (8 * k + 7) = u8 a7 := by
  obtain ⟨w0, w1, w2, w3⟩ := word_bytes a6 a4 a2 a0
  obtain ⟨v0, v1, v2, v3⟩ := word_bytes a7 a5 a3 a1
  have hl0 : words.getD (2 * k + 0) 0 = pcm_two_dsd_native a6 a4 a2 a0 := by
    rw [List.getD_eq_getElem?_getD, ← List.get?_eq_getElem?]
    exact (congrArg (fun o => Option.getD o 0) hl)
  have hr0 : words.getD (2 * k + 1) 0 = pcm_two_dsd_native a7 a5 a3 a1 := by
    rw [List.getD_eq_getElem?_getD, ← List.get?_eq_getElem?, hr]
    rfl
  refine ⟨?_, ?_, ?_, ?_, ?_, ?_, ?_, ?_⟩
  · have e1 : 8 * k / 8 = k := by omega
    have e2 : 8 * k % 2 = 0 := by omega
    have e3 : 8 * k % 8 / 2 = 0 := by omega
    simp only [recover_source]
    rw [e1, e2, e3, hl0]
    exact w0
  · have e1 : (8 * k + 1) / 8 = k := by omega
    have e2 : (8 * k + 1) % 2 = 1 := by omega
    have e3 : (8 * k + 1) % 8 / 2 = 0 := by omega
    simp only [recover_source]
    rw [e1, e2, e3, hr0]
    exact v0
  · have e1 : (8 * k + 2) / 8 = k := by omega
    have e2 : (8 * k + 2) % 2 = 0 := by omega
    have e3 : (8 * k + 2) % 8 / 2 = 1 := by omega
    simp only [recover_source]
    rw [e1, e2, e3, hl0]
    exact w1
  · have e1 : (8 * k + 3) / 8 = k := by omega
    have e2 : (8 * k + 3) % 2 = 1 := by omega
    have e3 : (8 * k + 3) % 8 / 2 = 1 := by omega
    simp only [recover_source]
    rw [e1, e2, e3, hr0]
    exact v1
  · have e1 : (8 * k + 4) / 8 = k := by omega
    have e2 : (8 * k + 4) % 2 = 0 := by omega
    have e3 : (8 * k + 4) % 8 / 2 = 2 := by omega
    simp only [recover_source]
    rw [e1, e2, e3, hl0]
    exact w2
  · have e1 : (8 * k + 5) / 8 = k := by omega
    have e2 : (8 * k + 5) % 2 = 1 := by omega
    have e3 : (8 * k + 5) % 8 / 2 = 2 := by omega
    simp only [recover_source]
    rw [e1, e2, e3, hr0]
    exact v2
  · have e1 : (8 * k + 6) / 8 = k := by omega
    have e2 : (8 * k + 6) % 2 = 0 := by omega
    have e3 : (8 * k + 6) % 8 / 2 = 3 := by omega
    simp only [recover_source]
    rw [e1, e2, e3, hl0]
    exact w3
  · have e1 : (8 * k + 7) / 8 = k := by omega
    have e2 : (8 * k + 7) % 2 = 1 := by omega
    have e3 : (8 * k + 7) % 8 / 2 = 3 := by omega
    simp only [recover_source]
    rw [e1, e2, e3, hr0]
    exact v3

/-- Claim C25, at a size of 4 GiB: the number of samples is kept in an
`unsigned`, so for `src_size` = 2^32, a positive multiple of 8, the loop does
not run and no output word is stored, although 2^32 bytes are reported. -/
theorem native_size_truncated :
    2 ^ 32 % 8 = 0 ∧ 0 < 2 ^ 32 / 8 ∧
    (pcm_dsd_native 2 ramp (2 ^ 32)).dest_size = 2 ^ 32 ∧
    (pcm_dsd_native 2 ramp (2 ^ 32)).words.get? (2 * 0) = none := by
  decide

/-- Claim C25, amended. For `channels` = 2 and every `src_size` = `8 * n`
below 2^32 (the range of the `unsigned` sample count):
`dest_size` equals `src_size`, as many bytes are stored, and for every
`k < src_size / 8` word `2k` is
`src[8k+6]<<24 | src[8k+4]<<16 | src[8k+2]<<8 | src[8k]` and word `2k+1` is
`src[8k+7]<<24 | src[8k+5]<<16 | src[8k+3]<<8 | src[8k+1]`, each byte in its
own byte of the 32 bit word; every source byte `j` is read back from the
words by `recover_source`. -/
theorem native_packs_stereo (src : Nat → Nat) (n : Nat) (hlt : 8 * n < 2 ^ 32) :
    (pcm_dsd_native 2 src (8 * n)).dest_size = 8 * n ∧
    bytes_written (pcm_dsd_native 2 src (8 * n)) = 8 * n ∧
    (∀ k, k < 8 * n / 8 →
      (pcm_dsd_native 2 src (8 * n)).words.get? (2 * k) =
        some (u8 (src (8 * k + 6)) * 2 ^ 24 + u8 (src (8 * k + 4)) * 2 ^ 16
          + u8 (src (8 * k + 2)) * 2 ^ 8 + u8 (src (8 * k))) ∧
      (pcm_dsd_native 2 src (8 * n)).words.get? (2 * k + 1) =
        some (u8 (src (8 * k + 7)) * 2 ^ 24 + u8 (src (8 * k + 5)) * 2 ^ 16
          + u8 (src (8 * k + 3)) * 2 ^ 8 + u8 (src (8 * k + 1)))) ∧
    (∀ j, j < 8 * n → recover_source (pcm_dsd_native 2 src (8 * n)).words j = u8 (src j)) := by
  have hwords : (pcm_dsd_native 2 src (8 * n)).words = (pack_loop src n 0).1 := by
    simp only [pcm_dsd_native, stereo_iterations n hlt]
  have hk : ∀ k, k < n →
      (pack_loop src n 0).1.get? (2 * k) = some (pcm_two_dsd_native
        (src (8 * k + 6)) (src (8 * k + 4)) (src (8 * k + 2)) (src (8 * k))) ∧
      (pack_loop src n 0).1.get? (2 * k + 1) = some (pcm_two_dsd_native
        (src (8 * k + 7)) (src (8 * k + 5)) (src (8 * k + 3)) (src (8 * k + 1))) := by
    intro k hk
    have h := pack_loop_words src n 0 k hk
    simpa only [Nat.zero_add] using h
  refine ⟨rfl, ?_, ?_, ?_⟩
  · simp only [bytes_written, hwords, pack_loop_length]
    omega
  · intro k hkn
    have h := hk k (by omega)
    simp only [two_dsd_native_eq] at h
    rw [hwords]
    exact h
  · intro j hj
    rw [hwords]
    obtain ⟨k, m, hm, rfl⟩ : ∃ k m, m < 8 ∧ j = 8 * k + m :=
      ⟨j / 8, j % 8, Nat.mod_lt _ (by norm_num), (Nat.div_add_mod j 8).symm⟩
    obtain ⟨hl, hr⟩ := hk k (by omega)
    obtain ⟨f0, f1, f2, f3, f4, f5, f6, f7⟩ := recover_group _ k _ _ _ _ _ _ _ _ hl hr
    interval_cases m
    · exact f0
    · exact f1
    · exact f2
    · exact f3
    · exact f4
    · exact f5
    · exact f6
    · exact f7

/-- One stereo frame group, the bytes 0 to 7: the words `0x06040200` and
`0x07050301`. -/
theorem native_packs_stereo_witness :
    (pcm_dsd_native 2 ramp (8 * 1)).dest_size = 8 * 1 ∧
    bytes_written (pcm_dsd_native 2 ramp (8 * 1)) = 8 * 1 ∧
    (pcm_dsd_native 2 ramp (8 * 1)).words = [0x06040200, 0x07050301] ∧
    (∀ j, j < 8 * 1 → recover_source (pcm_dsd_native 2 ramp (8 * 1)).words j = u8 (ramp j)) :=
  ⟨(native_packs_stereo ramp 1 (by decide)).1,
   (native_packs_stereo ramp 1 (by decide)).2.1,
   by decide,
   (native_packs_stereo ramp 1 (by decide)).2.2.2⟩

/-! ## Bounds and the unwritten part of the output -/

/-- With two or more channels the reads stay below `src_size` and no more than
`dest_size` bytes are stored. -/
theorem native_in_bounds (channels : Nat) (src : Nat → Nat) (src_size : Nat)
    (hc : 2 ≤ channels) :
    (∀ j ∈ (pcm_dsd_native channels src src_size).reads, j < src_size) ∧
    bytes_written (pcm_dsd_native channels src src_size)
      ≤ (pcm_dsd_native channels src src_size).dest_size := by
  have hu : u32 src_size ≤ src_size := Nat.mod_le _ _
  have hdiv : u32 src_size / channels ≤ u32 src_size / 2 :=
    Nat.div_le_div_left hc (by norm_num)
  have hi : 8 * (u32 src_size / channels / 2 / 2) ≤ src_size := by omega
  constructor
  · intro j hj
    have := pack_loop_reads src (u32 src_size / channels / 2 / 2) 0 j hj
    omega
  · simp only [bytes_written, pcm_dsd_native, pack_loop_length]
    omega

/-- Claim C26 at one channel and four source bytes: the loop runs once, reads
the indices 0 to 7 of a source of 4 bytes and stores 8 bytes into the 4 it
asked the buffer for. -/
theorem native_mono_overruns :
    (pcm_dsd_native 1 ramp 4).dest_size = 4 ∧
    (pcm_dsd_native 1 ramp 4).reads = [6, 4, 2, 0, 7, 5, 3, 1] ∧
    bytes_written (pcm_dsd_native 1 ramp 4) = 8 := by
  decide

/-- Claim C24 at two channels and four source bytes: four bytes of output are
reported, none is stored, and the word handed out is what the buffer held
before, so the same input gives different output for different buffers. -/
theorem native_reports_unwritten :
    (pcm_dsd_native 2 ramp 4).dest_size = 4 ∧
    bytes_written (pcm_dsd_native 2 ramp 4) = 0 ∧
    buffer_after (fun _ => 0) (pcm_dsd_native 2 ramp 4) 0 = 0 ∧
    buffer_after (fun _ => 1) (pcm_dsd_native 2 ramp 4) 0 = 1 := by
  decide

end PcmDsdNative

namespace DsdHybrid

/-! ## The atom search -/

/-- Claim C29 at a crafted `moov` atom.  The search for `udta` in the 16 bytes
finds the child at offset 8 with size 4.  The search for `meta` in that
child of 4 bytes computes `4 - 8` in `size_t`, which wraps around, takes the
stored size 8 for fitting, reads the bytes at offsets 12 to 15 behind the
parent, and returns `true` with a child at offset 16, behind the parent. -/
theorem find_child_leaves_parent :
    dsdhybrid_tags_find_child_atom crafted_moov 1 0 16 (atom_name_of "udta") =
      ⟨.returned true, 8, 4, [0, 1, 2, 3, 4, 5, 6, 7]⟩ ∧
    dsdhybrid_tags_find_child_atom crafted_moov 1 8 4 (atom_name_of "meta") =
      ⟨.returned true, 16, 0, [8, 9, 10, 11, 12, 13, 14, 15]⟩ ∧
    u64 (4 + 2 ^ 64 - 8) = 2 ^ 64 - 4 := by
  decide

/-! ## The numeric genre -/

/-- The genre numbers 1 to 148 index the table. -/
theorem genre_index_in_table (num : Nat) (h1 : 1 ≤ u8 num) (h2 : u8 num ≤ 148) :
    0 ≤ genre_index num ∧ genre_index num < genres.length := by
  have hl : genres.length = 148 := rfl
  rw [hl]
  simp only [genre_index]
  omega

/-- Claim C30 at the genre number 0, which passes the check `num > 148`: the
index `num - 1` is `-1`, outside the table `genres` of 148 entries, and the
tag handler is invoked with what lies there. -/
theorem genre_zero_outside_table :
    genres.length = 148 ∧
    genre_index 0 = -1 ∧
    dsdhybrid_invoke_genre_num_tag (gnre_payload 0) 0 18 = .outside_table (-1) :=
  ⟨rfl, rfl, rfl⟩

end DsdHybrid
